import Mathlib

/-!
# ggnucash virtual device bus: a shallow embedding

Lean model of `packages/ggnucash/src/virtual-device.cpp`,
`include/ggnucash/vdev/virtual-device.h` and of the lifecycle hooks, the
register helpers and the model, inference, reset and self-test methods of
`src/llama-coprocessor-driver.cpp`.

Conventions of the embedding:

* `uint64_t`, `uint32_t` and `uint8_t` values are natural numbers; every
  wrapping operation of the source carries its modulus explicitly
  (`18446744073709551616 = 2^64`, `4294967296 = 2^32`, `256 = 2^8`).
* `std::vector<uint8_t>` is a `List Nat`.
* A C++ exception is a value of `Fault`; an operation that mutates state and
  may throw returns the outcome together with the state it leaves behind, so
  that the effects that precede a throw stay observable.
* A `MemoryRegion*` is the position of the region in `memory_regions_`
  together with the region it points to; a `DeviceDriver*` is a natural
  number, `0` being the null pointer.
* A method that reads `std::chrono::steady_clock::now()` takes the reading as
  an argument, a tick count in nanoseconds; a `double` is a `Float`.
* The invocations of a `TokenCallback` are returned as a list, in order; the
  callback is taken to return normally and to leave the driver and the bus
  alone.
* The mutex and the atomicity of the two flags play no part: the model is
  sequential.
* The calls a client makes on one driver are a list of `DriverOp`; a caller
  that catches an exception goes on with the driver and the bus as the call
  left them.
-/

namespace ggnucash.vdev

/-! ## virtual-device.h -/

/-- The enum class `MemoryRegionType`. -/
inductive MemoryRegionType where
  | FLASH
  | SRAM
  | PERIPH
  | RESERVED
  deriving DecidableEq, Repr

/-- The struct `MemoryRegion`. -/
structure MemoryRegion where
  base_addr : Nat
  size : Nat
  type : MemoryRegionType
  name : String
  data : List Nat
  deriving DecidableEq, Repr

/-- The constructor `MemoryRegion(base, sz, t, n)`: `data.resize(sz, 0)`. -/
def MemoryRegion.ctor (base sz : Nat) (t : MemoryRegionType) (n : String) :
    MemoryRegion :=
  { base_addr := base, size := sz, type := t, name := n, data := List.replicate sz 0 }

/-- The method `MemoryRegion::contains`:
`addr >= base_addr && addr < (base_addr + size)`, the sum taken in `uint64_t`. -/
def MemoryRegion.contains (r : MemoryRegion) (addr : Nat) : Bool :=
  decide (addr ≥ r.base_addr) &&
    decide (addr < (r.base_addr + r.size) % 18446744073709551616)

/-- The data members of `VirtualPCB`. -/
structure VirtualPCB where
  memory_regions_ : List MemoryRegion
  attached_drivers_ : List Nat
  deriving DecidableEq

/-- The exceptions the modelled code throws, one constructor per throw site,
and the one outcome C++ leaves undefined. -/
inductive Fault where
  /-- `std::runtime_error("Memory read fault: address 0x... is not mapped")` -/
  | read_unmapped (addr : Nat)
  /-- `std::runtime_error("Memory write fault: address 0x... is not mapped")` -/
  | write_unmapped (addr : Nat)
  /-- `std::invalid_argument("Cannot attach null driver")` -/
  | invalid_argument
  /-- `std::runtime_error("PCB not attached")` -/
  | pcb_not_attached
  /-- An out-of-range `data[offset]` or a call through a null driver pointer. -/
  | undefined_behaviour
  deriving DecidableEq, Repr

/-! ## virtual-device.cpp -/

/-- The method `VirtualPCB::add_memory_region`. -/
def VirtualPCB.add_memory_region (pcb : VirtualPCB) (base_addr size : Nat)
    (type : MemoryRegionType) (name : String) : VirtualPCB :=
  { pcb with
    memory_regions_ :=
      pcb.memory_regions_ ++ [MemoryRegion.ctor base_addr size type name] }

/-- The constructor `VirtualPCB::VirtualPCB`: the three standard regions. -/
def VirtualPCB.ctor : VirtualPCB :=
  let pcb0 : VirtualPCB := { memory_regions_ := [], attached_drivers_ := [] }
  let pcb1 := pcb0.add_memory_region 0x00000000 (16 * 1024 * 1024) MemoryRegionType.FLASH "FLASH"
  let pcb2 := pcb1.add_memory_region 0x20000000 (16 * 1024 * 1024) MemoryRegionType.SRAM "SRAM"
  pcb2.add_memory_region 0x40000000 (1 * 1024 * 1024) MemoryRegionType.PERIPH "PERIPH"

/-- The loop of `VirtualPCB::get_region` over `memory_regions_`: the first
region whose `contains(addr)` holds, with its position; `none` is `nullptr`. -/
def get_region_loop : List MemoryRegion → Nat → Option (Nat × MemoryRegion)
  | [], _ => none
  | region :: rest, addr =>
      if region.contains addr then some (0, region)
      else (get_region_loop rest addr).map (fun p => (p.1 + 1, p.2))

/-- The method `VirtualPCB::get_region` (both overloads run the same loop). -/
def VirtualPCB.get_region (pcb : VirtualPCB) (addr : Nat) : Option (Nat × MemoryRegion) :=
  get_region_loop pcb.memory_regions_ addr

/-- The method `VirtualPCB::read_memory`. The offset is the `uint64_t`
difference `addr - region->base_addr`. -/
def VirtualPCB.read_memory (pcb : VirtualPCB) (addr : Nat) : Except Fault Nat :=
  match pcb.get_region addr with
  | none => Except.error (Fault.read_unmapped addr)
  | some (_, region) =>
      let offset := (addr + 18446744073709551616 - region.base_addr) % 18446744073709551616
      match region.data[offset]? with
      | some byte => Except.ok byte
      | none => Except.error Fault.undefined_behaviour

/-- The method `VirtualPCB::write_memory`: the outcome and the bus afterwards. -/
def VirtualPCB.write_memory (pcb : VirtualPCB) (addr value : Nat) :
    Except Fault Unit × VirtualPCB :=
  match pcb.get_region addr with
  | none => (Except.error (Fault.write_unmapped addr), pcb)
  | some (i, region) =>
      let offset := (addr + 18446744073709551616 - region.base_addr) % 18446744073709551616
      if offset < region.data.length then
        (Except.ok (),
          { pcb with
            memory_regions_ :=
              pcb.memory_regions_.set i { region with data := region.data.set offset value } })
      else (Except.error Fault.undefined_behaviour, pcb)

/-- The loop of `VirtualPCB::read_memory_block` with `n` iterations left at
index `i`: `buffer[i] = read_memory(addr + i)`. The result is the outcome and
the output buffer. -/
def read_memory_block_loop (pcb : VirtualPCB) (addr : Nat) :
    Nat → Nat → List Nat → Except Fault Unit × List Nat
  | 0, _, buffer => (Except.ok (), buffer)
  | n + 1, i, buffer =>
      match pcb.read_memory ((addr + i) % 18446744073709551616) with
      | Except.error e => (Except.error e, buffer)
      | Except.ok byte =>
          if i < buffer.length then read_memory_block_loop pcb addr n (i + 1) (buffer.set i byte)
          else (Except.error Fault.undefined_behaviour, buffer)

/-- The method `VirtualPCB::read_memory_block`. -/
def VirtualPCB.read_memory_block (pcb : VirtualPCB) (addr : Nat) (buffer : List Nat)
    (size : Nat) : Except Fault Unit × List Nat :=
  read_memory_block_loop pcb addr size 0 buffer

/-- The loop of `VirtualPCB::write_memory_block` with `n` iterations left at
index `i`: `write_memory(addr + i, buffer[i])`. A throw ends the loop and
keeps the bytes already written; reading past the end of `buffer` is
undefined. -/
def write_memory_block_loop (addr : Nat) (buffer : List Nat) :
    Nat → Nat → VirtualPCB → Except Fault Unit × VirtualPCB
  | 0, _, pcb => (Except.ok (), pcb)
  | n + 1, i, pcb =>
      match buffer[i]? with
      | none => (Except.error Fault.undefined_behaviour, pcb)
      | some byte =>
          match pcb.write_memory ((addr + i) % 18446744073709551616) byte with
          | (Except.ok _, pcb1) => write_memory_block_loop addr buffer n (i + 1) pcb1
          | (Except.error e, pcb1) => (Except.error e, pcb1)

/-- The method `VirtualPCB::write_memory_block`. -/
def VirtualPCB.write_memory_block (pcb : VirtualPCB) (addr : Nat) (buffer : List Nat)
    (size : Nat) : Except Fault Unit × VirtualPCB :=
  write_memory_block_loop addr buffer size 0 pcb

/-- The representation invariant of a bus: every region stores exactly `size`
bytes, each a `uint8_t`. The constructors establish it and every operation
keeps it. -/
def VirtualPCB.WellFormed (pcb : VirtualPCB) : Prop :=
  ∀ r ∈ pcb.memory_regions_, r.data.length = r.size ∧ ∀ b ∈ r.data, b < 256

/-- An address is mapped when `get_region` does not return `nullptr`. -/
def VirtualPCB.mapped (pcb : VirtualPCB) (addr : Nat) : Bool :=
  (pcb.get_region addr).isSome

instance (pcb : VirtualPCB) : Decidable pcb.WellFormed := by
  unfold VirtualPCB.WellFormed
  infer_instance

/-! ## llama-coprocessor-driver.h: register layout -/

abbrev REG_BASE : Nat := 0x40001000
abbrev REG_CMD : Nat := REG_BASE + 0x00
abbrev REG_STATUS : Nat := REG_BASE + 0x04
abbrev REG_PROMPT_ADDR : Nat := REG_BASE + 0x08
abbrev REG_PROMPT_LEN : Nat := REG_BASE + 0x0C
abbrev REG_N_PREDICT : Nat := REG_BASE + 0x10
abbrev REG_TOKEN_OUT : Nat := REG_BASE + 0x14
abbrev REG_TOKEN_READY : Nat := REG_BASE + 0x18
abbrev REG_MODEL_ID : Nat := REG_BASE + 0x1C
abbrev REG_CTX_USED : Nat := REG_BASE + 0x20
abbrev REG_ERROR_CODE : Nat := REG_BASE + 0x24
abbrev REG_PERF_TOKENS_SEC : Nat := REG_BASE + 0x28

abbrev STATUS_IDLE : Nat := 0x01
abbrev STATUS_BUSY : Nat := 0x02
abbrev STATUS_EOG : Nat := 0x04
abbrev STATUS_ERROR : Nat := 0x08
abbrev STATUS_MODEL_READY : Nat := 0x10
abbrev STATUS_TOKEN_READY : Nat := 0x20

abbrev CMD_RESET : Nat := 0x01
abbrev CMD_LOAD_MODEL : Nat := 0x02
abbrev CMD_START_INF : Nat := 0x04
abbrev CMD_SOFT_STOP : Nat := 0x08

/-- A value of type `VirtualPCB*`. The model holds one bus, so such a pointer
is either null or the address of that bus. -/
inductive PcbPtr where
  | null
  | bus
  deriving DecidableEq, Repr

/-- The struct `LlamaModelConfig`; an `int32_t` member is an integer. -/
structure LlamaModelConfig where
  model_path : String
  model_name : String
  n_ctx : Int
  n_threads : Int
  n_gpu_layers : Int
  batch_size : Int
  offload_kv_cache : Bool
  low_vram_mode : Bool

/-- The struct `LlamaSequenceConfig`. -/
structure LlamaSequenceConfig where
  n_predict : Int
  max_ctx : Int
  echo_prompt : Bool
  stream_tokens : Bool
  system_prompt : String

/-- The struct `LlamaTelemetry`: a `double`, four `uint64_t` counters and two
readings of `std::chrono::steady_clock`, taken as tick counts in nanoseconds. -/
structure LlamaTelemetry where
  tokens_per_second : Float
  total_tokens_generated : Nat
  total_prompts : Nat
  last_prompt_tokens : Nat
  last_completion_tokens : Nat
  last_inference_start : Nat
  last_inference_end : Nat

/-- The data members of `LlamaCoprocessorDriver` that the modelled methods
read or write: the inherited back-reference `DeviceDriver::pcb`, the model
configuration, the telemetry record and the two atomic flags. -/
structure LlamaCoprocessorDriver where
  pcb : PcbPtr
  model_config_ : LlamaModelConfig
  telemetry_ : LlamaTelemetry
  model_loaded_ : Bool
  inference_active_ : Bool

/-- The conversion of an `int32_t` or `int64_t` to `uint32_t`. -/
def to_uint32 (i : Int) : Nat := (i % 4294967296).toNat

/-- The conversion of an `int32_t` to `uint64_t`. -/
def to_uint64 (i : Int) : Nat := (i % 18446744073709551616).toNat

/-- The conversion `static_cast<int32_t>` of a `uint32_t`. -/
def to_int32 (v : Nat) : Int :=
  if v % 4294967296 < 2147483648 then ((v % 4294967296 : Nat) : Int)
  else ((v % 4294967296 : Nat) : Int) - 4294967296

/-- Sequencing of two steps on the bus: a throw in the first skips the second. -/
def bus_then {α β : Type} (r : Except Fault α × VirtualPCB)
    (k : α → VirtualPCB → Except Fault β × VirtualPCB) : Except Fault β × VirtualPCB :=
  match r with
  | (Except.ok a, pcb) => k a pcb
  | (Except.error e, pcb) => (Except.error e, pcb)

/-! ## llama-coprocessor-driver.cpp: lifecycle hooks and register helpers -/

/-- The method `LlamaCoprocessorDriver::load`. -/
def LlamaCoprocessorDriver.load (drv : LlamaCoprocessorDriver) (pcb_ : PcbPtr) :
    Bool × LlamaCoprocessorDriver :=
  if pcb_ = PcbPtr.null then (false, drv)
  else (true, { drv with pcb := pcb_ })

/-- The loop body of `write_reg32`, for the values of `i` listed:
`pcb->write_memory(addr + i, uint8_t((value >> (8 * i)) & 0xFF))`. A throw ends
the loop and keeps the bytes already written. -/
def write_reg32_loop (addr value : Nat) : List Nat → VirtualPCB → Except Fault Unit × VirtualPCB
  | [], pcb => (Except.ok (), pcb)
  | i :: rest, pcb =>
      let byte := ((value >>> (8 * i)) &&& 0xFF) % 256
      match pcb.write_memory ((addr + i) % 18446744073709551616) byte with
      | (Except.ok _, pcb1) => write_reg32_loop addr value rest pcb1
      | (Except.error e, pcb1) => (Except.error e, pcb1)

/-- The method `LlamaCoprocessorDriver::write_reg32`, run against the bus the
back-reference points to. -/
def LlamaCoprocessorDriver.write_reg32 (drv : LlamaCoprocessorDriver) (pcb : VirtualPCB)
    (addr value : Nat) : Except Fault Unit × VirtualPCB :=
  if drv.pcb = PcbPtr.null then (Except.error Fault.pcb_not_attached, pcb)
  else write_reg32_loop addr value [0, 1, 2, 3] pcb

/-- The loop body of `read_reg32`, for the values of `i` listed:
`value |= uint32_t(pcb->read_memory(addr + i)) << (8 * i)`. -/
def read_reg32_loop (pcb : VirtualPCB) (addr : Nat) : List Nat → Nat → Except Fault Nat
  | [], value => Except.ok value
  | i :: rest, value =>
      match pcb.read_memory ((addr + i) % 18446744073709551616) with
      | Except.ok byte =>
          read_reg32_loop pcb addr rest (value ||| ((byte <<< (8 * i)) % 4294967296))
      | Except.error e => Except.error e

/-- The method `LlamaCoprocessorDriver::read_reg32`. -/
def LlamaCoprocessorDriver.read_reg32 (drv : LlamaCoprocessorDriver) (pcb : VirtualPCB)
    (addr : Nat) : Except Fault Nat :=
  if drv.pcb = PcbPtr.null then Except.error Fault.pcb_not_attached
  else read_reg32_loop pcb addr [0, 1, 2, 3] 0

/-- The method `LlamaCoprocessorDriver::unload_model`; `~STATUS_MODEL_READY` is
the `uint32_t` complement `4294967295 - STATUS_MODEL_READY`. -/
def LlamaCoprocessorDriver.unload_model (drv : LlamaCoprocessorDriver) (pcb : VirtualPCB) :
    Except Fault Bool × LlamaCoprocessorDriver × VirtualPCB :=
  if !drv.model_loaded_ then (Except.ok true, drv, pcb)
  else
    match drv.read_reg32 pcb REG_STATUS with
    | Except.error e => (Except.error e, drv, pcb)
    | Except.ok status =>
        match drv.write_reg32 pcb REG_STATUS (status &&& (4294967295 - STATUS_MODEL_READY)) with
        | (Except.error e, pcb1) => (Except.error e, drv, pcb1)
        | (Except.ok _, pcb1) => (Except.ok true, { drv with model_loaded_ := false }, pcb1)

/-- The method `LlamaCoprocessorDriver::remove`. -/
def LlamaCoprocessorDriver.remove (drv : LlamaCoprocessorDriver) (pcb : VirtualPCB) :
    Except Fault Bool × LlamaCoprocessorDriver × VirtualPCB :=
  if drv.model_loaded_ then
    match drv.unload_model pcb with
    | (Except.error e, drv1, pcb1) => (Except.error e, drv1, pcb1)
    | (Except.ok _, drv1, pcb1) => (Except.ok true, { drv1 with pcb := PcbPtr.null }, pcb1)
  else (Except.ok true, { drv with pcb := PcbPtr.null }, pcb)

/-- The method `LlamaCoprocessorDriver::initialize`. -/
def LlamaCoprocessorDriver.initialize (drv : LlamaCoprocessorDriver) (pcb : VirtualPCB) :
    Except Fault Bool × VirtualPCB :=
  if drv.pcb = PcbPtr.null then (Except.ok false, pcb)
  else
    bus_then (drv.write_reg32 pcb REG_CMD 0) fun _ pcb1 =>
    bus_then (drv.write_reg32 pcb1 REG_STATUS STATUS_IDLE) fun _ pcb2 =>
    bus_then (drv.write_reg32 pcb2 REG_PROMPT_ADDR 0) fun _ pcb3 =>
    bus_then (drv.write_reg32 pcb3 REG_PROMPT_LEN 0) fun _ pcb4 =>
    bus_then (drv.write_reg32 pcb4 REG_N_PREDICT 0) fun _ pcb5 =>
    bus_then (drv.write_reg32 pcb5 REG_TOKEN_OUT 0) fun _ pcb6 =>
    bus_then (drv.write_reg32 pcb6 REG_TOKEN_READY 0) fun _ pcb7 =>
    bus_then (drv.write_reg32 pcb7 REG_MODEL_ID 0) fun _ pcb8 =>
    bus_then (drv.write_reg32 pcb8 REG_CTX_USED 0) fun _ pcb9 =>
    bus_then (drv.write_reg32 pcb9 REG_ERROR_CODE 0) fun _ pcb10 =>
    bus_then (drv.write_reg32 pcb10 REG_PERF_TOKENS_SEC 0) fun _ pcb11 =>
    (Except.ok true, pcb11)

/-- The method `LlamaCoprocessorDriver::load_model`. -/
def LlamaCoprocessorDriver.load_model (drv : LlamaCoprocessorDriver) (pcb : VirtualPCB) :
    Except Fault Bool × LlamaCoprocessorDriver × VirtualPCB :=
  if drv.model_loaded_ then (Except.ok true, drv, pcb)
  else
    match drv.read_reg32 pcb REG_STATUS with
    | Except.error e => (Except.error e, drv, pcb)
    | Except.ok status =>
        match drv.write_reg32 pcb REG_STATUS (status ||| STATUS_MODEL_READY) with
        | (Except.error e, pcb1) => (Except.error e, drv, pcb1)
        | (Except.ok _, pcb1) => (Except.ok true, { drv with model_loaded_ := true }, pcb1)

/-- The method `LlamaCoprocessorDriver::is_model_loaded`. -/
def LlamaCoprocessorDriver.is_model_loaded (drv : LlamaCoprocessorDriver) : Bool :=
  drv.model_loaded_

/-- The method `LlamaCoprocessorDriver::configure_inference`; `prompt_addr` is
a `uint64_t`, `prompt_len` a `uint32_t`. -/
def LlamaCoprocessorDriver.configure_inference (drv : LlamaCoprocessorDriver)
    (pcb : VirtualPCB) (prompt_addr prompt_len : Nat) (seq_cfg : LlamaSequenceConfig) :
    Except Fault Bool × VirtualPCB :=
  if !drv.model_loaded_ then (Except.ok false, pcb)
  else
    bus_then (drv.write_reg32 pcb REG_PROMPT_ADDR (prompt_addr % 4294967296)) fun _ pcb1 =>
    bus_then (drv.write_reg32 pcb1 REG_PROMPT_LEN prompt_len) fun _ pcb2 =>
    bus_then (drv.write_reg32 pcb2 REG_N_PREDICT (to_uint32 seq_cfg.n_predict)) fun _ pcb3 =>
    (Except.ok true, pcb3)

/-- The method `LlamaCoprocessorDriver::start_inference`; `now` is the reading
of `std::chrono::steady_clock::now()` the call takes. -/
def LlamaCoprocessorDriver.start_inference (drv : LlamaCoprocessorDriver) (pcb : VirtualPCB)
    (now : Nat) : Except Fault Bool × LlamaCoprocessorDriver × VirtualPCB :=
  if !drv.model_loaded_ then
    match drv.read_reg32 pcb REG_STATUS with
    | Except.error e => (Except.error e, drv, pcb)
    | Except.ok status =>
        match drv.write_reg32 pcb REG_STATUS (status ||| STATUS_ERROR) with
        | (Except.error e, pcb1) => (Except.error e, drv, pcb1)
        | (Except.ok _, pcb1) =>
            match drv.write_reg32 pcb1 REG_ERROR_CODE 1 with
            | (Except.error e, pcb2) => (Except.error e, drv, pcb2)
            | (Except.ok _, pcb2) => (Except.ok false, drv, pcb2)
  else
    match drv.read_reg32 pcb REG_STATUS with
    | Except.error e => (Except.error e, drv, pcb)
    | Except.ok status =>
        match drv.write_reg32 pcb REG_STATUS
            (((status ||| STATUS_BUSY) &&& (4294967295 - STATUS_IDLE)) &&&
              (4294967295 - STATUS_EOG)) with
        | (Except.error e, pcb1) => (Except.error e, drv, pcb1)
        | (Except.ok _, pcb1) =>
            (Except.ok true,
              { drv with
                inference_active_ := true,
                telemetry_ := { drv.telemetry_ with last_inference_start := now } },
              pcb1)

/-- The method `LlamaCoprocessorDriver::read_status`. -/
def LlamaCoprocessorDriver.read_status (drv : LlamaCoprocessorDriver) (pcb : VirtualPCB) :
    Except Fault Nat :=
  drv.read_reg32 pcb REG_STATUS

/-- The method `LlamaCoprocessorDriver::token_available`. -/
def LlamaCoprocessorDriver.token_available (drv : LlamaCoprocessorDriver)
    (pcb : VirtualPCB) : Except Fault Bool :=
  match drv.read_reg32 pcb REG_STATUS with
  | Except.error e => Except.error e
  | Except.ok status => Except.ok ((status &&& STATUS_TOKEN_READY) != 0)

/-- The method `LlamaCoprocessorDriver::read_token`; the result is an
`int32_t`. -/
def LlamaCoprocessorDriver.read_token (drv : LlamaCoprocessorDriver) (pcb : VirtualPCB) :
    Except Fault Int × VirtualPCB :=
  match drv.token_available pcb with
  | Except.error e => (Except.error e, pcb)
  | Except.ok false => (Except.ok (-1), pcb)
  | Except.ok true =>
      match drv.read_reg32 pcb REG_TOKEN_OUT with
      | Except.error e => (Except.error e, pcb)
      | Except.ok token =>
          match drv.read_reg32 pcb REG_STATUS with
          | Except.error e => (Except.error e, pcb)
          | Except.ok status =>
              match drv.write_reg32 pcb REG_STATUS
                  (status &&& (4294967295 - STATUS_TOKEN_READY)) with
              | (Except.error e, pcb1) => (Except.error e, pcb1)
              | (Except.ok _, pcb1) => (Except.ok (to_int32 token), pcb1)

/-- The method `LlamaCoprocessorDriver::is_busy`. -/
def LlamaCoprocessorDriver.is_busy (drv : LlamaCoprocessorDriver) (pcb : VirtualPCB) :
    Except Fault Bool :=
  match drv.read_reg32 pcb REG_STATUS with
  | Except.error e => Except.error e
  | Except.ok status => Except.ok ((status &&& STATUS_BUSY) != 0)

/-- The method `LlamaCoprocessorDriver::has_error`. -/
def LlamaCoprocessorDriver.has_error (drv : LlamaCoprocessorDriver) (pcb : VirtualPCB) :
    Except Fault Bool :=
  match drv.read_reg32 pcb REG_STATUS with
  | Except.error e => Except.error e
  | Except.ok status => Except.ok ((status &&& STATUS_ERROR) != 0)

/-- The method `LlamaCoprocessorDriver::get_error_code`. -/
def LlamaCoprocessorDriver.get_error_code (drv : LlamaCoprocessorDriver)
    (pcb : VirtualPCB) : Except Fault Nat :=
  drv.read_reg32 pcb REG_ERROR_CODE

/-- The text `infer` builds in its `std::ostringstream`. -/
def infer_text (cfg : LlamaModelConfig) (prompt : String) (seq_cfg : LlamaSequenceConfig) :
    String :=
  "[LLM-COPROC STUB] Inference Configuration:\n" ++
  "  Model: " ++ cfg.model_name ++ "\n" ++
  "  Prompt: \"" ++ prompt ++ "\"\n" ++
  "  n_predict: " ++ toString seq_cfg.n_predict ++ "\n" ++
  "  Context window: " ++ toString cfg.n_ctx ++ "\n" ++
  "\n" ++
  "Completion: (stubbed - connect GGUF runtime here)\n" ++
  "This is a placeholder response. Integrate llama.cpp for actual inference.\n"

/-- The throughput `infer` records: with `duration` the time from
`last_inference_start` to `last_inference_end` cast to whole milliseconds,
`(n_predict * 1000.0) / duration` when `duration > 0` and the previous value
otherwise. -/
def infer_tokens_per_second (previous : Float) (n_predict : Int)
    (last_inference_start last_inference_end : Nat) : Float :=
  let duration : Int :=
    Int.tdiv ((last_inference_end : Int) - (last_inference_start : Int)) 1000000
  if duration > 0 then (Float.ofInt n_predict * 1000.0) / Float.ofInt duration
  else previous

/-- The method `LlamaCoprocessorDriver::infer`. `now_start` and `now_end` are
the readings of `steady_clock::now()` taken inside `start_inference` and at the
telemetry update; `prompt.size()` is the length of the prompt in bytes. The
`double` arithmetic and the conversion of the `double` to `uint32_t` are those
of `Float`. -/
def LlamaCoprocessorDriver.infer (drv : LlamaCoprocessorDriver) (pcb : VirtualPCB)
    (prompt : String) (seq_cfg : LlamaSequenceConfig) (now_start now_end : Nat) :
    Except Fault String × LlamaCoprocessorDriver × VirtualPCB :=
  if !drv.model_loaded_ then
    (Except.ok "[ERROR] Model not loaded. Call load_model() first.", drv, pcb)
  else
    match drv.configure_inference pcb 0x20000000 (prompt.utf8ByteSize % 4294967296)
        seq_cfg with
    | (Except.error e, pcb1) => (Except.error e, drv, pcb1)
    | (Except.ok _, pcb1) =>
    match drv.start_inference pcb1 now_start with
    | (Except.error e, drv2, pcb2) => (Except.error e, drv2, pcb2)
    | (Except.ok _, drv2, pcb2) =>
    let tokens_per_second : Float :=
      infer_tokens_per_second drv2.telemetry_.tokens_per_second seq_cfg.n_predict
        drv2.telemetry_.last_inference_start now_end
    let telemetry : LlamaTelemetry :=
      { tokens_per_second := tokens_per_second,
        total_tokens_generated :=
          (drv2.telemetry_.total_tokens_generated + to_uint64 seq_cfg.n_predict) %
            18446744073709551616,
        total_prompts := (drv2.telemetry_.total_prompts + 1) % 18446744073709551616,
        last_prompt_tokens := prompt.utf8ByteSize,
        last_completion_tokens := to_uint64 seq_cfg.n_predict,
        last_inference_start := drv2.telemetry_.last_inference_start,
        last_inference_end := now_end }
    let drv3 : LlamaCoprocessorDriver := { drv2 with telemetry_ := telemetry }
    match drv3.write_reg32 pcb2 REG_PERF_TOKENS_SEC (Float.toUInt32 tokens_per_second).toNat with
    | (Except.error e, pcb3) => (Except.error e, drv3, pcb3)
    | (Except.ok _, pcb3) =>
    match drv3.write_reg32 pcb3 REG_CTX_USED
        (((prompt.utf8ByteSize + to_uint64 seq_cfg.n_predict) % 18446744073709551616) %
          4294967296) with
    | (Except.error e, pcb4) => (Except.error e, drv3, pcb4)
    | (Except.ok _, pcb4) =>
    match drv3.read_reg32 pcb4 REG_STATUS with
    | Except.error e => (Except.error e, drv3, pcb4)
    | Except.ok status =>
    match drv3.write_reg32 pcb4 REG_STATUS
        ((status &&& (4294967295 - STATUS_BUSY)) ||| (STATUS_IDLE ||| STATUS_EOG)) with
    | (Except.error e, pcb5) => (Except.error e, drv3, pcb5)
    | (Except.ok _, pcb5) =>
        (Except.ok (infer_text drv.model_config_ prompt seq_cfg),
          { drv3 with inference_active_ := false }, pcb5)

/-- The vector `fake_tokens` of `infer_streaming`. -/
def fake_tokens : List String :=
  ["This", " is", " a", " stubbed", " streaming", " response", "."]

/-- The arguments of one invocation of the `TokenCallback`:
`(token_text, token_index, is_last)`. -/
abbrev TokenCall : Type := String × Int × Bool

/-- The loop of `infer_streaming` over `fake_tokens` from index `i` on: the
invocations `on_token(fake_tokens[i], int32_t(i), i == size - 1)` it makes, in
order. The callback is taken to return normally and to leave the driver and
the bus alone. -/
def streaming_calls (size : Nat) : Nat → List String → List TokenCall
  | _, [] => []
  | i, token :: rest =>
      (token, to_int32 i, decide (i = (size + 18446744073709551616 - 1) % 18446744073709551616))
        :: streaming_calls size (i + 1) rest

/-- The method `LlamaCoprocessorDriver::infer_streaming`: the outcome, the
callback invocations made, the driver and the bus. `now_start` and `now_end`
are the two clock readings, as in `infer`. -/
def LlamaCoprocessorDriver.infer_streaming (drv : LlamaCoprocessorDriver) (pcb : VirtualPCB)
    (prompt : String) (seq_cfg : LlamaSequenceConfig) (now_start now_end : Nat) :
    Except Fault Bool × List TokenCall × LlamaCoprocessorDriver × VirtualPCB :=
  if !drv.model_loaded_ then (Except.ok false, [], drv, pcb)
  else
    match drv.configure_inference pcb 0x20000000 (prompt.utf8ByteSize % 4294967296)
        seq_cfg with
    | (Except.error e, pcb1) => (Except.error e, [], drv, pcb1)
    | (Except.ok _, pcb1) =>
    match drv.start_inference pcb1 now_start with
    | (Except.error e, drv2, pcb2) => (Except.error e, [], drv2, pcb2)
    | (Except.ok _, drv2, pcb2) =>
    let calls := streaming_calls fake_tokens.length 0 fake_tokens
    let telemetry : LlamaTelemetry :=
      { drv2.telemetry_ with
        last_inference_end := now_end,
        total_prompts := (drv2.telemetry_.total_prompts + 1) % 18446744073709551616,
        total_tokens_generated :=
          (drv2.telemetry_.total_tokens_generated + fake_tokens.length) %
            18446744073709551616 }
    let drv3 : LlamaCoprocessorDriver := { drv2 with telemetry_ := telemetry }
    match drv3.read_reg32 pcb2 REG_STATUS with
    | Except.error e => (Except.error e, calls, drv3, pcb2)
    | Except.ok status =>
    match drv3.write_reg32 pcb2 REG_STATUS
        ((status &&& (4294967295 - STATUS_BUSY)) ||| (STATUS_IDLE ||| STATUS_EOG)) with
    | (Except.error e, pcb3) => (Except.error e, calls, drv3, pcb3)
    | (Except.ok _, pcb3) =>
        (Except.ok true, calls, { drv3 with inference_active_ := false }, pcb3)

/-- The method `LlamaCoprocessorDriver::reset_device_internal`. -/
def LlamaCoprocessorDriver.reset_device_internal (drv : LlamaCoprocessorDriver)
    (pcb : VirtualPCB) : Except Fault Bool × LlamaCoprocessorDriver × VirtualPCB :=
  match drv.write_reg32 pcb REG_CMD CMD_RESET with
  | (Except.error e, pcb1) => (Except.error e, drv, pcb1)
  | (Except.ok _, pcb1) =>
      let status : Nat :=
        if drv.model_loaded_ then STATUS_IDLE ||| STATUS_MODEL_READY else STATUS_IDLE
      match drv.write_reg32 pcb1 REG_STATUS status with
      | (Except.error e, pcb2) => (Except.error e, drv, pcb2)
      | (Except.ok _, pcb2) => (Except.ok true, { drv with inference_active_ := false }, pcb2)

/-- The method `LlamaCoprocessorDriver::reset_device`. -/
def LlamaCoprocessorDriver.reset_device (drv : LlamaCoprocessorDriver) (pcb : VirtualPCB) :
    Except Fault Bool × LlamaCoprocessorDriver × VirtualPCB :=
  drv.reset_device_internal pcb

/-- The method `LlamaCoprocessorDriver::run_self_test`. -/
def LlamaCoprocessorDriver.run_self_test (drv : LlamaCoprocessorDriver) (pcb : VirtualPCB) :
    Except Fault Bool × LlamaCoprocessorDriver × VirtualPCB :=
  match drv.write_reg32 pcb REG_CMD 0xDEADBEEF with
  | (Except.error e, pcb1) => (Except.error e, drv, pcb1)
  | (Except.ok _, pcb1) =>
  match drv.read_reg32 pcb1 REG_CMD with
  | Except.error e => (Except.error e, drv, pcb1)
  | Except.ok cmd =>
  if cmd != 0xDEADBEEF then (Except.ok false, drv, pcb1)
  else
  match drv.write_reg32 pcb1 REG_CMD 0 with
  | (Except.error e, pcb2) => (Except.error e, drv, pcb2)
  | (Except.ok _, pcb2) =>
  match drv.write_reg32 pcb2 REG_STATUS (STATUS_IDLE ||| STATUS_MODEL_READY) with
  | (Except.error e, pcb3) => (Except.error e, drv, pcb3)
  | (Except.ok _, pcb3) =>
  match drv.read_reg32 pcb3 REG_STATUS with
  | Except.error e => (Except.error e, drv, pcb3)
  | Except.ok status =>
  if (status &&& STATUS_IDLE) == 0 || (status &&& STATUS_MODEL_READY) == 0 then
    (Except.ok false, drv, pcb3)
  else
  match drv.reset_device_internal pcb3 with
  | (Except.error e, drv4, pcb4) => (Except.error e, drv4, pcb4)
  | (Except.ok r, drv4, pcb4) =>
      if !r then (Except.ok false, drv4, pcb4) else (Except.ok true, drv4, pcb4)

/-- The method `LlamaCoprocessorDriver::probe`. -/
def LlamaCoprocessorDriver.probe (_drv : LlamaCoprocessorDriver) : Bool := true

/-- The method `LlamaCoprocessorDriver::set_model_config`. -/
def LlamaCoprocessorDriver.set_model_config (drv : LlamaCoprocessorDriver)
    (cfg : LlamaModelConfig) : LlamaCoprocessorDriver :=
  { drv with model_config_ := cfg }

/-- The default member initializers of `LlamaModelConfig`. -/
def LlamaModelConfig.ctor : LlamaModelConfig :=
  { model_path := "", model_name := "", n_ctx := 4096, n_threads := 4, n_gpu_layers := 0,
    batch_size := 1, offload_kv_cache := false, low_vram_mode := false }

/-- The default member initializers of `LlamaSequenceConfig`. -/
def LlamaSequenceConfig.ctor : LlamaSequenceConfig :=
  { n_predict := 128, max_ctx := 4096, echo_prompt := false, stream_tokens := true,
    system_prompt := "" }

/-- The default member initializers of `LlamaTelemetry`; a default
`time_point` is the epoch. -/
def LlamaTelemetry.ctor : LlamaTelemetry :=
  { tokens_per_second := 0.0, total_tokens_generated := 0, total_prompts := 0,
    last_prompt_tokens := 0, last_completion_tokens := 0, last_inference_start := 0,
    last_inference_end := 0 }

/-- The constructor `LlamaCoprocessorDriver::LlamaCoprocessorDriver`: the
back-reference is null and both flags are false. -/
def LlamaCoprocessorDriver.ctor : LlamaCoprocessorDriver :=
  { pcb := PcbPtr.null, model_config_ := LlamaModelConfig.ctor,
    telemetry_ := LlamaTelemetry.ctor, model_loaded_ := false, inference_active_ := false }

/-- A freshly constructed driver after `load(&bus)`. -/
def attached_driver : LlamaCoprocessorDriver :=
  (LlamaCoprocessorDriver.ctor.load PcbPtr.bus).2

/-! ## The calls a client makes on one driver -/

/-- A call of a non-const public method of `LlamaCoprocessorDriver`, with its
arguments and the clock readings it takes; `init` is the call `initialize()`.
The const methods (`read_status`, `token_available`, `is_busy`, `has_error`,
`get_error_code`, `is_model_loaded`, `get_telemetry`) return a value and leave
the driver and the bus alone. -/
inductive DriverOp where
  | load (pcb_ : PcbPtr)
  | init
  | probe
  | remove
  | set_model_config (cfg : LlamaModelConfig)
  | load_model
  | unload_model
  | configure_inference (prompt_addr prompt_len : Nat) (seq_cfg : LlamaSequenceConfig)
  | start_inference (now : Nat)
  | read_token
  | reset_device
  | run_self_test
  | infer (prompt : String) (seq_cfg : LlamaSequenceConfig) (now_start now_end : Nat)
  | infer_streaming (prompt : String) (seq_cfg : LlamaSequenceConfig) (now_start now_end : Nat)

/-- The driver object and the bus after one call; a caller that catches the
exception goes on with the state the call left. -/
def DriverOp.apply (drv : LlamaCoprocessorDriver) (pcb : VirtualPCB) :
    DriverOp → LlamaCoprocessorDriver × VirtualPCB
  | DriverOp.load pcb_ => ((drv.load pcb_).2, pcb)
  | DriverOp.init => (drv, ( LlamaCoprocessorDriver.initialize drv pcb).2)
  | DriverOp.probe => (drv, pcb)
  | DriverOp.remove => (drv.remove pcb).2
  | DriverOp.set_model_config cfg => (drv.set_model_config cfg, pcb)
  | DriverOp.load_model => (drv.load_model pcb).2
  | DriverOp.unload_model => (drv.unload_model pcb).2
  | DriverOp.configure_inference prompt_addr prompt_len seq_cfg =>
      (drv, (drv.configure_inference pcb prompt_addr prompt_len seq_cfg).2)
  | DriverOp.start_inference now => (drv.start_inference pcb now).2
  | DriverOp.read_token => (drv, (drv.read_token pcb).2)
  | DriverOp.reset_device => (drv.reset_device pcb).2
  | DriverOp.run_self_test => (drv.run_self_test pcb).2
  | DriverOp.infer prompt seq_cfg now_start now_end =>
      (drv.infer pcb prompt seq_cfg now_start now_end).2
  | DriverOp.infer_streaming prompt seq_cfg now_start now_end =>
      (drv.infer_streaming pcb prompt seq_cfg now_start now_end).2.2

/-- The driver object and the bus after a sequence of calls. -/
def DriverOp.run (drv : LlamaCoprocessorDriver) (pcb : VirtualPCB) :
    List DriverOp → LlamaCoprocessorDriver × VirtualPCB
  | [] => (drv, pcb)
  | op :: rest =>
      DriverOp.run (DriverOp.apply drv pcb op).1 (DriverOp.apply drv pcb op).2 rest

/-! ## The bus together with the driver objects it refers to -/

/-- A virtual call the bus makes on a driver. -/
inductive DriverCall where
  | load (driver : Nat)
  | remove (driver : Nat)
  deriving DecidableEq, Repr

/-- The bus, the driver object behind every non-null `DeviceDriver*`, and the
record of the virtual calls the bus has made, oldest first. -/
structure World where
  pcb : VirtualPCB
  drivers : Nat → LlamaCoprocessorDriver
  calls : List DriverCall

/-- The method `VirtualPCB::attach_driver`. -/
def World.attach_driver (w : World) (driver : Nat) : Except Fault Unit × World :=
  if driver = 0 then (Except.error Fault.invalid_argument, w)
  else if driver ∈ w.pcb.attached_drivers_ then (Except.ok (), w)
  else
    (Except.ok (),
      { pcb := { w.pcb with attached_drivers_ := w.pcb.attached_drivers_ ++ [driver] },
        drivers := Function.update w.drivers driver ((w.drivers driver).load PcbPtr.bus).2,
        calls := w.calls ++ [DriverCall.load driver] })

/-- The method `VirtualPCB::detach_driver`: `std::find`, then `(*it)->remove()`,
then `erase(it)`, which drops the first occurrence. A throw inside `remove`
skips the erase. -/
def World.detach_driver (w : World) (driver : Nat) : Except Fault Unit × World :=
  if driver ∈ w.pcb.attached_drivers_ then
    if driver = 0 then (Except.error Fault.undefined_behaviour, w)
    else
      match (w.drivers driver).remove w.pcb with
      | (Except.error e, drv1, pcb1) =>
          (Except.error e,
            { pcb := pcb1,
              drivers := Function.update w.drivers driver drv1,
              calls := w.calls ++ [DriverCall.remove driver] })
      | (Except.ok _, drv1, pcb1) =>
          (Except.ok (),
            { pcb := { pcb1 with attached_drivers_ := pcb1.attached_drivers_.erase driver },
              drivers := Function.update w.drivers driver drv1,
              calls := w.calls ++ [DriverCall.remove driver] })
  else (Except.ok (), w)

/-- A freshly constructed bus next to the driver objects `drivers`. -/
def World.ctor (drivers : Nat → LlamaCoprocessorDriver) : World :=
  { pcb := VirtualPCB.ctor, drivers := drivers, calls := [] }

/-- A call on the attachment interface of the bus. -/
inductive BusCall where
  | attach_driver (driver : Nat)
  | detach_driver (driver : Nat)
  deriving DecidableEq, Repr

/-- The world after one call; a caller that catches the exception goes on with
the state the call left. -/
def World.call (w : World) : BusCall → World
  | BusCall.attach_driver driver => (w.attach_driver driver).2
  | BusCall.detach_driver driver => (w.detach_driver driver).2

/-- The world after a sequence of calls. -/
def World.run (w : World) (cs : List BusCall) : World :=
  cs.foldl World.call w

/-- The loop of `VirtualPCB::~VirtualPCB` over `attached_drivers_`:
`driver->remove()` for each entry in order. A throw out of the destructor ends
the program; the model stops at the throw. -/
def dtor_loop : List Nat → World → Except Fault Unit × World
  | [], w => (Except.ok (), w)
  | driver :: rest, w =>
      if driver = 0 then (Except.error Fault.undefined_behaviour, w)
      else
        match (w.drivers driver).remove w.pcb with
        | (Except.error e, drv1, pcb1) =>
            (Except.error e,
              { pcb := pcb1,
                drivers := Function.update w.drivers driver drv1,
                calls := w.calls ++ [DriverCall.remove driver] })
        | (Except.ok _, drv1, pcb1) =>
            dtor_loop rest
              { pcb := pcb1,
                drivers := Function.update w.drivers driver drv1,
                calls := w.calls ++ [DriverCall.remove driver] }

/-- The destructor `VirtualPCB::~VirtualPCB`. -/
def World.dtor (w : World) : Except Fault Unit × World :=
  dtor_loop w.pcb.attached_drivers_ w

/-! ## Invariants and the register view -/

/-- The placement of a region: its base address and its size. -/
def MemoryRegion.layout (r : MemoryRegion) : Nat × Nat := (r.base_addr, r.size)

/-- A bus as the constructor and the public methods leave it: the
representation invariant holds and the first three regions are FLASH, SRAM and
PERIPH at their standard places (regions are only ever appended). -/
def VirtualPCB.Standard (pcb : VirtualPCB) : Prop :=
  pcb.WellFormed ∧
    (pcb.memory_regions_.map MemoryRegion.layout).take 3 =
      [(0x00000000, 0x01000000), (0x20000000, 0x01000000), (0x40000000, 0x00100000)]

instance (pcb : VirtualPCB) : Decidable pcb.Standard := by
  unfold VirtualPCB.Standard
  infer_instance

/-- A 4-byte-aligned address whose four bytes lie in the PERIPH span. -/
def IsReg (a : Nat) : Prop := 0x40000000 ≤ a ∧ a + 3 < 0x40100000 ∧ a % 4 = 0

instance (a : Nat) : Decidable (IsReg a) := by
  unfold IsReg
  infer_instance

/-- The 32-bit value `read_reg32` assembles at `addr` (0 when a byte is not
mapped). -/
def VirtualPCB.peek32 (pcb : VirtualPCB) (addr : Nat) : Nat :=
  match read_reg32_loop pcb addr [0, 1, 2, 3] 0 with
  | Except.ok value => value
  | Except.error _ => 0

/-- The bus after the four byte stores of `write_reg32`. -/
def VirtualPCB.poke32 (pcb : VirtualPCB) (addr value : Nat) : VirtualPCB :=
  (write_reg32_loop addr value [0, 1, 2, 3] pcb).2

/-- A driver object is consistent when a loaded model implies a set
back-reference: `load_model` needs the bus to set the flag, and `remove` clears
the flag before it clears the back-reference. -/
def LlamaCoprocessorDriver.Consistent (drv : LlamaCoprocessorDriver) : Prop :=
  drv.model_loaded_ = true → drv.pcb ≠ PcbPtr.null

/-- The invariant of the bus together with its drivers: the bus is standard,
the attachment list holds no null pointer and no driver twice, and every
driver object is consistent. -/
def World.Invariant (w : World) : Prop :=
  w.pcb.Standard ∧ w.pcb.attached_drivers_.Nodup ∧ 0 ∉ w.pcb.attached_drivers_ ∧
    ∀ d, (w.drivers d).Consistent

/-- The driver object that `load(&bus)` and `load_model()` leave of a freshly
constructed driver. -/
def loaded_driver : LlamaCoprocessorDriver :=
  { attached_driver with model_loaded_ := true }

/-- The bus that `load_model()` of a freshly attached driver leaves of a
freshly constructed bus. -/
def loaded_bus : VirtualPCB :=
  VirtualPCB.ctor.poke32 REG_STATUS (VirtualPCB.ctor.peek32 REG_STATUS ||| STATUS_MODEL_READY)

/-- The bus that `initialize()` of a freshly attached driver leaves of a freshly
constructed bus. -/
def initialized_bus : VirtualPCB :=
  ((((((((((VirtualPCB.ctor.poke32 REG_CMD 0).poke32 REG_STATUS STATUS_IDLE).poke32
    REG_PROMPT_ADDR 0).poke32 REG_PROMPT_LEN 0).poke32 REG_N_PREDICT 0).poke32
    REG_TOKEN_OUT 0).poke32 REG_TOKEN_READY 0).poke32 REG_MODEL_ID 0).poke32
    REG_CTX_USED 0).poke32 REG_ERROR_CODE 0).poke32 REG_PERF_TOKENS_SEC 0

/-- The bus that `load_model()` leaves of `initialized_bus`: the state of the bus
after `load(&bus)`, `initialize()`, `load_model()` on a fresh driver and bus. -/
def ready_bus : VirtualPCB :=
  initialized_bus.poke32 REG_STATUS (initialized_bus.peek32 REG_STATUS ||| STATUS_MODEL_READY)

/-- The eleven register addresses of the header, `REG_CMD` to
`REG_PERF_TOKENS_SEC`. -/
def register_addresses : List Nat :=
  [REG_CMD, REG_STATUS, REG_PROMPT_ADDR, REG_PROMPT_LEN, REG_N_PREDICT, REG_TOKEN_OUT,
    REG_TOKEN_READY, REG_MODEL_ID, REG_CTX_USED, REG_ERROR_CODE, REG_PERF_TOKENS_SEC]

/-- A bus with overlapping regions: the constructed bus after
`add_memory_region(0x400FFFFE, 4, RESERVED, "OVERLAP")`, whose new region shares
its first two bytes with the end of PERIPH. -/
def overlap_bus : VirtualPCB :=
  VirtualPCB.ctor.add_memory_region 0x400FFFFE 4 MemoryRegionType.RESERVED "OVERLAP"

/-- The bus and a freshly constructed driver after `attach_driver`. -/
def attached_world : World :=
  ((World.ctor (fun _ => LlamaCoprocessorDriver.ctor)).attach_driver 1).2

/-! ## Region lookup -/

theorem contains_iff (r : MemoryRegion) (a : Nat) :
    r.contains a = true ↔
      r.base_addr ≤ a ∧ a < (r.base_addr + r.size) % 18446744073709551616 := by
  simp [MemoryRegion.contains]

theorem get_region_loop_eq_none (rs : List MemoryRegion) (a : Nat) :
    get_region_loop rs a = none ↔ ∀ r ∈ rs, r.contains a = false := by
  induction rs with
  | nil => simp [get_region_loop]
  | cons r rest ih =>
      by_cases h : r.contains a = true
      · simp [get_region_loop, h]
      · simp [get_region_loop, h, ih]

theorem get_region_loop_eq_some (rs : List MemoryRegion) (a i : Nat) (r : MemoryRegion) :
    get_region_loop rs a = some (i, r) ↔
      rs[i]? = some r ∧ r.contains a = true ∧
        ∀ j, j < i → ∀ q, rs[j]? = some q → q.contains a = false := by
  induction rs generalizing i with
  | nil => simp [get_region_loop]
  | cons x rest ih =>
      by_cases h : x.contains a = true
      · simp only [get_region_loop, h, if_true, Option.some.injEq, Prod.mk.injEq]
        constructor
        · rintro ⟨rfl, rfl⟩
          simp [h]
        · rintro ⟨h1, h2, h3⟩
          cases i with
          | zero => simpa using h1
          | succ k =>
              have := h3 0 (Nat.succ_pos k) x (by simp)
              simp [h] at this
      · have hx : x.contains a = false := by simpa using h
        simp only [get_region_loop, hx, Bool.false_eq_true, if_false, Option.map_eq_some']
        constructor
        · rintro ⟨⟨k, q⟩, hk, heq⟩
          simp only [Prod.mk.injEq] at heq
          obtain ⟨rfl, rfl⟩ := heq
          obtain ⟨h1, h2, h3⟩ := (ih k).1 hk
          refine ⟨by simpa using h1, h2, ?_⟩
          intro j hj q hq
          cases j with
          | zero =>
              simp at hq
              subst hq
              exact hx
          | succ m => exact h3 m (by omega) q (by simpa using hq)
        · rintro ⟨h1, h2, h3⟩
          cases i with
          | zero =>
              simp at h1
              subst h1
              simp [hx] at h2
          | succ k =>
              refine ⟨(k, r), (ih k).2 ⟨by simpa using h1, h2, ?_⟩, rfl⟩
              intro j hj q hq
              exact h3 (j + 1) (by omega) q (by simpa using hq)


theorem get_region_loop_set (rs : List MemoryRegion) (i : Nat) (r q : MemoryRegion) (b : Nat)
    (hi : rs[i]? = some r) (hb : q.base_addr = r.base_addr) (hs : q.size = r.size) :
    get_region_loop (rs.set i q) b =
      (get_region_loop rs b).map (fun p => if p.1 = i then (i, q) else p) := by
  have hc : q.contains b = r.contains b := by simp [MemoryRegion.contains, hb, hs]
  induction rs generalizing i with
  | nil => simp at hi
  | cons x rest ih =>
      cases i with
      | zero =>
          simp at hi
          subst hi
          by_cases h : x.contains b = true
          · simp [get_region_loop, hc, h]
          · simp only [List.set_cons_zero, get_region_loop, hc, h]
            cases get_region_loop rest b <;> simp
      | succ k =>
          have hk : rest[k]? = some r := by simpa using hi
          by_cases h : x.contains b = true
          · simp [get_region_loop, h]
          · simp only [List.set_cons_succ, get_region_loop, h, ih k hk]
            cases get_region_loop rest b with
            | none => simp
            | some p => by_cases hp : p.1 = k <;> simp [hp]

/-- The `uint64_t` difference `addr - base` is the natural-number difference
when `base ≤ addr < 2^64`. -/
theorem offset_eq (a base : Nat) (h1 : base ≤ a) (h2 : a < 18446744073709551616) :
    (a + 18446744073709551616 - base) % 18446744073709551616 = a - base := by
  omega

theorem contains_lt (r : MemoryRegion) (a : Nat) (h : r.contains a = true) :
    a < 18446744073709551616 ∧ r.base_addr ≤ a ∧ a - r.base_addr < r.size := by
  rw [contains_iff] at h
  omega

theorem get_region_mem (pcb : VirtualPCB) (a i : Nat) (r : MemoryRegion)
    (h : pcb.get_region a = some (i, r)) :
    r ∈ pcb.memory_regions_ ∧ pcb.memory_regions_[i]? = some r ∧ r.contains a = true := by
  have h1 := (get_region_loop_eq_some pcb.memory_regions_ a i r).1 h
  exact ⟨List.getElem?_mem h1.1, h1.1, h1.2.1⟩

/-- The bus that a successful `write_memory` leaves, written out. -/
theorem write_memory_eq (pcb : VirtualPCB) (hwf : pcb.WellFormed) (a v i : Nat)
    (r : MemoryRegion) (h : pcb.get_region a = some (i, r)) :
    pcb.write_memory a v =
      (Except.ok (),
        { pcb with
          memory_regions_ :=
            pcb.memory_regions_.set i
              { r with data := r.data.set (a - r.base_addr) v } }) := by
  obtain ⟨hm, _, hc⟩ := get_region_mem pcb a i r h
  obtain ⟨h1, h2, h3⟩ := contains_lt r a hc
  have hlen := (hwf r hm).1
  simp only [VirtualPCB.write_memory, h, offset_eq a r.base_addr h2 h1]
  rw [if_pos (by omega)]


theorem get_region_write (pcb : VirtualPCB) (hwf : pcb.WellFormed) (a v i : Nat)
    (r : MemoryRegion) (h : pcb.get_region a = some (i, r)) (b : Nat) :
    (pcb.write_memory a v).2.get_region b =
      (pcb.get_region b).map
        (fun p => if p.1 = i then (i, { r with data := r.data.set (a - r.base_addr) v }) else p) := by
  rw [write_memory_eq pcb hwf a v i r h]
  exact get_region_loop_set pcb.memory_regions_ i r _ b (get_region_mem pcb a i r h).2.1 rfl rfl

theorem mapped_write (pcb : VirtualPCB) (hwf : pcb.WellFormed) (a v b : Nat) :
    (pcb.write_memory a v).2.mapped b = pcb.mapped b := by
  cases h : pcb.get_region a with
  | none => simp [VirtualPCB.write_memory, h]
  | some p =>
      obtain ⟨i, r⟩ := p
      simp only [VirtualPCB.mapped, get_region_write pcb hwf a v i r h b]
      cases pcb.get_region b <;> simp

theorem read_write_same (pcb : VirtualPCB) (hwf : pcb.WellFormed) (a v : Nat)
    (hm : pcb.mapped a = true) :
    (pcb.write_memory a v).1 = Except.ok () ∧
      (pcb.write_memory a v).2.read_memory a = Except.ok v := by
  cases h : pcb.get_region a with
  | none => simp [VirtualPCB.mapped, h] at hm
  | some p =>
      obtain ⟨i, r⟩ := p
      obtain ⟨hmem, _, hc⟩ := get_region_mem pcb a i r h
      obtain ⟨h1, h2, h3⟩ := contains_lt r a hc
      have hlen := (hwf r hmem).1
      refine ⟨by rw [write_memory_eq pcb hwf a v i r h], ?_⟩
      simp only [VirtualPCB.read_memory, get_region_write pcb hwf a v i r h a, h, Option.map_some',
        if_true, offset_eq a r.base_addr h2 h1]
      rw [List.getElem?_set_self (by omega)]

theorem read_write_other (pcb : VirtualPCB) (hwf : pcb.WellFormed) (a v b : Nat)
    (hab : b ≠ a) :
    (pcb.write_memory a v).2.read_memory b = pcb.read_memory b := by
  cases h : pcb.get_region a with
  | none => simp [VirtualPCB.write_memory, h]
  | some p =>
      obtain ⟨i, r⟩ := p
      obtain ⟨hmem, hi, hc⟩ := get_region_mem pcb a i r h
      obtain ⟨h1, h2, h3⟩ := contains_lt r a hc
      simp only [VirtualPCB.read_memory, get_region_write pcb hwf a v i r h b]
      cases hb : pcb.get_region b with
      | none => simp
      | some pb =>
          obtain ⟨j, rb⟩ := pb
          obtain ⟨_, hj, hcb⟩ := get_region_mem pcb b j rb hb
          obtain ⟨g1, g2, g3⟩ := contains_lt rb b hcb
          by_cases hji : j = i
          · subst hji
            have hrr : rb = r := by
              rw [hj] at hi
              exact Option.some.inj hi
            subst hrr
            simp only [Option.map_some', if_true, offset_eq b rb.base_addr g2 g1]
            rw [List.getElem?_set_ne (by omega)]
          · simp [hji]

theorem wellFormed_write (pcb : VirtualPCB) (hwf : pcb.WellFormed) (a v : Nat)
    (hv : v < 256) : (pcb.write_memory a v).2.WellFormed := by
  cases h : pcb.get_region a with
  | none => simpa [VirtualPCB.write_memory, h] using hwf
  | some p =>
      obtain ⟨i, r⟩ := p
      obtain ⟨hmem, _, _⟩ := get_region_mem pcb a i r h
      rw [write_memory_eq pcb hwf a v i r h]
      intro q hq
      rcases List.mem_or_eq_of_mem_set hq with hq | hq
      · exact hwf q hq
      · subst hq
        refine ⟨by simpa using (hwf r hmem).1, ?_⟩
        intro x hx
        rcases List.mem_or_eq_of_mem_set hx with hx | hx
        · exact (hwf r hmem).2 x hx
        · omega

theorem attached_write (pcb : VirtualPCB) (a v : Nat) :
    (pcb.write_memory a v).2.attached_drivers_ = pcb.attached_drivers_ := by
  unfold VirtualPCB.write_memory
  split
  · rfl
  · dsimp only
    split <;> rfl


/-- The byte `write_reg32` stores at position `i`. -/
theorem reg_byte_eq (v i : Nat) :
    ((v >>> (8 * i)) &&& 0xFF) % 256 = v / 2 ^ (8 * i) % 256 := by
  have h : (v >>> (8 * i)) &&& 0xFF = (v >>> (8 * i)) % 2 ^ 8 :=
    Nat.and_pow_two_sub_one_eq_mod (v >>> (8 * i)) 8
  rw [h, Nat.shiftRight_eq_div_pow]
  omega

theorem or_shiftLeft_eq_add (x b k : Nat) (hx : x < 2 ^ k) :
    x ||| (b <<< k) = x + b * 2 ^ k := by
  rw [Nat.shiftLeft_eq, Nat.or_comm, Nat.mul_comm b, ← Nat.mul_add_lt_is_or hx b]
  omega

/-- What the loop of `write_reg32` does when every address it stores to is
mapped: it completes, keeps the invariant and the mapping, leaves every other
address as it was, and each address holds its byte of `value`. -/
theorem write_reg32_loop_spec (addr v : Nat) (is : List Nat) :
    ∀ pcb : VirtualPCB, pcb.WellFormed →
      (∀ i ∈ is, pcb.mapped ((addr + i) % 18446744073709551616) = true) →
      is.Pairwise (fun i j => (addr + i) % 18446744073709551616 ≠
        (addr + j) % 18446744073709551616) →
      (write_reg32_loop addr v is pcb).1 = Except.ok () ∧
      (write_reg32_loop addr v is pcb).2.WellFormed ∧
      (∀ b, (write_reg32_loop addr v is pcb).2.mapped b = pcb.mapped b) ∧
      (∀ b, (∀ i ∈ is, b ≠ (addr + i) % 18446744073709551616) →
        (write_reg32_loop addr v is pcb).2.read_memory b = pcb.read_memory b) ∧
      (∀ i ∈ is, (write_reg32_loop addr v is pcb).2.read_memory
        ((addr + i) % 18446744073709551616) = Except.ok (v / 2 ^ (8 * i) % 256)) ∧
      (write_reg32_loop addr v is pcb).2.attached_drivers_ = pcb.attached_drivers_ := by
  induction is with
  | nil =>
      intro pcb hwf _ _
      simp [write_reg32_loop, hwf]
  | cons i rest ih =>
      intro pcb hwf hmap hpw
      have hmi := hmap i (List.mem_cons_self i rest)
      obtain ⟨hok, hrd⟩ := read_write_same pcb hwf ((addr + i) % 18446744073709551616)
        (((v >>> (8 * i)) &&& 0xFF) % 256) hmi
      have hwf1 := wellFormed_write pcb hwf ((addr + i) % 18446744073709551616)
        (((v >>> (8 * i)) &&& 0xFF) % 256) (Nat.mod_lt _ (by decide))
      have hmp1 := mapped_write pcb hwf ((addr + i) % 18446744073709551616)
        (((v >>> (8 * i)) &&& 0xFF) % 256)
      have hfr1 := read_write_other pcb hwf ((addr + i) % 18446744073709551616)
        (((v >>> (8 * i)) &&& 0xFF) % 256)
      have hat1 := attached_write pcb ((addr + i) % 18446744073709551616)
        (((v >>> (8 * i)) &&& 0xFF) % 256)
      rw [List.pairwise_cons] at hpw
      have hstep : write_reg32_loop addr v (i :: rest) pcb =
          write_reg32_loop addr v rest
            (pcb.write_memory ((addr + i) % 18446744073709551616)
              (((v >>> (8 * i)) &&& 0xFF) % 256)).2 := by
        rcases hw : pcb.write_memory ((addr + i) % 18446744073709551616)
          (((v >>> (8 * i)) &&& 0xFF) % 256) with ⟨res, pcb1⟩
        rw [hw] at hok
        cases res with
        | error e => simp at hok
        | ok u => simp [write_reg32_loop, hw]
      rw [hstep]
      obtain ⟨k1, k2, k3, k4, k5, k6⟩ := ih _ hwf1
        (fun j hj => by rw [hmp1]; exact hmap j (List.mem_cons_of_mem i hj)) hpw.2
      refine ⟨k1, k2, fun b => by rw [k3, hmp1], ?_, ?_, by rw [k6, hat1]⟩
      · intro b hb
        rw [k4 b (fun j hj => hb j (List.mem_cons_of_mem i hj)),
          hfr1 b (hb i (List.mem_cons_self i rest))]
      · intro j hj
        rcases List.mem_cons.1 hj with rfl | hj
        · rw [k4 _ (fun m hm => hpw.1 m hm), hrd, reg_byte_eq]
        · exact k5 j hj


theorem read_memory_mapped (pcb : VirtualPCB) (hwf : pcb.WellFormed) (a : Nat)
    (hm : pcb.mapped a = true) : ∃ b, pcb.read_memory a = Except.ok b ∧ b < 256 := by
  cases h : pcb.get_region a with
  | none => simp [VirtualPCB.mapped, h] at hm
  | some p =>
      obtain ⟨i, r⟩ := p
      obtain ⟨hmem, _, hc⟩ := get_region_mem pcb a i r h
      obtain ⟨h1, h2, h3⟩ := contains_lt r a hc
      obtain ⟨hlen, hbytes⟩ := hwf r hmem
      have hlt : a - r.base_addr < r.data.length := by omega
      refine ⟨r.data[a - r.base_addr], ?_, hbytes _ (List.getElem_mem hlt)⟩
      simp [VirtualPCB.read_memory, h, offset_eq a r.base_addr h2 h1, List.getElem?_eq_getElem hlt]

/-- The value the loop of `read_reg32` assembles from four bytes. -/
theorem read_reg32_loop_four (pcb : VirtualPCB) (addr b0 b1 b2 b3 : Nat)
    (h0 : pcb.read_memory ((addr + 0) % 18446744073709551616) = Except.ok b0)
    (h1 : pcb.read_memory ((addr + 1) % 18446744073709551616) = Except.ok b1)
    (h2 : pcb.read_memory ((addr + 2) % 18446744073709551616) = Except.ok b2)
    (h3 : pcb.read_memory ((addr + 3) % 18446744073709551616) = Except.ok b3)
    (l0 : b0 < 256) (l1 : b1 < 256) (l2 : b2 < 256) (l3 : b3 < 256) :
    read_reg32_loop pcb addr [0, 1, 2, 3] 0 =
      Except.ok (b0 + b1 * 256 + b2 * 256 ^ 2 + b3 * 256 ^ 3) := by
  have e0 : (b0 <<< (8 * 0)) % 4294967296 = b0 := by
    simp only [Nat.mul_zero, Nat.shiftLeft_zero]
    omega
  have e1 : (b1 <<< (8 * 1)) % 4294967296 = b1 <<< 8 := by
    rw [Nat.shiftLeft_eq]
    omega
  have e2 : (b2 <<< (8 * 2)) % 4294967296 = b2 <<< 16 := by
    rw [Nat.shiftLeft_eq]
    omega
  have e3 : (b3 <<< (8 * 3)) % 4294967296 = b3 <<< 24 := by
    rw [Nat.shiftLeft_eq]
    omega
  simp only [read_reg32_loop, h0, h1, h2, h3, e0, e1, e2, e3, Nat.zero_or]
  rw [or_shiftLeft_eq_add b0 b1 8 (by omega),
    or_shiftLeft_eq_add (b0 + b1 * 2 ^ 8) b2 16 (by omega),
    or_shiftLeft_eq_add (b0 + b1 * 2 ^ 8 + b2 * 2 ^ 16) b3 24 (by omega)]
  norm_num

theorem reg_addrs_pairwise (addr : Nat) :
    [0, 1, 2, 3].Pairwise (fun i j => (addr + i) % 18446744073709551616 ≠
      (addr + j) % 18446744073709551616) := by
  simp only [List.pairwise_cons, List.mem_cons, List.mem_singleton, List.not_mem_nil,
    List.Pairwise.nil, and_true, forall_eq_or_imp, forall_eq, or_false, false_imp_iff,
    imp_true_iff]
  omega

/-! ## The invariant, the standard layout and the claims -/

theorem wellFormed_add_memory_region (pcb : VirtualPCB) (hwf : pcb.WellFormed)
    (base size : Nat) (t : MemoryRegionType) (n : String) :
    (pcb.add_memory_region base size t n).WellFormed := by
  intro r hr
  simp only [VirtualPCB.add_memory_region, List.mem_append, List.mem_singleton] at hr
  rcases hr with hr | hr
  · exact hwf r hr
  · subst hr
    simp only [MemoryRegion.ctor, List.length_replicate, List.mem_replicate, true_and]
    omega

theorem wellFormed_ctor : VirtualPCB.ctor.WellFormed := by
  unfold VirtualPCB.ctor
  refine wellFormed_add_memory_region _ (wellFormed_add_memory_region _
    (wellFormed_add_memory_region _ ?_ _ _ _ _) _ _ _ _) _ _ _ _
  intro r hr
  simp at hr

/-- Without wrap-around of `base_addr + size`, `contains` is membership in the
half-open span. -/
theorem contains_iff_of_no_wrap (r : MemoryRegion) (a : Nat)
    (h : r.base_addr + r.size < 18446744073709551616) :
    r.contains a = true ↔ r.base_addr ≤ a ∧ a < r.base_addr + r.size := by
  rw [contains_iff, Nat.mod_eq_of_lt h]

/-- C1: for every bus state (one that satisfies the representation invariant),
every address `a` that some region maps (`contains(a)` holds for a region of the
bus) and every value `v`, in particular every byte: `write_memory(a, v)`
succeeds and a following `read_memory(a)` returns `v`. -/
theorem C1_write_then_read (pcb : VirtualPCB) (hwf : pcb.WellFormed) (a v : Nat)
    (hmap : ∃ r ∈ pcb.memory_regions_, r.contains a = true) :
    (pcb.write_memory a v).1 = Except.ok () ∧
      (pcb.write_memory a v).2.read_memory a = Except.ok v := by
  apply read_write_same pcb hwf a v
  cases h : pcb.get_region a with
  | none =>
      obtain ⟨r, hr, hc⟩ := hmap
      have := (get_region_loop_eq_none pcb.memory_regions_ a).1 h r hr
      simp [hc] at this
  | some p => simp [VirtualPCB.mapped, h]

theorem C1_write_then_read_witness :
    VirtualPCB.ctor.WellFormed ∧
      (∃ r ∈ VirtualPCB.ctor.memory_regions_, r.contains 0x20000000 = true) ∧
      (VirtualPCB.ctor.write_memory 0x20000000 0xAB).1 = Except.ok () ∧
      (VirtualPCB.ctor.write_memory 0x20000000 0xAB).2.read_memory 0x20000000 =
        Except.ok 0xAB :=
  ⟨wellFormed_ctor, by decide,
    C1_write_then_read VirtualPCB.ctor wellFormed_ctor 0x20000000 0xAB (by decide)⟩


/-- C2: `read_memory(a)` and `write_memory(a, v)` raise the unmapped-address
fault if and only if `get_region(a)` is `nullptr`, which is the case if and
only if no region of the bus contains `a`; and a `write_memory` that faults,
for whatever reason, leaves the bus as it was, so no byte of any region has
changed. -/
theorem C2_unmapped_fault (pcb : VirtualPCB) (a v : Nat) :
    (pcb.read_memory a = Except.error (Fault.read_unmapped a) ↔ pcb.get_region a = none) ∧
    ((pcb.write_memory a v).1 = Except.error (Fault.write_unmapped a) ↔
      pcb.get_region a = none) ∧
    (pcb.get_region a = none ↔ ∀ r ∈ pcb.memory_regions_, r.contains a = false) ∧
    (∀ e, (pcb.write_memory a v).1 = Except.error e → (pcb.write_memory a v).2 = pcb) := by
  refine ⟨?_, ?_, get_region_loop_eq_none pcb.memory_regions_ a, ?_⟩
  · unfold VirtualPCB.read_memory
    cases h : pcb.get_region a with
    | none => simp
    | some p =>
        obtain ⟨i, r⟩ := p
        dsimp only
        split <;> simp
  · unfold VirtualPCB.write_memory
    cases h : pcb.get_region a with
    | none => simp
    | some p =>
        obtain ⟨i, r⟩ := p
        dsimp only
        split <;> simp
  · intro e
    unfold VirtualPCB.write_memory
    cases h : pcb.get_region a with
    | none => simp
    | some p =>
        obtain ⟨i, r⟩ := p
        dsimp only
        split <;> simp

theorem ctor_regions :
    VirtualPCB.ctor.memory_regions_ =
      [MemoryRegion.ctor 0x00000000 0x01000000 MemoryRegionType.FLASH "FLASH",
        MemoryRegion.ctor 0x20000000 0x01000000 MemoryRegionType.SRAM "SRAM",
        MemoryRegion.ctor 0x40000000 0x00100000 MemoryRegionType.PERIPH "PERIPH"] := rfl

theorem contains_ctor (base sz : Nat) (t : MemoryRegionType) (n : String) (a : Nat) :
    (MemoryRegion.ctor base sz t n).contains a =
      (decide (base ≤ a) && decide (a < (base + sz) % 18446744073709551616)) := rfl

/-- C3: on a freshly constructed bus `get_region(a)` returns the FLASH region
exactly for `a` in `[0x00000000, 0x01000000)`, the SRAM region exactly for `a`
in `[0x20000000, 0x21000000)`, the PERIPH region exactly for `a` in
`[0x40000000, 0x40100000)` and `nullptr` for every other address; reading or
writing `0xFFFFFFFF` faults. -/
theorem C3_standard_layout (a v : Nat) :
    VirtualPCB.ctor.get_region a =
      (if a < 0x01000000 then
        some (0, MemoryRegion.ctor 0x00000000 0x01000000 MemoryRegionType.FLASH "FLASH")
      else if 0x20000000 ≤ a ∧ a < 0x21000000 then
        some (1, MemoryRegion.ctor 0x20000000 0x01000000 MemoryRegionType.SRAM "SRAM")
      else if 0x40000000 ≤ a ∧ a < 0x40100000 then
        some (2, MemoryRegion.ctor 0x40000000 0x00100000 MemoryRegionType.PERIPH "PERIPH")
      else none) ∧
    VirtualPCB.ctor.read_memory 0xFFFFFFFF = Except.error (Fault.read_unmapped 0xFFFFFFFF) ∧
    VirtualPCB.ctor.write_memory 0xFFFFFFFF v =
      (Except.error (Fault.write_unmapped 0xFFFFFFFF), VirtualPCB.ctor) := by
  refine ⟨?_, by rfl, by rfl⟩
  simp only [VirtualPCB.get_region, ctor_regions, get_region_loop, contains_ctor]
  by_cases h1 : a < 0x01000000
  · simp [h1]
  · by_cases h2 : 0x20000000 ≤ a ∧ a < 0x21000000
    · have : ¬ a < 16777216 := by omega
      simp [h2, this]
    · by_cases h3 : 0x40000000 ≤ a ∧ a < 0x40100000
      · have g1 : ¬ a < 16777216 := by omega
        have g2 : ¬ (536870912 ≤ a ∧ a < 553648128) := by omega
        simp [h3, g1, g2]
      · have g1 : ¬ a < 16777216 := by omega
        have g2 : ¬ (536870912 ≤ a ∧ a < 553648128) := by omega
        have g3 : ¬ (1073741824 ≤ a ∧ a < 1074790400) := by omega
        simp [g1, g2, g3]


/-- Lookup on a bus none of whose regions wraps: `get_region` returns the
earliest region whose half-open span holds the address, and `nullptr` exactly
when no span does. -/
theorem get_region_first_match_of_no_wrap (pcb : VirtualPCB) (a : Nat)
    (hnw : ∀ r ∈ pcb.memory_regions_, r.base_addr + r.size < 18446744073709551616) :
    (∀ i r, pcb.get_region a = some (i, r) ↔
      pcb.memory_regions_[i]? = some r ∧ (r.base_addr ≤ a ∧ a < r.base_addr + r.size) ∧
        ∀ j, j < i → ∀ q, pcb.memory_regions_[j]? = some q →
          ¬ (q.base_addr ≤ a ∧ a < q.base_addr + q.size)) ∧
    (pcb.get_region a = none ↔
      ∀ r ∈ pcb.memory_regions_, ¬ (r.base_addr ≤ a ∧ a < r.base_addr + r.size)) := by
  constructor
  · intro i r
    unfold VirtualPCB.get_region
    rw [get_region_loop_eq_some]
    constructor
    · rintro ⟨h1, h2, h3⟩
      refine ⟨h1, (contains_iff_of_no_wrap r a (hnw r (List.getElem?_mem h1))).1 h2, ?_⟩
      intro j hj q hq hspan
      have := h3 j hj q hq
      rw [(contains_iff_of_no_wrap q a (hnw q (List.getElem?_mem hq))).2 hspan] at this
      simp at this
    · rintro ⟨h1, h2, h3⟩
      refine ⟨h1, (contains_iff_of_no_wrap r a (hnw r (List.getElem?_mem h1))).2 h2, ?_⟩
      intro j hj q hq
      have := h3 j hj q hq
      rw [← contains_iff_of_no_wrap q a (hnw q (List.getElem?_mem hq))] at this
      simpa using this
  · unfold VirtualPCB.get_region
    rw [get_region_loop_eq_none]
    constructor
    · intro h r hr hspan
      have := h r hr
      rw [(contains_iff_of_no_wrap r a (hnw r hr)).2 hspan] at this
      simp at this
    · intro h r hr
      have := h r hr
      rw [← contains_iff_of_no_wrap r a (hnw r hr)] at this
      simpa using this

/-- C4 at a region that ends at the top of the address space: the bus built by
the constructor followed by `add_memory_region(0xFFFFFFFFFFFFFFFF, 1, RESERVED,
"TOP")` has a region whose span `[base, base+size)` holds the 64-bit address
`0xFFFFFFFFFFFFFFFF`, yet `get_region` returns `nullptr` for it and
`read_memory` faults. -/
theorem C4_top_region_not_found :
    (∃ r ∈ (VirtualPCB.ctor.add_memory_region 0xFFFFFFFFFFFFFFFF 1
        MemoryRegionType.RESERVED "TOP").memory_regions_,
      r.base_addr ≤ 0xFFFFFFFFFFFFFFFF ∧ 0xFFFFFFFFFFFFFFFF < r.base_addr + r.size) ∧
    (VirtualPCB.ctor.add_memory_region 0xFFFFFFFFFFFFFFFF 1
      MemoryRegionType.RESERVED "TOP").get_region 0xFFFFFFFFFFFFFFFF = none ∧
    (VirtualPCB.ctor.add_memory_region 0xFFFFFFFFFFFFFFFF 1
      MemoryRegionType.RESERVED "TOP").read_memory 0xFFFFFFFFFFFFFFFF =
        Except.error (Fault.read_unmapped 0xFFFFFFFFFFFFFFFF) := by
  refine ⟨?_, by rfl, by rfl⟩
  refine ⟨MemoryRegion.ctor 0xFFFFFFFFFFFFFFFF 1 MemoryRegionType.RESERVED "TOP", ?_, ?_⟩
  · simp [VirtualPCB.add_memory_region]
  · decide

/-- The boundary property of `contains` for a region that does not reach the
top of the address space. -/
theorem contains_boundaries_of_no_wrap (r : MemoryRegion) (h1 : 1 ≤ r.size)
    (h : r.base_addr + r.size < 18446744073709551616) :
    r.contains r.base_addr = true ∧ r.contains (r.base_addr + r.size - 1) = true ∧
      r.contains (r.base_addr + r.size) = false := by
  refine ⟨?_, ?_, ?_⟩
  · rw [contains_iff_of_no_wrap r _ h]
    omega
  · rw [contains_iff_of_no_wrap r _ h]
    omega
  · rw [← Bool.not_eq_true, contains_iff_of_no_wrap r _ h]
    omega

/-- C5 at a region that ends at the top of the address space: the region built
by `MemoryRegion(0xFFFFFFFFFFFFFFFF, 1, RESERVED, "TOP")` has a 64-bit base and
size 1, stores one byte, and `contains(base)`, which is also
`contains(base+size-1)`, is false. -/
theorem C5_top_region_excludes_base :
    (MemoryRegion.ctor 0xFFFFFFFFFFFFFFFF 1 MemoryRegionType.RESERVED "TOP").base_addr
      < 18446744073709551616 ∧
    (MemoryRegion.ctor 0xFFFFFFFFFFFFFFFF 1 MemoryRegionType.RESERVED "TOP").size = 1 ∧
    (MemoryRegion.ctor 0xFFFFFFFFFFFFFFFF 1 MemoryRegionType.RESERVED "TOP").data = [0] ∧
    (MemoryRegion.ctor 0xFFFFFFFFFFFFFFFF 1 MemoryRegionType.RESERVED "TOP").contains
      0xFFFFFFFFFFFFFFFF = false ∧
    (MemoryRegion.ctor 0xFFFFFFFFFFFFFFFF 1 MemoryRegionType.RESERVED "TOP").contains
      (0xFFFFFFFFFFFFFFFF + 1 - 1) = false := by
  decide


theorem mapped_four (pcb : VirtualPCB) (addr : Nat)
    (hmap : ∀ i, i < 4 → pcb.mapped ((addr + i) % 18446744073709551616) = true) :
    ∀ i ∈ [0, 1, 2, 3], pcb.mapped ((addr + i) % 18446744073709551616) = true := by
  intro i hi
  apply hmap
  simp only [List.mem_cons, List.mem_singleton, List.not_mem_nil, or_false] at hi
  omega

/-- C6: for every 32-bit value `v`, on a driver attached to a bus on which the
four bytes `addr .. addr+3` are mapped, `write_reg32(addr, v)` completes and a
following `read_reg32(addr)` returns exactly `v`. -/
theorem C6_reg32_round_trip (drv : LlamaCoprocessorDriver) (pcb : VirtualPCB)
    (hatt : drv.pcb ≠ PcbPtr.null) (hwf : pcb.WellFormed) (addr v : Nat)
    (hv : v < 4294967296)
    (hmap : ∀ i, i < 4 → pcb.mapped ((addr + i) % 18446744073709551616) = true) :
    (drv.write_reg32 pcb addr v).1 = Except.ok () ∧
      drv.read_reg32 (drv.write_reg32 pcb addr v).2 addr = Except.ok v := by
  obtain ⟨k1, _, _, _, k5, _⟩ := write_reg32_loop_spec addr v [0, 1, 2, 3] pcb hwf
    (mapped_four pcb addr hmap) (reg_addrs_pairwise addr)
  simp only [LlamaCoprocessorDriver.write_reg32, LlamaCoprocessorDriver.read_reg32, hatt,
    if_false]
  refine ⟨k1, ?_⟩
  rw [read_reg32_loop_four _ addr _ _ _ _ (k5 0 (by simp)) (k5 1 (by simp)) (k5 2 (by simp))
    (k5 3 (by simp)) (Nat.mod_lt _ (by decide)) (Nat.mod_lt _ (by decide))
    (Nat.mod_lt _ (by decide)) (Nat.mod_lt _ (by decide))]
  congr 1
  omega

theorem C6_reg32_round_trip_witness :
    attached_driver.pcb ≠ PcbPtr.null ∧ VirtualPCB.ctor.WellFormed ∧
      0xDEADBEEF < 4294967296 ∧
      (∀ i, i < 4 → VirtualPCB.ctor.mapped ((REG_CMD + i) % 18446744073709551616) = true) ∧
      (attached_driver.write_reg32 VirtualPCB.ctor REG_CMD 0xDEADBEEF).1 = Except.ok () ∧
      attached_driver.read_reg32
        (attached_driver.write_reg32 VirtualPCB.ctor REG_CMD 0xDEADBEEF).2 REG_CMD =
          Except.ok 0xDEADBEEF :=
  ⟨by decide, wellFormed_ctor, by decide, by decide,
    C6_reg32_round_trip attached_driver VirtualPCB.ctor (by decide) wellFormed_ctor REG_CMD
      0xDEADBEEF (by decide) (by decide)⟩

/-- In every bus state `read_reg32(addr)` is the little-endian sum of the four
bytes `read_memory` returns. -/
theorem read_reg32_eq_sum (drv : LlamaCoprocessorDriver) (pcb : VirtualPCB)
    (hatt : drv.pcb ≠ PcbPtr.null) (hwf : pcb.WellFormed) (addr : Nat)
    (hmap : ∀ i, i < 4 → pcb.mapped ((addr + i) % 18446744073709551616) = true) :
    ∃ b0 b1 b2 b3,
      pcb.read_memory ((addr + 0) % 18446744073709551616) = Except.ok b0 ∧
      pcb.read_memory ((addr + 1) % 18446744073709551616) = Except.ok b1 ∧
      pcb.read_memory ((addr + 2) % 18446744073709551616) = Except.ok b2 ∧
      pcb.read_memory ((addr + 3) % 18446744073709551616) = Except.ok b3 ∧
      drv.read_reg32 pcb addr = Except.ok (b0 + b1 * 256 + b2 * 256 ^ 2 + b3 * 256 ^ 3) := by
  obtain ⟨b0, h0, l0⟩ := read_memory_mapped pcb hwf _ (hmap 0 (by decide))
  obtain ⟨b1, h1, l1⟩ := read_memory_mapped pcb hwf _ (hmap 1 (by decide))
  obtain ⟨b2, h2, l2⟩ := read_memory_mapped pcb hwf _ (hmap 2 (by decide))
  obtain ⟨b3, h3, l3⟩ := read_memory_mapped pcb hwf _ (hmap 3 (by decide))
  refine ⟨b0, b1, b2, b3, h0, h1, h2, h3, ?_⟩
  simp only [LlamaCoprocessorDriver.read_reg32, hatt, if_false]
  exact read_reg32_loop_four pcb addr b0 b1 b2 b3 h0 h1 h2 h3 l0 l1 l2 l3

/-- C7: registers are stored little-endian. On a driver attached to a bus on
which the four bytes `addr .. addr+3` are mapped, after `write_reg32(addr, v)`
with a 32-bit `v`: `read_memory(addr+i)` is `(v >> 8i) & 0xFF` for each `i` in
`0..3`, and `read_reg32(addr)` is the sum over `i` of
`read_memory(addr+i) * 256^i`. -/
theorem C7_little_endian (drv : LlamaCoprocessorDriver) (pcb : VirtualPCB)
    (hatt : drv.pcb ≠ PcbPtr.null) (hwf : pcb.WellFormed) (addr v : Nat)
    (_hv : v < 4294967296)
    (hmap : ∀ i, i < 4 → pcb.mapped ((addr + i) % 18446744073709551616) = true) :
    (∀ i, i < 4 →
      (drv.write_reg32 pcb addr v).2.read_memory ((addr + i) % 18446744073709551616) =
        Except.ok ((v >>> (8 * i)) &&& 0xFF)) ∧
    (∃ b0 b1 b2 b3,
      (drv.write_reg32 pcb addr v).2.read_memory ((addr + 0) % 18446744073709551616) =
        Except.ok b0 ∧
      (drv.write_reg32 pcb addr v).2.read_memory ((addr + 1) % 18446744073709551616) =
        Except.ok b1 ∧
      (drv.write_reg32 pcb addr v).2.read_memory ((addr + 2) % 18446744073709551616) =
        Except.ok b2 ∧
      (drv.write_reg32 pcb addr v).2.read_memory ((addr + 3) % 18446744073709551616) =
        Except.ok b3 ∧
      drv.read_reg32 (drv.write_reg32 pcb addr v).2 addr =
        Except.ok (b0 + b1 * 256 + b2 * 256 ^ 2 + b3 * 256 ^ 3)) := by
  obtain ⟨_, k2, k3, _, k5, _⟩ := write_reg32_loop_spec addr v [0, 1, 2, 3] pcb hwf
    (mapped_four pcb addr hmap) (reg_addrs_pairwise addr)
  have hw : drv.write_reg32 pcb addr v = write_reg32_loop addr v [0, 1, 2, 3] pcb := by
    simp only [LlamaCoprocessorDriver.write_reg32, hatt, if_false]
  rw [hw]
  constructor
  · intro i hi
    have hmem : i ∈ [0, 1, 2, 3] := by
      simp only [List.mem_cons, List.mem_singleton, List.not_mem_nil, or_false]
      omega
    rw [k5 i hmem, ← reg_byte_eq]
    congr 1
    have h : (v >>> (8 * i)) &&& 0xFF = (v >>> (8 * i)) % 2 ^ 8 :=
      Nat.and_pow_two_sub_one_eq_mod (v >>> (8 * i)) 8
    rw [h]
    omega
  · exact read_reg32_eq_sum drv _ hatt k2 addr (fun i hi => by rw [k3]; exact hmap i hi)

theorem C7_little_endian_witness :
    attached_driver.pcb ≠ PcbPtr.null ∧ VirtualPCB.ctor.WellFormed ∧
      0x12345678 < 4294967296 ∧
      (∀ i, i < 4 →
        VirtualPCB.ctor.mapped ((REG_STATUS + i) % 18446744073709551616) = true) ∧
      (∀ i, i < 4 →
        (attached_driver.write_reg32 VirtualPCB.ctor REG_STATUS 0x12345678).2.read_memory
          ((REG_STATUS + i) % 18446744073709551616) =
            Except.ok ((0x12345678 >>> (8 * i)) &&& 0xFF)) :=
  ⟨by decide, wellFormed_ctor, by decide, by decide,
    (C7_little_endian attached_driver VirtualPCB.ctor (by decide) wellFormed_ctor REG_STATUS
      0x12345678 (by decide) (by decide)).1⟩

theorem write_reg32_attached (drv : LlamaCoprocessorDriver) (pcb : VirtualPCB)
    (addr v : Nat) :
    (drv.write_reg32 pcb addr v).2.attached_drivers_ = pcb.attached_drivers_ := by
  have hloop : ∀ (is : List Nat) (p : VirtualPCB),
      (write_reg32_loop addr v is p).2.attached_drivers_ = p.attached_drivers_ := by
    intro is
    induction is with
    | nil => intro p; rfl
    | cons i rest ih =>
        intro p
        have h := attached_write p ((addr + i) % 18446744073709551616)
          (((v >>> (8 * i)) &&& 0xFF) % 256)
        simp only [write_reg32_loop]
        rcases hw : p.write_memory ((addr + i) % 18446744073709551616)
          (((v >>> (8 * i)) &&& 0xFF) % 256) with ⟨res, p1⟩
        rw [hw] at h
        cases res with
        | error e => exact h
        | ok u => exact (ih p1).trans h
  unfold LlamaCoprocessorDriver.write_reg32
  split
  · rfl
  · exact hloop _ pcb

theorem unload_model_attached (drv : LlamaCoprocessorDriver) (pcb : VirtualPCB) :
    (drv.unload_model pcb).2.2.attached_drivers_ = pcb.attached_drivers_ := by
  unfold LlamaCoprocessorDriver.unload_model
  split
  · rfl
  · split
    · rfl
    · rename_i status _
      have h := write_reg32_attached drv pcb REG_STATUS
        (status &&& (4294967295 - STATUS_MODEL_READY))
      split <;> rename_i hw <;> rw [hw] at h <;> exact h

theorem remove_attached (drv : LlamaCoprocessorDriver) (pcb : VirtualPCB) :
    (drv.remove pcb).2.2.attached_drivers_ = pcb.attached_drivers_ := by
  have h := unload_model_attached drv pcb
  unfold LlamaCoprocessorDriver.remove
  split
  · split <;> rename_i hu <;> rw [hu] at h <;> exact h
  · rfl

theorem attach_driver_nodup (w : World) (driver : Nat)
    (h : w.pcb.attached_drivers_.Nodup) :
    (w.attach_driver driver).2.pcb.attached_drivers_.Nodup := by
  unfold World.attach_driver
  split
  · exact h
  · split
    · exact h
    · rename_i hmem
      exact List.Nodup.append h (List.nodup_singleton driver) (by simpa using hmem)

theorem detach_driver_nodup (w : World) (driver : Nat)
    (h : w.pcb.attached_drivers_.Nodup) :
    (w.detach_driver driver).2.pcb.attached_drivers_.Nodup := by
  have hr := remove_attached (w.drivers driver) w.pcb
  unfold World.detach_driver
  split
  · split
    · exact h
    · split <;> rename_i hrm <;> rw [hrm] at hr <;> simp only at hr ⊢ <;> rw [hr]
      · exact h
      · exact h.erase driver
  · exact h

theorem run_nodup (cs : List BusCall) :
    ∀ w : World, w.pcb.attached_drivers_.Nodup → (w.run cs).pcb.attached_drivers_.Nodup := by
  induction cs with
  | nil => intro w h; exact h
  | cons c rest ih =>
      intro w h
      apply ih
      cases c with
      | attach_driver d => exact attach_driver_nodup w d h
      | detach_driver d => exact detach_driver_nodup w d h

/-- C8: for a non-null driver pointer. If the driver is already in the
attachment list, `attach_driver` changes nothing, so `load` is not invoked. If
it is not, `attach_driver` appends it at the end of the list and invokes
`load(this)` on it once, which sets its back-reference, and changes nothing
else; a second `attach_driver` of the same driver then changes nothing, so the
list holds the driver exactly once and the call record has grown by exactly one
`load`. -/
theorem C8_attach_idempotent (w : World) (driver : Nat) (hnn : driver ≠ 0) :
    (driver ∈ w.pcb.attached_drivers_ → w.attach_driver driver = (Except.ok (), w)) ∧
    (driver ∉ w.pcb.attached_drivers_ →
      (w.attach_driver driver).1 = Except.ok () ∧
      (w.attach_driver driver).2.pcb.attached_drivers_ = w.pcb.attached_drivers_ ++ [driver] ∧
      (w.attach_driver driver).2.pcb.memory_regions_ = w.pcb.memory_regions_ ∧
      (w.attach_driver driver).2.calls = w.calls ++ [DriverCall.load driver] ∧
      (w.attach_driver driver).2.drivers driver = ((w.drivers driver).load PcbPtr.bus).2 ∧
      ((w.attach_driver driver).2.drivers driver).pcb = PcbPtr.bus ∧
      (∀ other, other ≠ driver → (w.attach_driver driver).2.drivers other = w.drivers other) ∧
      (w.attach_driver driver).2.attach_driver driver =
        (Except.ok (), (w.attach_driver driver).2) ∧
      ((w.attach_driver driver).2.attach_driver driver).2.pcb.attached_drivers_.count driver
        = 1 ∧
      ((w.attach_driver driver).2.attach_driver driver).2.calls =
        w.calls ++ [DriverCall.load driver]) := by
  constructor
  · intro hmem
    simp [World.attach_driver, hnn, hmem]
  · intro hmem
    have h1 : w.attach_driver driver =
        (Except.ok (),
          { pcb := { w.pcb with attached_drivers_ := w.pcb.attached_drivers_ ++ [driver] },
            drivers := Function.update w.drivers driver
              ((w.drivers driver).load PcbPtr.bus).2,
            calls := w.calls ++ [DriverCall.load driver] }) := by
      simp [World.attach_driver, hnn, hmem]
    have h2 : (w.attach_driver driver).2.attach_driver driver =
        (Except.ok (), (w.attach_driver driver).2) := by
      rw [h1]
      simp [World.attach_driver, hnn]
    rw [h2, h1]
    refine ⟨rfl, rfl, rfl, rfl, ?_, ?_, ?_, rfl, ?_, rfl⟩
    · simp
    · simp [LlamaCoprocessorDriver.load]
    · intro other ho
      simp [Function.update, ho]
    · simp [List.count_append, List.count_eq_zero_of_not_mem hmem]

theorem C8_attach_idempotent_witness :
    (1 : Nat) ≠ 0 ∧
      (((World.ctor (fun _ => LlamaCoprocessorDriver.ctor)).attach_driver 1).2.attach_driver
        1).2.pcb.attached_drivers_ = [1] ∧
      (((World.ctor (fun _ => LlamaCoprocessorDriver.ctor)).attach_driver 1).2.attach_driver
        1).2.calls = [DriverCall.load 1] :=
  ⟨by decide,
    by
      have h := (C8_attach_idempotent (World.ctor (fun _ => LlamaCoprocessorDriver.ctor)) 1
        (by decide)).2 (by decide)
      rw [h.2.2.2.2.2.2.2.1]
      exact h.2.1,
    (C8_attach_idempotent (World.ctor (fun _ => LlamaCoprocessorDriver.ctor)) 1
      (by decide)).2 (by decide) |>.2.2.2.2.2.2.2.2.2⟩

/-- C9: in every bus state reached from construction by a sequence of
`attach_driver` and `detach_driver` calls, whatever the arguments and whatever
the state of the driver objects, no driver occurs more than once in the
attachment list. -/
theorem C9_attachment_list_nodup (drivers : Nat → LlamaCoprocessorDriver)
    (cs : List BusCall) :
    ((World.ctor drivers).run cs).pcb.attached_drivers_.Nodup :=
  run_nodup cs (World.ctor drivers) List.nodup_nil

/-- C10: `attach_driver` given the null pointer throws `std::invalid_argument`
and leaves the bus (attachment list and regions), the driver objects and the
call record as they were. -/
theorem C10_attach_null_rejected (w : World) :
    w.attach_driver 0 = (Except.error Fault.invalid_argument, w) := by
  simp [World.attach_driver]

/-! ## The standard bus, the registers and the driver protocol -/

theorem layout_set (rs : List MemoryRegion) (i : Nat) (r q : MemoryRegion)
    (hi : rs[i]? = some r) (hl : q.layout = r.layout) :
    (rs.set i q).map MemoryRegion.layout = rs.map MemoryRegion.layout := by
  induction rs generalizing i with
  | nil => rfl
  | cons x rest ih =>
      cases i with
      | zero =>
          simp at hi
          subst hi
          simp [hl]
      | succ k =>
          have hk : rest[k]? = some r := by simpa using hi
          simp [ih k hk]

theorem layout_write_memory (pcb : VirtualPCB) (a v : Nat) :
    (pcb.write_memory a v).2.memory_regions_.map MemoryRegion.layout =
      pcb.memory_regions_.map MemoryRegion.layout := by
  unfold VirtualPCB.write_memory
  cases h : pcb.get_region a with
  | none => rfl
  | some p =>
      obtain ⟨i, r⟩ := p
      dsimp only
      split
      · exact layout_set _ i r _ (get_region_mem pcb a i r h).2.1 rfl
      · rfl

theorem standard_write_memory (pcb : VirtualPCB) (h : pcb.Standard) (a v : Nat)
    (hv : v < 256) : (pcb.write_memory a v).2.Standard :=
  ⟨wellFormed_write pcb h.1 a v hv, by rw [layout_write_memory]; exact h.2⟩

theorem standard_write_reg32_loop (addr v : Nat) (is : List Nat) :
    ∀ pcb : VirtualPCB, pcb.Standard → (write_reg32_loop addr v is pcb).2.Standard := by
  induction is with
  | nil => intro pcb h; exact h
  | cons i rest ih =>
      intro pcb h
      have h1 := standard_write_memory pcb h ((addr + i) % 18446744073709551616)
        (((v >>> (8 * i)) &&& 0xFF) % 256) (Nat.mod_lt _ (by decide))
      simp only [write_reg32_loop]
      rcases hw : pcb.write_memory ((addr + i) % 18446744073709551616)
        (((v >>> (8 * i)) &&& 0xFF) % 256) with ⟨res, p1⟩
      rw [hw] at h1
      cases res with
      | error e => exact h1
      | ok u => exact ih p1 h1

theorem standard_poke32 (pcb : VirtualPCB) (h : pcb.Standard) (a v : Nat) :
    (pcb.poke32 a v).Standard :=
  standard_write_reg32_loop a v [0, 1, 2, 3] pcb h

theorem standard_ctor : VirtualPCB.ctor.Standard :=
  ⟨wellFormed_ctor, by decide⟩

theorem standard_add_memory_region (pcb : VirtualPCB) (h : pcb.Standard)
    (base size : Nat) (t : MemoryRegionType) (n : String) :
    (pcb.add_memory_region base size t n).Standard := by
  refine ⟨wellFormed_add_memory_region pcb h.1 base size t n, ?_⟩
  have h2 := h.2
  simp only [VirtualPCB.add_memory_region, List.map_append]
  rw [List.take_append_of_le_length]
  · exact h2
  · have : ((pcb.memory_regions_.map MemoryRegion.layout).take 3).length = 3 := by rw [h2]; rfl
    rw [List.length_take] at this
    omega

/-- On a standard bus every address of the PERIPH span is mapped. -/
theorem mapped_periph (pcb : VirtualPCB) (h : pcb.Standard) (a : Nat)
    (h1 : 0x40000000 ≤ a) (h2 : a < 0x40100000) : pcb.mapped a = true := by
  obtain ⟨_, hl⟩ := h
  unfold VirtualPCB.mapped VirtualPCB.get_region
  match hrs : pcb.memory_regions_, hl with
  | f :: s :: p :: rest, hl =>
      simp only [List.map_cons, List.take_succ_cons, List.take_zero, List.cons.injEq,
        MemoryRegion.layout, Prod.mk.injEq, and_true] at hl
      obtain ⟨⟨f1, f2⟩, ⟨s1, s2⟩, p1, p2⟩ := hl
      have hf : f.contains a = false := by
        simp only [MemoryRegion.contains, f1, f2]
        simp
        omega
      have hs : s.contains a = false := by
        simp only [MemoryRegion.contains, s1, s2]
        simp
        omega
      have hp : p.contains a = true := by
        simp only [MemoryRegion.contains, p1, p2]
        simp
        omega
      simp [get_region_loop, hf, hs, hp]
  | [], hl => simp at hl
  | [_], hl => simp at hl
  | [_, _], hl => simp at hl

theorem isReg_mapped (pcb : VirtualPCB) (h : pcb.Standard) (a : Nat) (ha : IsReg a) :
    ∀ i, i < 4 → pcb.mapped ((a + i) % 18446744073709551616) = true := by
  intro i hi
  obtain ⟨h1, h2, _⟩ := ha
  have e : (a + i) % 18446744073709551616 = a + i := by omega
  rw [e]
  exact mapped_periph pcb h (a + i) (by omega) (by omega)

theorem write_reg32_eq (drv : LlamaCoprocessorDriver) (pcb : VirtualPCB)
    (hatt : drv.pcb ≠ PcbPtr.null) (h : pcb.Standard) (a v : Nat) (ha : IsReg a) :
    drv.write_reg32 pcb a v = (Except.ok (), pcb.poke32 a v) := by
  obtain ⟨k1, _⟩ := write_reg32_loop_spec a v [0, 1, 2, 3] pcb h.1
    (mapped_four pcb a (isReg_mapped pcb h a ha)) (reg_addrs_pairwise a)
  simp only [LlamaCoprocessorDriver.write_reg32, hatt, if_false, VirtualPCB.poke32]
  exact Prod.ext k1 rfl

theorem read_reg32_loop_congr (p q : VirtualPCB) (addr : Nat) (is : List Nat) :
    ∀ acc : Nat,
      (∀ i ∈ is, p.read_memory ((addr + i) % 18446744073709551616) =
        q.read_memory ((addr + i) % 18446744073709551616)) →
      read_reg32_loop p addr is acc = read_reg32_loop q addr is acc := by
  induction is with
  | nil => intro acc _; rfl
  | cons i rest ih =>
      intro acc h
      simp only [read_reg32_loop, h i (List.mem_cons_self i rest)]
      cases q.read_memory ((addr + i) % 18446744073709551616) with
      | error e => rfl
      | ok b => exact ih _ (fun j hj => h j (List.mem_cons_of_mem i hj))

theorem read_reg32_loop_isReg (pcb : VirtualPCB) (h : pcb.Standard) (a : Nat) (ha : IsReg a) :
    read_reg32_loop pcb a [0, 1, 2, 3] 0 = Except.ok (pcb.peek32 a) ∧
      pcb.peek32 a < 4294967296 := by
  obtain ⟨b0, h0, l0⟩ := read_memory_mapped pcb h.1 _ (isReg_mapped pcb h a ha 0 (by decide))
  obtain ⟨b1, h1, l1⟩ := read_memory_mapped pcb h.1 _ (isReg_mapped pcb h a ha 1 (by decide))
  obtain ⟨b2, h2, l2⟩ := read_memory_mapped pcb h.1 _ (isReg_mapped pcb h a ha 2 (by decide))
  obtain ⟨b3, h3, l3⟩ := read_memory_mapped pcb h.1 _ (isReg_mapped pcb h a ha 3 (by decide))
  have hr := read_reg32_loop_four pcb a b0 b1 b2 b3 h0 h1 h2 h3 l0 l1 l2 l3
  simp only [VirtualPCB.peek32, hr, true_and]
  omega

theorem read_reg32_eq (drv : LlamaCoprocessorDriver) (pcb : VirtualPCB)
    (hatt : drv.pcb ≠ PcbPtr.null) (h : pcb.Standard) (a : Nat) (ha : IsReg a) :
    drv.read_reg32 pcb a = Except.ok (pcb.peek32 a) := by
  simp only [LlamaCoprocessorDriver.read_reg32, hatt, if_false]
  exact (read_reg32_loop_isReg pcb h a ha).1

theorem peek32_lt (pcb : VirtualPCB) (h : pcb.Standard) (a : Nat) (ha : IsReg a) :
    pcb.peek32 a < 4294967296 :=
  (read_reg32_loop_isReg pcb h a ha).2

theorem peek32_poke32_same (pcb : VirtualPCB) (h : pcb.Standard) (a v : Nat) (ha : IsReg a) :
    (pcb.poke32 a v).peek32 a = v % 4294967296 := by
  obtain ⟨_, _, _, _, k5, _⟩ := write_reg32_loop_spec a v [0, 1, 2, 3] pcb h.1
    (mapped_four pcb a (isReg_mapped pcb h a ha)) (reg_addrs_pairwise a)
  have hr := read_reg32_loop_four (pcb.poke32 a v) a _ _ _ _ (k5 0 (by simp)) (k5 1 (by simp))
    (k5 2 (by simp)) (k5 3 (by simp)) (Nat.mod_lt _ (by decide)) (Nat.mod_lt _ (by decide))
    (Nat.mod_lt _ (by decide)) (Nat.mod_lt _ (by decide))
  simp only [VirtualPCB.peek32, hr]
  omega

/-- The four byte stores of `write_reg32` at a register change no byte outside
`addr .. addr+3`. -/
theorem read_memory_poke32 (pcb : VirtualPCB) (h : pcb.Standard) (a v x : Nat) (ha : IsReg a)
    (hx : x < a ∨ a + 3 < x) : (pcb.poke32 a v).read_memory x = pcb.read_memory x := by
  obtain ⟨_, _, _, k4, _, _⟩ := write_reg32_loop_spec a v [0, 1, 2, 3] pcb h.1
    (mapped_four pcb a (isReg_mapped pcb h a ha)) (reg_addrs_pairwise a)
  apply k4
  intro i hi
  obtain ⟨h1, h2, _⟩ := ha
  simp only [List.mem_cons, List.mem_singleton, List.not_mem_nil, or_false] at hi
  omega

theorem peek32_poke32_ne (pcb : VirtualPCB) (h : pcb.Standard) (a b v : Nat) (ha : IsReg a)
    (hb : IsReg b) (hne : b ≠ a) : (pcb.poke32 a v).peek32 b = pcb.peek32 b := by
  unfold VirtualPCB.peek32
  rw [read_reg32_loop_congr (pcb.poke32 a v) pcb b [0, 1, 2, 3] 0]
  intro i hi
  obtain ⟨a1, a2, a3⟩ := ha
  obtain ⟨b1, b2, b3⟩ := hb
  simp only [List.mem_cons, List.mem_singleton, List.not_mem_nil, or_false] at hi
  apply read_memory_poke32 pcb h a v _ ⟨a1, a2, a3⟩
  omega

theorem attached_poke32 (pcb : VirtualPCB) (a v : Nat) :
    (pcb.poke32 a v).attached_drivers_ = pcb.attached_drivers_ := by
  have h := write_reg32_attached { attached_driver with pcb := PcbPtr.bus } pcb a v
  simpa [LlamaCoprocessorDriver.write_reg32, VirtualPCB.poke32] using h

theorem bus_then_ok {α β : Type} (a : α) (pcb : VirtualPCB)
    (k : α → VirtualPCB → Except Fault β × VirtualPCB) :
    bus_then (Except.ok a, pcb) k = k a pcb := rfl

/-- The bus `initialize` leaves on an attached driver. -/
theorem initialize_eq (drv : LlamaCoprocessorDriver) (pcb : VirtualPCB)
    (hatt : drv.pcb ≠ PcbPtr.null) (hstd : pcb.Standard) :
    LlamaCoprocessorDriver.initialize drv pcb =
      (Except.ok true,
        ((((((((((pcb.poke32 REG_CMD 0).poke32 REG_STATUS STATUS_IDLE).poke32
          REG_PROMPT_ADDR 0).poke32 REG_PROMPT_LEN 0).poke32 REG_N_PREDICT 0).poke32
          REG_TOKEN_OUT 0).poke32 REG_TOKEN_READY 0).poke32 REG_MODEL_ID 0).poke32
          REG_CTX_USED 0).poke32 REG_ERROR_CODE 0).poke32 REG_PERF_TOKENS_SEC 0) := by
  have h1 := standard_poke32 pcb hstd REG_CMD 0
  have h2 := standard_poke32 _ h1 REG_STATUS STATUS_IDLE
  have h3 := standard_poke32 _ h2 REG_PROMPT_ADDR 0
  have h4 := standard_poke32 _ h3 REG_PROMPT_LEN 0
  have h5 := standard_poke32 _ h4 REG_N_PREDICT 0
  have h6 := standard_poke32 _ h5 REG_TOKEN_OUT 0
  have h7 := standard_poke32 _ h6 REG_TOKEN_READY 0
  have h8 := standard_poke32 _ h7 REG_MODEL_ID 0
  have h9 := standard_poke32 _ h8 REG_CTX_USED 0
  have h10 := standard_poke32 _ h9 REG_ERROR_CODE 0
  unfold LlamaCoprocessorDriver.initialize
  rw [if_neg hatt]
  simp (disch := first | assumption | decide) only [write_reg32_eq, bus_then_ok]

/-- C14: after `initialize()` succeeds on an attached driver, `read_status()`
is exactly `STATUS_IDLE` and each of the other ten registers reads 0, whatever
the registers held before. -/
theorem C14_initialize_registers (drv : LlamaCoprocessorDriver) (pcb : VirtualPCB)
    (hatt : drv.pcb ≠ PcbPtr.null) (hstd : pcb.Standard) :
    ( LlamaCoprocessorDriver.initialize drv pcb).1 = Except.ok true ∧
    drv.read_status ( LlamaCoprocessorDriver.initialize drv pcb).2 = Except.ok STATUS_IDLE ∧
    ∀ r ∈ [REG_CMD, REG_PROMPT_ADDR, REG_PROMPT_LEN, REG_N_PREDICT, REG_TOKEN_OUT,
        REG_TOKEN_READY, REG_MODEL_ID, REG_CTX_USED, REG_ERROR_CODE, REG_PERF_TOKENS_SEC],
      drv.read_reg32 ( LlamaCoprocessorDriver.initialize drv pcb).2 r = Except.ok 0 := by
  have h1 := standard_poke32 pcb hstd REG_CMD 0
  have h2 := standard_poke32 _ h1 REG_STATUS STATUS_IDLE
  have h3 := standard_poke32 _ h2 REG_PROMPT_ADDR 0
  have h4 := standard_poke32 _ h3 REG_PROMPT_LEN 0
  have h5 := standard_poke32 _ h4 REG_N_PREDICT 0
  have h6 := standard_poke32 _ h5 REG_TOKEN_OUT 0
  have h7 := standard_poke32 _ h6 REG_TOKEN_READY 0
  have h8 := standard_poke32 _ h7 REG_MODEL_ID 0
  have h9 := standard_poke32 _ h8 REG_CTX_USED 0
  have h10 := standard_poke32 _ h9 REG_ERROR_CODE 0
  have h11 := standard_poke32 _ h10 REG_PERF_TOKENS_SEC 0
  rw [initialize_eq drv pcb hatt hstd]
  refine ⟨rfl, ?_, ?_⟩
  · unfold LlamaCoprocessorDriver.read_status
    simp (disch := first | assumption | decide) only [read_reg32_eq, peek32_poke32_same,
      peek32_poke32_ne]
    rfl
  · intro r hr
    simp only [List.mem_cons, List.mem_singleton, List.not_mem_nil, or_false] at hr
    rcases hr with rfl | rfl | rfl | rfl | rfl | rfl | rfl | rfl | rfl | rfl <;>
    simp (disch := first | assumption | decide) only [read_reg32_eq, peek32_poke32_same,
      peek32_poke32_ne]

theorem C14_initialize_registers_witness :
    attached_driver.pcb ≠ PcbPtr.null ∧ VirtualPCB.ctor.Standard ∧
      attached_driver.read_status
        ( LlamaCoprocessorDriver.initialize attached_driver VirtualPCB.ctor).2 =
          Except.ok STATUS_IDLE :=
  ⟨by decide, standard_ctor,
    (C14_initialize_registers attached_driver VirtualPCB.ctor (by decide) standard_ctor).2.1⟩

theorem mapped_false_write (pcb : VirtualPCB) (a v : Nat) (h : pcb.mapped a = false) :
    pcb.write_memory a v = (Except.error (Fault.write_unmapped a), pcb) := by
  have hg : pcb.get_region a = none := by
    cases hg : pcb.get_region a with
    | none => rfl
    | some p => simp [VirtualPCB.mapped, hg] at h
  simp [VirtualPCB.write_memory, hg]

/-- The loop of `write_memory_block` started at index `i` when the next `m`
addresses are mapped and the one after them is not. -/
theorem write_memory_block_loop_midway_fault (addr : Nat) (buffer : List Nat)
    (hbytes : ∀ b ∈ buffer, b < 256) (m : Nat) :
    ∀ (n i : Nat) (pcb : VirtualPCB), pcb.WellFormed → m < n → i + n ≤ buffer.length →
      m < 18446744073709551616 →
      (∀ j, j < m → pcb.mapped ((addr + (i + j)) % 18446744073709551616) = true) →
      pcb.mapped ((addr + (i + m)) % 18446744073709551616) = false →
      (write_memory_block_loop addr buffer n i pcb).1 =
        Except.error (Fault.write_unmapped ((addr + (i + m)) % 18446744073709551616)) ∧
      (∀ j, j < m →
        (write_memory_block_loop addr buffer n i pcb).2.read_memory
          ((addr + (i + j)) % 18446744073709551616) = Except.ok (buffer.getD (i + j) 0)) ∧
      (∀ x, (∀ j, j < m → x ≠ (addr + (i + j)) % 18446744073709551616) →
        (write_memory_block_loop addr buffer n i pcb).2.read_memory x = pcb.read_memory x) := by
  induction m with
  | zero =>
      intro n i pcb _ hn hlen _ _ hun
      obtain ⟨n1, rfl⟩ : ∃ n1, n = n1 + 1 := ⟨n - 1, by omega⟩
      have hi : i < buffer.length := by omega
      have hun0 : pcb.mapped ((addr + i) % 18446744073709551616) = false := by
        simpa using hun
      simp only [write_memory_block_loop, List.getElem?_eq_getElem hi,
        mapped_false_write pcb _ _ hun0, Nat.add_zero]
      exact ⟨trivial, fun j hj => absurd hj (Nat.not_lt_zero j), fun x _ => trivial⟩
  | succ m ih =>
      intro n i pcb hwf hn hlen hm hmap hun
      obtain ⟨n1, rfl⟩ : ∃ n1, n = n1 + 1 := ⟨n - 1, by omega⟩
      have hi : i < buffer.length := by omega
      have hb : buffer[i] < 256 := hbytes _ (List.getElem_mem hi)
      have hm0 : pcb.mapped ((addr + i) % 18446744073709551616) = true := by
        simpa using hmap 0 (Nat.succ_pos m)
      obtain ⟨hok, hrd⟩ := read_write_same pcb hwf _ buffer[i] hm0
      have hwf1 := wellFormed_write pcb hwf ((addr + i) % 18446744073709551616) buffer[i] hb
      have hmp1 := mapped_write pcb hwf ((addr + i) % 18446744073709551616) buffer[i]
      have hfr1 := read_write_other pcb hwf ((addr + i) % 18446744073709551616) buffer[i]
      have hstep : write_memory_block_loop addr buffer (n1 + 1) i pcb =
          write_memory_block_loop addr buffer n1 (i + 1)
            (pcb.write_memory ((addr + i) % 18446744073709551616) buffer[i]).2 := by
        rcases hw : pcb.write_memory ((addr + i) % 18446744073709551616) buffer[i]
          with ⟨res, pcb1⟩
        rw [hw] at hok
        cases res with
        | error e => simp at hok
        | ok u => simp [write_memory_block_loop, List.getElem?_eq_getElem hi, hw]
      rw [hstep]
      obtain ⟨k1, k2, k3⟩ := ih n1 (i + 1) _ hwf1 (by omega) (by omega) (by omega)
        (fun j hj => by
          rw [hmp1]
          have := hmap (j + 1) (by omega)
          rwa [show i + (j + 1) = i + 1 + j by omega] at this)
        (by
          rw [hmp1]
          rwa [show i + (m + 1) = i + 1 + m by omega] at hun)
      refine ⟨by rw [k1, show i + (m + 1) = i + 1 + m by omega], ?_, ?_⟩
      · intro j hj
        cases j with
        | zero =>
            have hx : ∀ j, j < m → (addr + i) % 18446744073709551616 ≠
                (addr + (i + 1 + j)) % 18446744073709551616 := by
              intro j hj
              omega
            simp only [Nat.add_zero]
            rw [k3 ((addr + i) % 18446744073709551616) hx, hrd, List.getD_eq_getElem _ _ hi]
        | succ j =>
            rw [show i + (j + 1) = i + 1 + j by omega]
            exact k2 j (by omega)
      · intro x hx
        rw [k3 x (fun j hj => by
          have := hx (j + 1) (by omega)
          rwa [show i + (j + 1) = i + 1 + j by omega] at this)]
        exact hfr1 x (by simpa using hx 0 (Nat.succ_pos m))

/-- C13: `write_memory_block(addr, buf, n)` stores `buf[i]` at `addr+i` for
`i = 0, 1, ...` in increasing order. If `addr .. addr+k-1` are mapped and
`addr+k` with `k < n` is not, the call throws the unmapped-address fault for
`addr+k`; afterwards `read_memory(addr+i)` is `buf[i]` for every `i < k`, and
every address outside those `k` reads as before the call. -/
theorem C13_write_memory_block_midway_fault (pcb : VirtualPCB) (hwf : pcb.WellFormed)
    (addr : Nat) (buffer : List Nat) (n k : Nat) (hbytes : ∀ b ∈ buffer, b < 256)
    (hlen : n ≤ buffer.length) (hn : n < 18446744073709551616) (hk : k < n)
    (hmap : ∀ i, i < k → pcb.mapped ((addr + i) % 18446744073709551616) = true)
    (hun : pcb.mapped ((addr + k) % 18446744073709551616) = false) :
    (pcb.write_memory_block addr buffer n).1 =
      Except.error (Fault.write_unmapped ((addr + k) % 18446744073709551616)) ∧
    (∀ i, i < k →
      (pcb.write_memory_block addr buffer n).2.read_memory
        ((addr + i) % 18446744073709551616) = Except.ok (buffer.getD i 0)) ∧
    (∀ x, (∀ i, i < k → x ≠ (addr + i) % 18446744073709551616) →
      (pcb.write_memory_block addr buffer n).2.read_memory x = pcb.read_memory x) := by
  have h := write_memory_block_loop_midway_fault addr buffer hbytes k n 0 pcb hwf hk (by omega)
    (by omega) (fun j hj => by simpa using hmap j hj) (by simpa using hun)
  simpa [VirtualPCB.write_memory_block] using h

/-! ## Status bits -/

/-- The test `(x & mask) != 0` for a one-bit mask is the test of that bit. -/
theorem and_two_pow_ne_zero (x k : Nat) : ((x &&& 2 ^ k) != 0) = x.testBit k := by
  cases h : x.testBit k with
  | true =>
      have h1 : (x &&& 2 ^ k).testBit k = true := by
        rw [Nat.testBit_and, h, Nat.testBit_two_pow_self]
        rfl
      have h2 : x &&& 2 ^ k ≠ 0 := by
        intro h0
        rw [h0, Nat.zero_testBit] at h1
        exact Bool.noConfusion h1
      simpa using h2
  | false =>
      have h0 : x &&& 2 ^ k = 0 := by
        apply Nat.eq_of_testBit_eq
        intro i
        rw [Nat.testBit_and, Nat.zero_testBit, Nat.testBit_two_pow]
        by_cases hki : k = i
        · subst hki
          simp [h]
        · simp [hki]
      simp [h0]

/-- The bits of the `uint32_t` complement `~m`. -/
theorem testBit_complement (m : Nat) (hm : m < 4294967296) (i : Nat) :
    (4294967295 - m).testBit i = (decide (i < 32) && !m.testBit i) := by
  have h := Nat.testBit_two_pow_sub_succ (x := m) (n := 32) hm i
  have e : 2 ^ 32 - (m + 1) = 4294967295 - m := by omega
  rw [e] at h
  exact h

theorem testBit_uint32 (x : Nat) (hx : x < 4294967296) (i : Nat) (hi : 32 ≤ i) :
    x.testBit i = false := by
  apply Nat.testBit_lt_two_pow
  calc x < 2 ^ 32 := hx
    _ ≤ 2 ^ i := Nat.pow_le_pow_right (by decide) hi

theorem or_uint32 (x m : Nat) (hx : x < 4294967296) (hm : m < 4294967296) :
    (x ||| m) % 4294967296 = x ||| m :=
  Nat.mod_eq_of_lt (Nat.or_lt_two_pow (n := 32) hx hm)

theorem and_uint32 (x m : Nat) (hx : x < 4294967296) : (x &&& m) % 4294967296 = x &&& m :=
  Nat.mod_eq_of_lt (Nat.lt_of_le_of_lt Nat.and_le_left hx)

/-- What `start_inference` does on an attached driver with no model loaded. -/
theorem start_inference_eq_of_not_loaded (drv : LlamaCoprocessorDriver) (pcb : VirtualPCB)
    (hatt : drv.pcb ≠ PcbPtr.null) (hstd : pcb.Standard) (hnl : drv.model_loaded_ = false)
    (now : Nat) :
    drv.start_inference pcb now =
      (Except.ok false, drv,
        (pcb.poke32 REG_STATUS (pcb.peek32 REG_STATUS ||| STATUS_ERROR)).poke32
          REG_ERROR_CODE 1) := by
  have h1 := standard_poke32 pcb hstd REG_STATUS (pcb.peek32 REG_STATUS ||| STATUS_ERROR)
  unfold LlamaCoprocessorDriver.start_inference
  simp (disch := first | assumption | decide) only [hnl, Bool.not_false, if_true,
    read_reg32_eq, write_reg32_eq]

/-- What `start_inference` does on an attached driver with a model loaded. -/
theorem start_inference_eq_of_loaded (drv : LlamaCoprocessorDriver) (pcb : VirtualPCB)
    (hatt : drv.pcb ≠ PcbPtr.null) (hstd : pcb.Standard) (hl : drv.model_loaded_ = true)
    (now : Nat) :
    drv.start_inference pcb now =
      (Except.ok true,
        { drv with
          inference_active_ := true,
          telemetry_ := { drv.telemetry_ with last_inference_start := now } },
        pcb.poke32 REG_STATUS
          (((pcb.peek32 REG_STATUS ||| STATUS_BUSY) &&& (4294967295 - STATUS_IDLE)) &&&
            (4294967295 - STATUS_EOG))) := by
  unfold LlamaCoprocessorDriver.start_inference
  simp (disch := first | assumption | decide) only [hl, Bool.not_true, if_false,
    read_reg32_eq, write_reg32_eq]
  simp

/-- C15: on an attached driver with no model loaded, `start_inference()`
returns false; afterwards STATUS is its previous value with the ERROR bit
(0x08) set, `get_error_code()` is 1 and `has_error()` is true; the driver
object (the inference-active flag, the loaded flag, the telemetry) and every
register other than STATUS and ERROR_CODE, indeed every byte outside those two
registers, are unchanged. -/
theorem C15_start_inference_not_loaded (drv : LlamaCoprocessorDriver) (pcb : VirtualPCB)
    (hatt : drv.pcb ≠ PcbPtr.null) (hstd : pcb.Standard) (hnl : drv.model_loaded_ = false)
    (now : Nat) :
    (drv.start_inference pcb now).1 = Except.ok false ∧
    (drv.start_inference pcb now).2.1 = drv ∧
    (∃ status, drv.read_status pcb = Except.ok status ∧
      drv.read_status (drv.start_inference pcb now).2.2 =
        Except.ok (status ||| STATUS_ERROR)) ∧
    drv.get_error_code (drv.start_inference pcb now).2.2 = Except.ok 1 ∧
    drv.has_error (drv.start_inference pcb now).2.2 = Except.ok true ∧
    (∀ reg, IsReg reg → reg ≠ REG_STATUS → reg ≠ REG_ERROR_CODE →
      drv.read_reg32 (drv.start_inference pcb now).2.2 reg = drv.read_reg32 pcb reg) ∧
    (∀ x, (x < REG_STATUS ∨ REG_STATUS + 3 < x) → (x < REG_ERROR_CODE ∨ REG_ERROR_CODE + 3 < x) →
      (drv.start_inference pcb now).2.2.read_memory x = pcb.read_memory x) := by
  have h1 := standard_poke32 pcb hstd REG_STATUS (pcb.peek32 REG_STATUS ||| STATUS_ERROR)
  have h2 := standard_poke32 _ h1 REG_ERROR_CODE 1
  have hlt := peek32_lt pcb hstd REG_STATUS (by decide)
  have hst : ((pcb.poke32 REG_STATUS (pcb.peek32 REG_STATUS ||| STATUS_ERROR)).poke32
      REG_ERROR_CODE 1).peek32 REG_STATUS = pcb.peek32 REG_STATUS ||| STATUS_ERROR := by
    rw [peek32_poke32_ne _ h1 _ _ _ (by decide) (by decide) (by decide),
      peek32_poke32_same _ hstd _ _ (by decide), or_uint32 _ _ hlt (by decide)]
  rw [start_inference_eq_of_not_loaded drv pcb hatt hstd hnl now]
  refine ⟨rfl, rfl, ⟨pcb.peek32 REG_STATUS, ?_, ?_⟩, ?_, ?_, ?_, ?_⟩
  · exact read_reg32_eq drv pcb hatt hstd REG_STATUS (by decide)
  · unfold LlamaCoprocessorDriver.read_status
    rw [read_reg32_eq drv _ hatt h2 REG_STATUS (by decide), hst]
  · unfold LlamaCoprocessorDriver.get_error_code
    rw [read_reg32_eq drv _ hatt h2 REG_ERROR_CODE (by decide),
      peek32_poke32_same _ h1 _ _ (by decide)]
  · unfold LlamaCoprocessorDriver.has_error
    rw [read_reg32_eq drv _ hatt h2 REG_STATUS (by decide), hst]
    have h3 := and_two_pow_ne_zero (pcb.peek32 REG_STATUS ||| STATUS_ERROR) 3
    rw [Nat.testBit_or] at h3
    have h8 : Nat.testBit STATUS_ERROR 3 = true := by decide
    rw [h8, Bool.or_true] at h3
    exact congrArg Except.ok h3
  · intro reg hreg hs he
    rw [read_reg32_eq drv _ hatt h2 reg hreg, read_reg32_eq drv pcb hatt hstd reg hreg,
      peek32_poke32_ne _ h1 _ _ _ (by decide) hreg he,
      peek32_poke32_ne _ hstd _ _ _ (by decide) hreg hs]
  · intro x hx1 hx2
    rw [read_memory_poke32 _ h1 _ _ _ (by decide) hx2,
      read_memory_poke32 _ hstd _ _ _ (by decide) hx1]

/-- The bits of the STATUS value `start_inference` writes when a model is
loaded. -/
theorem testBit_start_status (status : Nat) (hlt : status < 4294967296) (i : Nat) :
    ((((status ||| STATUS_BUSY) &&& (4294967295 - STATUS_IDLE)) &&&
      (4294967295 - STATUS_EOG)).testBit i) =
      (if i = 1 then true else if i = 0 ∨ i = 2 then false else status.testBit i) := by
  have e1 : STATUS_BUSY = 2 ^ 1 := rfl
  have e0 : STATUS_IDLE = 2 ^ 0 := rfl
  have e2 : STATUS_EOG = 2 ^ 2 := rfl
  rw [Nat.testBit_and, Nat.testBit_and, Nat.testBit_or, testBit_complement _ (by decide),
    testBit_complement _ (by decide), e1, e0, e2, Nat.testBit_two_pow, Nat.testBit_two_pow,
    Nat.testBit_two_pow]
  by_cases h32 : i < 32
  · by_cases h1 : i = 1
    · subst h1
      simp
    · by_cases h0 : i = 0
      · subst h0
        simp
      · by_cases h2 : i = 2
        · subst h2
          simp
        · have g1 : ¬ 1 = i := fun h => h1 h.symm
          have g0 : ¬ 0 = i := fun h => h0 h.symm
          have g2 : ¬ 2 = i := fun h => h2 h.symm
          simp [h32, h1, h0, h2, g1, g0, g2]
  · have hs := testBit_uint32 status hlt i (by omega)
    have h1 : ¬ i = 1 := by omega
    have h0 : ¬ i = 0 := by omega
    have h2 : ¬ i = 2 := by omega
    simp [h32, hs, h1, h0, h2]

/-- C16: on an attached driver with a model loaded, `start_inference()`
returns true and sets the inference-active flag; the new STATUS is
`((old | BUSY) & ~IDLE) & ~EOG`, that is: BUSY set, IDLE and EOG clear and every
other bit as in the old STATUS. -/
theorem C16_start_inference_loaded (drv : LlamaCoprocessorDriver) (pcb : VirtualPCB)
    (hatt : drv.pcb ≠ PcbPtr.null) (hstd : pcb.Standard) (hl : drv.model_loaded_ = true)
    (now : Nat) :
    (drv.start_inference pcb now).1 = Except.ok true ∧
    (drv.start_inference pcb now).2.1.inference_active_ = true ∧
    ∃ status, drv.read_status pcb = Except.ok status ∧
      drv.read_status (drv.start_inference pcb now).2.2 =
        Except.ok (((status ||| STATUS_BUSY) &&& (4294967295 - STATUS_IDLE)) &&&
          (4294967295 - STATUS_EOG)) ∧
      ∀ i, ((((status ||| STATUS_BUSY) &&& (4294967295 - STATUS_IDLE)) &&&
          (4294967295 - STATUS_EOG)).testBit i) =
        (if i = 1 then true else if i = 0 ∨ i = 2 then false else status.testBit i) := by
  have hlt := peek32_lt pcb hstd REG_STATUS (by decide)
  rw [start_inference_eq_of_loaded drv pcb hatt hstd hl now]
  refine ⟨rfl, rfl, pcb.peek32 REG_STATUS, ?_, ?_, testBit_start_status _ hlt⟩
  · exact read_reg32_eq drv pcb hatt hstd REG_STATUS (by decide)
  · unfold LlamaCoprocessorDriver.read_status
    rw [read_reg32_eq drv _ hatt (standard_poke32 pcb hstd _ _) REG_STATUS (by decide),
      peek32_poke32_same _ hstd _ _ (by decide), and_uint32]
    exact Nat.lt_of_le_of_lt Nat.and_le_left (Nat.or_lt_two_pow (n := 32) hlt (by decide))

/-- What `configure_inference` does on an attached driver with a model
loaded. -/
theorem configure_inference_eq_of_loaded (drv : LlamaCoprocessorDriver) (pcb : VirtualPCB)
    (hatt : drv.pcb ≠ PcbPtr.null) (hstd : pcb.Standard) (hl : drv.model_loaded_ = true)
    (prompt_addr prompt_len : Nat) (seq_cfg : LlamaSequenceConfig) :
    drv.configure_inference pcb prompt_addr prompt_len seq_cfg =
      (Except.ok true,
        ((pcb.poke32 REG_PROMPT_ADDR (prompt_addr % 4294967296)).poke32 REG_PROMPT_LEN
          prompt_len).poke32 REG_N_PREDICT (to_uint32 seq_cfg.n_predict)) := by
  unfold LlamaCoprocessorDriver.configure_inference
  simp (disch := first | assumption | ((repeat' apply standard_poke32); assumption) | decide)
    only [hl, Bool.not_true, if_false, write_reg32_eq, bus_then_ok]
  simp

theorem to_uint32_lt (i : Int) : to_uint32 i < 4294967296 := by
  unfold to_uint32
  omega

/-- C19: `configure_inference(prompt_addr, prompt_len, seq_cfg)` returns false
and leaves the bus as it was when no model is loaded. When a model is loaded,
on an attached driver, it returns true and afterwards PROMPT_ADDR reads
`prompt_addr mod 2^32`, PROMPT_LEN reads `prompt_len`, N_PREDICT reads
`n_predict` converted to `uint32_t`, and every other register, indeed every
byte outside those three registers, is unchanged. -/
theorem C19_configure_inference (drv : LlamaCoprocessorDriver) (pcb : VirtualPCB)
    (prompt_addr prompt_len : Nat) (seq_cfg : LlamaSequenceConfig)
    (hlen : prompt_len < 4294967296) :
    (drv.model_loaded_ = false →
      drv.configure_inference pcb prompt_addr prompt_len seq_cfg = (Except.ok false, pcb)) ∧
    (drv.model_loaded_ = true → drv.pcb ≠ PcbPtr.null → pcb.Standard →
      (drv.configure_inference pcb prompt_addr prompt_len seq_cfg).1 = Except.ok true ∧
      drv.read_reg32 (drv.configure_inference pcb prompt_addr prompt_len seq_cfg).2
        REG_PROMPT_ADDR = Except.ok (prompt_addr % 4294967296) ∧
      drv.read_reg32 (drv.configure_inference pcb prompt_addr prompt_len seq_cfg).2
        REG_PROMPT_LEN = Except.ok prompt_len ∧
      drv.read_reg32 (drv.configure_inference pcb prompt_addr prompt_len seq_cfg).2
        REG_N_PREDICT = Except.ok ((seq_cfg.n_predict % 4294967296).toNat) ∧
      (∀ reg, IsReg reg → reg ≠ REG_PROMPT_ADDR → reg ≠ REG_PROMPT_LEN →
        reg ≠ REG_N_PREDICT →
        drv.read_reg32 (drv.configure_inference pcb prompt_addr prompt_len seq_cfg).2 reg =
          drv.read_reg32 pcb reg) ∧
      (∀ x, (x < REG_PROMPT_ADDR ∨ REG_N_PREDICT + 3 < x) →
        (drv.configure_inference pcb prompt_addr prompt_len seq_cfg).2.read_memory x =
          pcb.read_memory x)) := by
  constructor
  · intro hnl
    simp [LlamaCoprocessorDriver.configure_inference, hnl]
  · intro hl hatt hstd
    rw [configure_inference_eq_of_loaded drv pcb hatt hstd hl]
    have h1 := standard_poke32 pcb hstd REG_PROMPT_ADDR (prompt_addr % 4294967296)
    have h2 := standard_poke32 _ h1 REG_PROMPT_LEN prompt_len
    have h3 := standard_poke32 _ h2 REG_N_PREDICT (to_uint32 seq_cfg.n_predict)
    refine ⟨rfl, ?_, ?_, ?_, ?_, ?_⟩
    · rw [read_reg32_eq drv _ hatt h3 _ (by decide),
        peek32_poke32_ne _ h2 _ _ _ (by decide) (by decide) (by decide),
        peek32_poke32_ne _ h1 _ _ _ (by decide) (by decide) (by decide),
        peek32_poke32_same _ hstd _ _ (by decide), Nat.mod_mod]
    · rw [read_reg32_eq drv _ hatt h3 _ (by decide),
        peek32_poke32_ne _ h2 _ _ _ (by decide) (by decide) (by decide),
        peek32_poke32_same _ h1 _ _ (by decide), Nat.mod_eq_of_lt hlen]
    · rw [read_reg32_eq drv _ hatt h3 _ (by decide),
        peek32_poke32_same _ h2 _ _ (by decide), Nat.mod_eq_of_lt (to_uint32_lt _)]
      rfl
    · intro reg hreg g1 g2 g3
      rw [read_reg32_eq drv _ hatt h3 reg hreg, read_reg32_eq drv pcb hatt hstd reg hreg,
        peek32_poke32_ne _ h2 _ _ _ (by decide) hreg g3,
        peek32_poke32_ne _ h1 _ _ _ (by decide) hreg g2,
        peek32_poke32_ne _ hstd _ _ _ (by decide) hreg g1]
    · intro x hx
      have e1 : REG_PROMPT_ADDR = 1073745928 := rfl
      have e2 : REG_N_PREDICT = 1073745936 := rfl
      have e3 : REG_PROMPT_LEN = 1073745932 := rfl
      rw [e1, e2] at hx
      rw [read_memory_poke32 _ h2 _ _ _ (by decide) (by rw [e2]; omega),
        read_memory_poke32 _ h1 _ _ _ (by decide) (by rw [e3]; omega),
        read_memory_poke32 _ hstd _ _ _ (by decide) (by rw [e1]; omega)]

/-- The bits of the STATUS value `infer` and `infer_streaming` write at the
end: IDLE and EOG set, BUSY clear. -/
theorem testBit_final_status (status : Nat) :
    (((status &&& (4294967295 - STATUS_BUSY)) ||| (STATUS_IDLE ||| STATUS_EOG)).testBit 0
      = true) ∧
    (((status &&& (4294967295 - STATUS_BUSY)) ||| (STATUS_IDLE ||| STATUS_EOG)).testBit 2
      = true) ∧
    (((status &&& (4294967295 - STATUS_BUSY)) ||| (STATUS_IDLE ||| STATUS_EOG)).testBit 1
      = false) := by
  have a0 : Nat.testBit (STATUS_IDLE ||| STATUS_EOG) 0 = true := by decide
  have a2 : Nat.testBit (STATUS_IDLE ||| STATUS_EOG) 2 = true := by decide
  have a1 : Nat.testBit (STATUS_IDLE ||| STATUS_EOG) 1 = false := by decide
  have b1 : Nat.testBit STATUS_BUSY 1 = true := by decide
  refine ⟨?_, ?_, ?_⟩
  · rw [Nat.testBit_or, a0, Bool.or_true]
  · rw [Nat.testBit_or, a2, Bool.or_true]
  · rw [Nat.testBit_or, a1, Bool.or_false, Nat.testBit_and,
      testBit_complement STATUS_BUSY (by decide), b1]
    simp

theorem start_status_lt (status : Nat) (h : status < 4294967296) :
    (((status ||| STATUS_BUSY) &&& (4294967295 - STATUS_IDLE)) &&&
      (4294967295 - STATUS_EOG)) < 4294967296 :=
  Nat.lt_of_le_of_lt Nat.and_le_left
    (Nat.lt_of_le_of_lt Nat.and_le_left (Nat.or_lt_two_pow (n := 32) h (by decide)))

theorem final_status_lt (status : Nat) (h : status < 4294967296) :
    ((status &&& (4294967295 - STATUS_BUSY)) ||| (STATUS_IDLE ||| STATUS_EOG)) < 4294967296 :=
  Nat.or_lt_two_pow (n := 32) (Nat.lt_of_le_of_lt Nat.and_le_left h) (by decide)

/-- What `infer` does on an attached driver with a model loaded: the text it
returns, the driver object and the bus it leaves. -/
theorem infer_eq_of_loaded (drv : LlamaCoprocessorDriver) (pcb : VirtualPCB)
    (hatt : drv.pcb ≠ PcbPtr.null) (hstd : pcb.Standard) (hl : drv.model_loaded_ = true)
    (prompt : String) (seq_cfg : LlamaSequenceConfig) (now_start now_end : Nat) :
    drv.infer pcb prompt seq_cfg now_start now_end =
      (Except.ok (infer_text drv.model_config_ prompt seq_cfg),
        { drv with
          inference_active_ := false,
          telemetry_ :=
            { tokens_per_second :=
                infer_tokens_per_second drv.telemetry_.tokens_per_second seq_cfg.n_predict
                  now_start now_end,
              total_tokens_generated :=
                (drv.telemetry_.total_tokens_generated + to_uint64 seq_cfg.n_predict) %
                  18446744073709551616,
              total_prompts := (drv.telemetry_.total_prompts + 1) % 18446744073709551616,
              last_prompt_tokens := prompt.utf8ByteSize,
              last_completion_tokens := to_uint64 seq_cfg.n_predict,
              last_inference_start := now_start,
              last_inference_end := now_end } },
        ((((((pcb.poke32 REG_PROMPT_ADDR (0x20000000 % 4294967296)).poke32 REG_PROMPT_LEN
          (prompt.utf8ByteSize % 4294967296)).poke32 REG_N_PREDICT
          (to_uint32 seq_cfg.n_predict)).poke32 REG_STATUS
          (((pcb.peek32 REG_STATUS ||| STATUS_BUSY) &&& (4294967295 - STATUS_IDLE)) &&&
            (4294967295 - STATUS_EOG))).poke32 REG_PERF_TOKENS_SEC
          (Float.toUInt32
            (infer_tokens_per_second drv.telemetry_.tokens_per_second seq_cfg.n_predict
              now_start now_end)).toNat).poke32
          REG_CTX_USED
          (((prompt.utf8ByteSize + to_uint64 seq_cfg.n_predict) % 18446744073709551616) %
            4294967296)).poke32 REG_STATUS
          ((((((pcb.peek32 REG_STATUS ||| STATUS_BUSY) &&& (4294967295 - STATUS_IDLE)) &&&
            (4294967295 - STATUS_EOG))) &&& (4294967295 - STATUS_BUSY)) |||
              (STATUS_IDLE ||| STATUS_EOG))) := by
  have c1 := standard_poke32 pcb hstd REG_PROMPT_ADDR (0x20000000 % 4294967296)
  have c2 := standard_poke32 _ c1 REG_PROMPT_LEN (prompt.utf8ByteSize % 4294967296)
  have c3 := standard_poke32 _ c2 REG_N_PREDICT (to_uint32 seq_cfg.n_predict)
  have hlt := peek32_lt pcb hstd REG_STATUS (by decide)
  have hs3 : (((pcb.poke32 REG_PROMPT_ADDR (0x20000000 % 4294967296)).poke32 REG_PROMPT_LEN
      (prompt.utf8ByteSize % 4294967296)).poke32 REG_N_PREDICT
      (to_uint32 seq_cfg.n_predict)).peek32 REG_STATUS = pcb.peek32 REG_STATUS := by
    rw [peek32_poke32_ne _ c2 _ _ _ (by decide) (by decide) (by decide),
      peek32_poke32_ne _ c1 _ _ _ (by decide) (by decide) (by decide),
      peek32_poke32_ne _ hstd _ _ _ (by decide) (by decide) (by decide)]
  unfold LlamaCoprocessorDriver.infer
  rw [configure_inference_eq_of_loaded drv pcb hatt hstd hl]
  simp only [hl, Bool.not_true, Bool.false_eq_true, if_false]
  rw [start_inference_eq_of_loaded drv _ hatt c3 hl, hs3]
  simp (disch := first | assumption | exact hatt |
      ((repeat' apply standard_poke32); assumption) | decide)
    only [write_reg32_eq, read_reg32_eq, peek32_poke32_ne,
      peek32_poke32_same, Nat.mod_eq_of_lt (start_status_lt _ hlt)]
  rw [hl]

/-- C17: for every attached driver with a model loaded, every prompt, every
sequence config and every pair of clock readings, `infer()` returns its text
and afterwards the STATUS register has IDLE and EOG set and BUSY clear, and
the inference-active flag is false. -/
theorem C17_infer_status (drv : LlamaCoprocessorDriver) (pcb : VirtualPCB)
    (hatt : drv.pcb ≠ PcbPtr.null) (hstd : pcb.Standard) (hl : drv.model_loaded_ = true)
    (prompt : String) (seq_cfg : LlamaSequenceConfig) (now_start now_end : Nat) :
    (drv.infer pcb prompt seq_cfg now_start now_end).1 =
      Except.ok (infer_text drv.model_config_ prompt seq_cfg) ∧
    (drv.infer pcb prompt seq_cfg now_start now_end).2.1.inference_active_ = false ∧
    ∃ status,
      (drv.infer pcb prompt seq_cfg now_start now_end).2.1.read_status
        (drv.infer pcb prompt seq_cfg now_start now_end).2.2 = Except.ok status ∧
      status &&& STATUS_IDLE ≠ 0 ∧ status &&& STATUS_EOG ≠ 0 ∧ status &&& STATUS_BUSY = 0 ∧
      (drv.infer pcb prompt seq_cfg now_start now_end).2.1.is_busy
        (drv.infer pcb prompt seq_cfg now_start now_end).2.2 = Except.ok false := by
  have hlt := peek32_lt pcb hstd REG_STATUS (by decide)
  rw [infer_eq_of_loaded drv pcb hatt hstd hl]
  refine ⟨rfl, rfl,
    ((((pcb.peek32 REG_STATUS ||| STATUS_BUSY) &&& (4294967295 - STATUS_IDLE)) &&&
      (4294967295 - STATUS_EOG)) &&& (4294967295 - STATUS_BUSY)) |||
        (STATUS_IDLE ||| STATUS_EOG), ?_, ?_⟩
  · simp (disch := first | assumption | exact hatt |
        ((repeat' apply standard_poke32); assumption) | decide)
      only [LlamaCoprocessorDriver.read_status, read_reg32_eq, peek32_poke32_same,
        Nat.mod_eq_of_lt (final_status_lt _ (start_status_lt _ hlt))]
  · obtain ⟨t0, t2, t1⟩ := testBit_final_status
      (((pcb.peek32 REG_STATUS ||| STATUS_BUSY) &&& (4294967295 - STATUS_IDLE)) &&&
        (4294967295 - STATUS_EOG))
    have m0 := and_two_pow_ne_zero
      (((((pcb.peek32 REG_STATUS ||| STATUS_BUSY) &&& (4294967295 - STATUS_IDLE)) &&&
        (4294967295 - STATUS_EOG)) &&& (4294967295 - STATUS_BUSY)) |||
          (STATUS_IDLE ||| STATUS_EOG)) 0
    have m2 := and_two_pow_ne_zero
      (((((pcb.peek32 REG_STATUS ||| STATUS_BUSY) &&& (4294967295 - STATUS_IDLE)) &&&
        (4294967295 - STATUS_EOG)) &&& (4294967295 - STATUS_BUSY)) |||
          (STATUS_IDLE ||| STATUS_EOG)) 2
    have m1 := and_two_pow_ne_zero
      (((((pcb.peek32 REG_STATUS ||| STATUS_BUSY) &&& (4294967295 - STATUS_IDLE)) &&&
        (4294967295 - STATUS_EOG)) &&& (4294967295 - STATUS_BUSY)) |||
          (STATUS_IDLE ||| STATUS_EOG)) 1
    rw [t0] at m0
    rw [t2] at m2
    rw [t1] at m1
    have n0 : ∀ x : Nat, ((x &&& 2 ^ 0) != 0) = true → x &&& STATUS_IDLE ≠ 0 := by
      intro x hx h0
      have h1 : x &&& 2 ^ 0 = 0 := h0
      rw [h1] at hx
      exact Bool.noConfusion hx
    have n2 : ∀ x : Nat, ((x &&& 2 ^ 2) != 0) = true → x &&& STATUS_EOG ≠ 0 := by
      intro x hx h0
      have h1 : x &&& 2 ^ 2 = 0 := h0
      rw [h1] at hx
      exact Bool.noConfusion hx
    refine ⟨n0 _ m0, n2 _ m2, by simpa using m1, ?_⟩
    simp (disch := first | assumption | exact hatt |
        ((repeat' apply standard_poke32); assumption) | decide)
      only [LlamaCoprocessorDriver.is_busy, read_reg32_eq, peek32_poke32_same,
        Nat.mod_eq_of_lt (final_status_lt _ (start_status_lt _ hlt))]
    exact congrArg Except.ok m1

/-- C18: with no model loaded, attached or not, `infer` returns the fixed
text and `infer_streaming` returns false without invoking the token callback;
neither throws, and both leave the driver object (both flags, every telemetry
field) and the bus (every register) exactly as they were. -/
theorem C18_no_model_soft_failure (drv : LlamaCoprocessorDriver) (pcb : VirtualPCB)
    (hnl : drv.model_loaded_ = false) (prompt : String) (seq_cfg : LlamaSequenceConfig)
    (now_start now_end : Nat) :
    drv.infer pcb prompt seq_cfg now_start now_end =
      (Except.ok "[ERROR] Model not loaded. Call load_model() first.", drv, pcb) ∧
    drv.infer_streaming pcb prompt seq_cfg now_start now_end =
      (Except.ok false, [], drv, pcb) := by
  simp [LlamaCoprocessorDriver.infer, LlamaCoprocessorDriver.infer_streaming, hnl]

theorem token_available_eq (drv : LlamaCoprocessorDriver) (pcb : VirtualPCB)
    (hatt : drv.pcb ≠ PcbPtr.null) (hstd : pcb.Standard) :
    drv.token_available pcb =
      Except.ok ((pcb.peek32 REG_STATUS &&& STATUS_TOKEN_READY) != 0) := by
  unfold LlamaCoprocessorDriver.token_available
  rw [read_reg32_eq drv pcb hatt hstd REG_STATUS (by decide)]

theorem read_token_eq_of_not_ready (drv : LlamaCoprocessorDriver) (pcb : VirtualPCB)
    (hatt : drv.pcb ≠ PcbPtr.null) (hstd : pcb.Standard)
    (h : pcb.peek32 REG_STATUS &&& STATUS_TOKEN_READY = 0) :
    drv.read_token pcb = (Except.ok (-1), pcb) := by
  unfold LlamaCoprocessorDriver.read_token
  rw [token_available_eq drv pcb hatt hstd, h]
  rfl

theorem read_token_eq_of_ready (drv : LlamaCoprocessorDriver) (pcb : VirtualPCB)
    (hatt : drv.pcb ≠ PcbPtr.null) (hstd : pcb.Standard)
    (h : pcb.peek32 REG_STATUS &&& STATUS_TOKEN_READY ≠ 0) :
    drv.read_token pcb =
      (Except.ok (to_int32 (pcb.peek32 REG_TOKEN_OUT)),
        pcb.poke32 REG_STATUS (pcb.peek32 REG_STATUS &&& (4294967295 - STATUS_TOKEN_READY))) := by
  have hb : ((pcb.peek32 REG_STATUS &&& STATUS_TOKEN_READY) != 0) = true := by
    simpa using h
  unfold LlamaCoprocessorDriver.read_token
  rw [token_available_eq drv pcb hatt hstd, hb]
  simp (disch := first | assumption | decide) only [read_reg32_eq, write_reg32_eq]

theorem testBit_clear_token_ready (status : Nat) (i : Nat) (hlt : status < 4294967296) :
    (status &&& (4294967295 - STATUS_TOKEN_READY)).testBit i =
      (if i = 5 then false else status.testBit i) := by
  have e : STATUS_TOKEN_READY = 2 ^ 5 := rfl
  rw [Nat.testBit_and, testBit_complement _ (by decide), e, Nat.testBit_two_pow]
  by_cases h5 : i = 5
  · subst h5
    simp
  · have g : ¬ 5 = i := fun h => h5 h.symm
    by_cases h32 : i < 32
    · simp [h5, g, h32]
    · simp [h5, g, h32, testBit_uint32 status hlt i (by omega)]

/-- C20: `read_token()` on an attached driver. When the TOKEN_READY bit of
STATUS is clear it returns -1 and leaves the bus as it was. When the bit is
set it returns the TOKEN_OUT register read as an `int32_t`, and afterwards
STATUS is its previous value with only the TOKEN_READY bit cleared, every other
register is unchanged, and a `read_token()` that follows returns -1. -/
theorem C20_read_token (drv : LlamaCoprocessorDriver) (pcb : VirtualPCB)
    (hatt : drv.pcb ≠ PcbPtr.null) (hstd : pcb.Standard) :
    ∃ status token,
      drv.read_status pcb = Except.ok status ∧
      drv.read_reg32 pcb REG_TOKEN_OUT = Except.ok token ∧
      (status &&& STATUS_TOKEN_READY = 0 → drv.read_token pcb = (Except.ok (-1), pcb)) ∧
      (status &&& STATUS_TOKEN_READY ≠ 0 →
        (drv.read_token pcb).1 =
          Except.ok (if token < 2147483648 then (token : Int) else (token : Int) - 4294967296) ∧
        drv.read_status (drv.read_token pcb).2 =
          Except.ok (status &&& (4294967295 - STATUS_TOKEN_READY)) ∧
        (∀ i, (status &&& (4294967295 - STATUS_TOKEN_READY)).testBit i =
          (if i = 5 then false else status.testBit i)) ∧
        (∀ reg, IsReg reg → reg ≠ REG_STATUS →
          drv.read_reg32 (drv.read_token pcb).2 reg = drv.read_reg32 pcb reg) ∧
        (drv.read_token (drv.read_token pcb).2).1 = Except.ok (-1)) := by
  have hlt := peek32_lt pcb hstd REG_STATUS (by decide)
  have htl := peek32_lt pcb hstd REG_TOKEN_OUT (by decide)
  have h1 := standard_poke32 pcb hstd REG_STATUS
    (pcb.peek32 REG_STATUS &&& (4294967295 - STATUS_TOKEN_READY))
  have hst : (pcb.poke32 REG_STATUS
      (pcb.peek32 REG_STATUS &&& (4294967295 - STATUS_TOKEN_READY))).peek32 REG_STATUS =
      pcb.peek32 REG_STATUS &&& (4294967295 - STATUS_TOKEN_READY) := by
    rw [peek32_poke32_same _ hstd _ _ (by decide), and_uint32 _ _ hlt]
  refine ⟨pcb.peek32 REG_STATUS, pcb.peek32 REG_TOKEN_OUT,
    read_reg32_eq drv pcb hatt hstd REG_STATUS (by decide),
    read_reg32_eq drv pcb hatt hstd REG_TOKEN_OUT (by decide),
    read_token_eq_of_not_ready drv pcb hatt hstd, ?_⟩
  intro hready
  rw [read_token_eq_of_ready drv pcb hatt hstd hready]
  refine ⟨?_, ?_, fun i => testBit_clear_token_ready _ i hlt, ?_, ?_⟩
  · simp only [to_int32, Nat.mod_eq_of_lt htl]
  · unfold LlamaCoprocessorDriver.read_status
    rw [read_reg32_eq drv _ hatt h1 REG_STATUS (by decide), hst]
  · intro reg hreg hne
    rw [read_reg32_eq drv _ hatt h1 reg hreg, read_reg32_eq drv pcb hatt hstd reg hreg,
      peek32_poke32_ne _ hstd _ _ _ (by decide) hreg hne]
  · rw [read_token_eq_of_not_ready drv _ hatt h1]
    rw [hst]
    have hb := and_two_pow_ne_zero
      (pcb.peek32 REG_STATUS &&& (4294967295 - STATUS_TOKEN_READY)) 5
    rw [testBit_clear_token_ready _ 5 hlt, if_pos rfl] at hb
    simpa using hb

/-- What `unload_model` and `remove` do on a consistent driver over a standard
bus: neither throws; the driver ends with no back-reference and no model; the
bus changes only when a model was loaded, by the MODEL_READY bit of STATUS. -/
theorem remove_eq (drv : LlamaCoprocessorDriver) (pcb : VirtualPCB) (hstd : pcb.Standard)
    (hc : drv.Consistent) :
    drv.remove pcb =
      (Except.ok true, { drv with pcb := PcbPtr.null, model_loaded_ := false },
        if drv.model_loaded_ = true then
          pcb.poke32 REG_STATUS (pcb.peek32 REG_STATUS &&& (4294967295 - STATUS_MODEL_READY))
        else pcb) := by
  cases hl : drv.model_loaded_ with
  | false =>
      cases drv
      simp only at hl
      subst hl
      simp [LlamaCoprocessorDriver.remove]
  | true =>
      have hatt := hc hl
      unfold LlamaCoprocessorDriver.remove LlamaCoprocessorDriver.unload_model
      simp (disch := first | assumption | decide) only [hl, Bool.not_true, if_true,
        if_false, Bool.false_eq_true, read_reg32_eq, write_reg32_eq]

theorem remove_standard (drv : LlamaCoprocessorDriver) (pcb : VirtualPCB)
    (hstd : pcb.Standard) (hc : drv.Consistent) : (drv.remove pcb).2.2.Standard := by
  rw [remove_eq drv pcb hstd hc]
  dsimp only
  split
  · exact standard_poke32 pcb hstd _ _
  · exact hstd

/-- What `detach_driver` does to an attached driver in a state that satisfies
the invariant. -/
theorem detach_driver_eq (w : World) (hinv : w.Invariant) (driver : Nat)
    (hmem : driver ∈ w.pcb.attached_drivers_) :
    w.detach_driver driver =
      (Except.ok (),
        { pcb :=
            { ((w.drivers driver).remove w.pcb).2.2 with
              attached_drivers_ := w.pcb.attached_drivers_.erase driver },
          drivers := Function.update w.drivers driver
            { w.drivers driver with pcb := PcbPtr.null, model_loaded_ := false },
          calls := w.calls ++ [DriverCall.remove driver] }) := by
  obtain ⟨hstd, _, h0, hc⟩ := hinv
  have hne : driver ≠ 0 := fun h => h0 (h ▸ hmem)
  have hat := remove_attached (w.drivers driver) w.pcb
  unfold World.detach_driver
  rw [if_pos hmem, if_neg hne]
  rw [remove_eq (w.drivers driver) w.pcb hstd (hc driver)] at hat ⊢
  simp only at hat ⊢
  rw [hat]

/-- C11: in a state that satisfies the invariant of the bus and its drivers,
`detach_driver(d)` for an attached `d` returns normally, invokes `d.remove()`
once, and leaves the attachment list with `d` removed and the other drivers in
their previous order; the driver ends with no back-reference and no model.
When `d` is not attached, `remove` is not invoked and the bus and the drivers
are unchanged. -/
theorem C11_detach_driver (w : World) (hinv : w.Invariant) (driver : Nat) :
    (driver ∈ w.pcb.attached_drivers_ →
      (w.detach_driver driver).1 = Except.ok () ∧
      (w.detach_driver driver).2.calls = w.calls ++ [DriverCall.remove driver] ∧
      (w.detach_driver driver).2.pcb.attached_drivers_ =
        w.pcb.attached_drivers_.filter (fun d => d != driver) ∧
      driver ∉ (w.detach_driver driver).2.pcb.attached_drivers_ ∧
      ((w.detach_driver driver).2.drivers driver).pcb = PcbPtr.null ∧
      ((w.detach_driver driver).2.drivers driver).model_loaded_ = false ∧
      (∀ other, other ≠ driver →
        (w.detach_driver driver).2.drivers other = w.drivers other)) ∧
    (driver ∉ w.pcb.attached_drivers_ → w.detach_driver driver = (Except.ok (), w)) := by
  constructor
  · intro hmem
    have hnd := hinv.2.1
    rw [detach_driver_eq w hinv driver hmem]
    refine ⟨rfl, rfl, ?_, ?_, ?_, ?_, ?_⟩
    · exact hnd.erase_eq_filter driver
    · exact fun h => (List.Nodup.mem_erase_iff hnd).1 h |>.1 rfl
    · simp
    · simp
    · intro other ho
      simp [Function.update, ho]
  · intro hmem
    simp [World.detach_driver, hmem]

/-- The loop of the bus destructor over a list of non-null, consistent
drivers on a standard bus: every `remove()` returns, the calls made are one
`remove` per list entry in order, and every driver of the list ends with no
back-reference and no model. -/
theorem dtor_loop_spec (l : List Nat) :
    ∀ w : World, w.pcb.Standard → (∀ d, (w.drivers d).Consistent) → 0 ∉ l →
      (dtor_loop l w).1 = Except.ok () ∧
      (dtor_loop l w).2.calls = w.calls ++ l.map DriverCall.remove ∧
      (∀ d, d ∈ l ∨ ((w.drivers d).pcb = PcbPtr.null ∧ (w.drivers d).model_loaded_ = false) →
        ((dtor_loop l w).2.drivers d).pcb = PcbPtr.null ∧
          ((dtor_loop l w).2.drivers d).model_loaded_ = false) ∧
      (∀ d, d ∉ l → (dtor_loop l w).2.drivers d = w.drivers d) ∧
      (dtor_loop l w).2.pcb.attached_drivers_ = w.pcb.attached_drivers_ := by
  induction l with
  | nil =>
      intro w _ _ _
      refine ⟨rfl, by simp [dtor_loop], ?_, fun d _ => rfl, rfl⟩
      intro d hd
      rcases hd with hd | hd
      · simp at hd
      · exact hd
  | cons x rest ih =>
      intro w hstd hc h0
      have hx : x ≠ 0 := fun h => h0 (h ▸ List.mem_cons_self x rest)
      have hrest : 0 ∉ rest := fun h => h0 (List.mem_cons_of_mem x h)
      have hat := remove_attached (w.drivers x) w.pcb
      have hst := remove_standard (w.drivers x) w.pcb hstd (hc x)
      have hstep : dtor_loop (x :: rest) w =
          dtor_loop rest
            { pcb := ((w.drivers x).remove w.pcb).2.2,
              drivers := Function.update w.drivers x
                { w.drivers x with pcb := PcbPtr.null, model_loaded_ := false },
              calls := w.calls ++ [DriverCall.remove x] } := by
        simp only [dtor_loop, if_neg hx]
        rw [remove_eq (w.drivers x) w.pcb hstd (hc x)]
      rw [hstep]
      obtain ⟨k1, k2, k3, k4, k5⟩ := ih
        { pcb := ((w.drivers x).remove w.pcb).2.2,
          drivers := Function.update w.drivers x
            { w.drivers x with pcb := PcbPtr.null, model_loaded_ := false },
          calls := w.calls ++ [DriverCall.remove x] } hst
        (fun d => by
          by_cases hd : d = x
          · subst hd
            intro hl
            simp at hl
          · simpa [Function.update, hd] using hc d) hrest
      refine ⟨k1, by simp [k2], ?_, ?_, by rw [k5]; exact hat⟩
      · intro d hd
        apply k3
        by_cases hdx : d = x
        · subst hdx
          right
          simp
        · rcases hd with hd | hd
          · left
            rcases List.mem_cons.1 hd with h | h
            · exact absurd h hdx
            · exact h
          · right
            simpa [Function.update, hdx] using hd
      · intro d hd
        have hdx : d ≠ x := fun h => hd (h ▸ List.mem_cons_self x rest)
        rw [k4 d (fun h => hd (List.mem_cons_of_mem x h))]
        simp [Function.update, hdx]

/-- C12: in a state that satisfies the invariant of the bus and its drivers,
the bus destructor returns from every `remove()`, invokes `remove()` exactly
once on each driver of the attachment list, in list order, and on no other
driver; afterwards every driver of the list has no bus back-reference and no
loaded model, and every other driver object is as it was. -/
theorem C12_bus_teardown (w : World) (hinv : w.Invariant) :
    w.dtor.1 = Except.ok () ∧
    w.dtor.2.calls = w.calls ++ w.pcb.attached_drivers_.map DriverCall.remove ∧
    (∀ d, (w.pcb.attached_drivers_.map DriverCall.remove).count (DriverCall.remove d) =
      if d ∈ w.pcb.attached_drivers_ then 1 else 0) ∧
    (∀ d ∈ w.pcb.attached_drivers_,
      (w.dtor.2.drivers d).pcb = PcbPtr.null ∧ (w.dtor.2.drivers d).model_loaded_ = false) ∧
    (∀ d, d ∉ w.pcb.attached_drivers_ → w.dtor.2.drivers d = w.drivers d) := by
  obtain ⟨hstd, hnd, h0, hc⟩ := hinv
  obtain ⟨k1, k2, k3, k4, _⟩ := dtor_loop_spec w.pcb.attached_drivers_ w hstd hc h0
  refine ⟨k1, k2, ?_, fun d hd => k3 d (Or.inl hd), k4⟩
  intro d
  have hinj : Function.Injective DriverCall.remove := by
    intro a b h
    injection h
  rw [List.count_map_of_injective _ _ hinj]
  by_cases hd : d ∈ w.pcb.attached_drivers_
  · rw [if_pos hd, List.count_eq_one_of_mem hnd hd]
  · rw [if_neg hd, List.count_eq_zero_of_not_mem hd]

/-- The invariant holds after construction next to consistent drivers. -/
theorem invariant_ctor (drivers : Nat → LlamaCoprocessorDriver)
    (hc : ∀ d, (drivers d).Consistent) : (World.ctor drivers).Invariant :=
  ⟨standard_ctor, List.nodup_nil, by simp [World.ctor, VirtualPCB.ctor,
    VirtualPCB.add_memory_region], hc⟩

theorem invariant_attach_driver (w : World) (hinv : w.Invariant) (driver : Nat) :
    (w.attach_driver driver).2.Invariant := by
  obtain ⟨hstd, hnd, h0, hc⟩ := hinv
  refine ⟨?_, attach_driver_nodup w driver hnd, ?_, ?_⟩
  · unfold World.attach_driver
    split
    · exact hstd
    · split
      · exact hstd
      · exact hstd
  · unfold World.attach_driver
    split
    · exact h0
    · split
      · exact h0
      · rename_i hne _
        simp only [List.mem_append, List.mem_singleton, not_or]
        exact ⟨h0, fun h => hne h.symm⟩
  · intro d
    unfold World.attach_driver
    split
    · exact hc d
    · split
      · exact hc d
      · by_cases hd : d = driver
        · subst hd
          intro _
          simp [LlamaCoprocessorDriver.load]
        · simpa [Function.update, hd] using hc d

theorem invariant_detach_driver (w : World) (hinv : w.Invariant) (driver : Nat) :
    (w.detach_driver driver).2.Invariant := by
  by_cases hmem : driver ∈ w.pcb.attached_drivers_
  · rw [detach_driver_eq w hinv driver hmem]
    obtain ⟨hstd, hnd, h0, hc⟩ := hinv
    refine ⟨?_, hnd.erase driver, fun h => h0 (List.mem_of_mem_erase h), ?_⟩
    · have h := remove_standard (w.drivers driver) w.pcb hstd (hc driver)
      exact ⟨h.1, h.2⟩
    · intro d
      by_cases hd : d = driver
      · subst hd
        intro hl
        simp at hl
      · simpa [Function.update, hd] using hc d
  · have : w.detach_driver driver = (Except.ok (), w) := by
      simp [World.detach_driver, hmem]
    rw [this]
    exact hinv

/-- The invariant holds in every state reached from construction next to
consistent drivers by `attach_driver` and `detach_driver` calls. -/
theorem invariant_run (cs : List BusCall) :
    ∀ w : World, w.Invariant → (w.run cs).Invariant := by
  induction cs with
  | nil => intro w h; exact h
  | cons c rest ih =>
      intro w h
      apply ih
      cases c with
      | attach_driver d => exact invariant_attach_driver w h d
      | detach_driver d => exact invariant_detach_driver w h d

/-- What `load_model` does on an attached driver with no model loaded. -/
theorem load_model_eq_of_not_loaded (drv : LlamaCoprocessorDriver) (pcb : VirtualPCB)
    (hatt : drv.pcb ≠ PcbPtr.null) (hstd : pcb.Standard) (hnl : drv.model_loaded_ = false) :
    drv.load_model pcb =
      (Except.ok true, { drv with model_loaded_ := true },
        pcb.poke32 REG_STATUS (pcb.peek32 REG_STATUS ||| STATUS_MODEL_READY)) := by
  unfold LlamaCoprocessorDriver.load_model
  simp (disch := first | assumption | decide) only [hnl, if_false, Bool.false_eq_true,
    read_reg32_eq, write_reg32_eq]

theorem load_model_attached_driver :
    attached_driver.load_model VirtualPCB.ctor = (Except.ok true, loaded_driver, loaded_bus) :=
  load_model_eq_of_not_loaded attached_driver VirtualPCB.ctor (by decide) standard_ctor rfl

theorem standard_loaded_bus : loaded_bus.Standard :=
  standard_poke32 VirtualPCB.ctor standard_ctor REG_STATUS
    (VirtualPCB.ctor.peek32 REG_STATUS ||| STATUS_MODEL_READY)

theorem attached_world_invariant : attached_world.Invariant :=
  invariant_attach_driver _ (invariant_ctor _ (fun _ h => by simp [LlamaCoprocessorDriver.ctor] at h)) 1

theorem C11_detach_driver_witness :
    attached_world.Invariant ∧ 1 ∈ attached_world.pcb.attached_drivers_ ∧
      (attached_world.detach_driver 1).1 = Except.ok () ∧
      (attached_world.detach_driver 1).2.calls =
        attached_world.calls ++ [DriverCall.remove 1] :=
  ⟨attached_world_invariant, by decide,
    ((C11_detach_driver attached_world attached_world_invariant 1).1 (by decide)).1,
    ((C11_detach_driver attached_world attached_world_invariant 1).1 (by decide)).2.1⟩

theorem C12_bus_teardown_witness :
    attached_world.Invariant ∧ attached_world.dtor.1 = Except.ok () ∧
      attached_world.dtor.2.calls =
        attached_world.calls ++ attached_world.pcb.attached_drivers_.map DriverCall.remove :=
  ⟨attached_world_invariant, (C12_bus_teardown attached_world attached_world_invariant).1,
    (C12_bus_teardown attached_world attached_world_invariant).2.1⟩

theorem C13_write_memory_block_midway_fault_witness :
    VirtualPCB.ctor.WellFormed ∧ (∀ b ∈ [1, 2, 3, 4], b < 256) ∧
      4 ≤ [1, 2, 3, 4].length ∧ 4 < 18446744073709551616 ∧ 2 < 4 ∧
      (∀ i, i < 2 → VirtualPCB.ctor.mapped ((0x00FFFFFE + i) % 18446744073709551616) = true) ∧
      VirtualPCB.ctor.mapped ((0x00FFFFFE + 2) % 18446744073709551616) = false ∧
      (VirtualPCB.ctor.write_memory_block 0x00FFFFFE [1, 2, 3, 4] 4).1 =
        Except.error (Fault.write_unmapped ((0x00FFFFFE + 2) % 18446744073709551616)) :=
  ⟨wellFormed_ctor, by decide, by decide, by decide, by decide, by decide, by decide,
    (C13_write_memory_block_midway_fault VirtualPCB.ctor wellFormed_ctor 0x00FFFFFE [1, 2, 3, 4] 4 2
      (by decide) (by decide) (by decide) (by decide) (by decide) (by decide)).1⟩

theorem C15_start_inference_not_loaded_witness :
    attached_driver.pcb ≠ PcbPtr.null ∧ VirtualPCB.ctor.Standard ∧
      attached_driver.model_loaded_ = false ∧
      (attached_driver.start_inference VirtualPCB.ctor 0).1 = Except.ok false ∧
      attached_driver.get_error_code (attached_driver.start_inference VirtualPCB.ctor 0).2.2 =
        Except.ok 1 :=
  ⟨by decide, standard_ctor, rfl,
    (C15_start_inference_not_loaded attached_driver VirtualPCB.ctor (by decide) standard_ctor
      rfl 0).1,
    (C15_start_inference_not_loaded attached_driver VirtualPCB.ctor (by decide) standard_ctor
      rfl 0).2.2.2.1⟩

theorem C16_start_inference_loaded_witness :
    loaded_driver.pcb ≠ PcbPtr.null ∧ loaded_bus.Standard ∧
      loaded_driver.model_loaded_ = true ∧
      (loaded_driver.start_inference loaded_bus 0).1 = Except.ok true ∧
      (loaded_driver.start_inference loaded_bus 0).2.1.inference_active_ = true :=
  ⟨(by decide), standard_loaded_bus, rfl,
    (C16_start_inference_loaded loaded_driver loaded_bus (by decide)
      standard_loaded_bus rfl 0).1,
    (C16_start_inference_loaded loaded_driver loaded_bus (by decide)
      standard_loaded_bus rfl 0).2.1⟩

theorem C17_infer_status_witness :
    loaded_driver.pcb ≠ PcbPtr.null ∧ loaded_bus.Standard ∧
      loaded_driver.model_loaded_ = true ∧
      (loaded_driver.infer loaded_bus "hello" LlamaSequenceConfig.ctor 1000000
        9000000).2.1.inference_active_ = false :=
  ⟨(by decide), standard_loaded_bus, rfl,
    (C17_infer_status loaded_driver loaded_bus (by decide)
      standard_loaded_bus rfl "hello" LlamaSequenceConfig.ctor 1000000
      9000000).2.1⟩

theorem C18_no_model_soft_failure_witness :
    LlamaCoprocessorDriver.ctor.model_loaded_ = false ∧
      LlamaCoprocessorDriver.ctor.infer_streaming VirtualPCB.ctor "hello"
        LlamaSequenceConfig.ctor 0 0 =
          (Except.ok false, [], LlamaCoprocessorDriver.ctor, VirtualPCB.ctor) :=
  ⟨rfl,
    (C18_no_model_soft_failure LlamaCoprocessorDriver.ctor VirtualPCB.ctor rfl "hello"
      LlamaSequenceConfig.ctor 0 0).2⟩

theorem C19_configure_inference_witness :
    5 < 4294967296 ∧
      loaded_driver.read_reg32
        (loaded_driver.configure_inference loaded_bus 0x20000000 5
          LlamaSequenceConfig.ctor).2 REG_PROMPT_LEN = Except.ok 5 :=
  ⟨by decide,
    ((C19_configure_inference loaded_driver loaded_bus 0x20000000 5
      LlamaSequenceConfig.ctor (by decide)).2 rfl (by decide)
      standard_loaded_bus).2.2.1⟩

theorem C20_read_token_witness :
    attached_driver.pcb ≠ PcbPtr.null ∧ VirtualPCB.ctor.Standard ∧
      ∃ status token,
        attached_driver.read_status VirtualPCB.ctor = Except.ok status ∧
        attached_driver.read_reg32 VirtualPCB.ctor REG_TOKEN_OUT = Except.ok token ∧
        (status &&& STATUS_TOKEN_READY = 0 →
          attached_driver.read_token VirtualPCB.ctor = (Except.ok (-1), VirtualPCB.ctor)) :=
  ⟨by decide, standard_ctor,
    (C20_read_token attached_driver VirtualPCB.ctor (by decide) standard_ctor).imp
      (fun _ h => h.imp (fun _ g => ⟨g.1, g.2.1, g.2.2.1⟩))⟩

/-! ## Reset, self-test and the model flag -/

theorem set4_same (d : List Nat) (o a0 a1 a2 a3 b0 b1 b2 b3 : Nat) :
    ((((((((d.set o a0).set (o + 1) a1).set (o + 2) a2).set (o + 3) a3).set o b0).set
      (o + 1) b1).set (o + 2) b2).set (o + 3) b3) =
      (((d.set o b0).set (o + 1) b1).set (o + 2) b2).set (o + 3) b3 := by
  apply List.ext_getElem?
  intro i
  simp only [List.getElem?_set, List.length_set]
  split_ifs <;> rfl

theorem set4_comm (d : List Nat) (o q a0 a1 a2 a3 b0 b1 b2 b3 : Nat)
    (h : o + 3 < q ∨ q + 3 < o) :
    ((((((((d.set o a0).set (o + 1) a1).set (o + 2) a2).set (o + 3) a3).set q b0).set
      (q + 1) b1).set (q + 2) b2).set (q + 3) b3) =
    ((((((((d.set q b0).set (q + 1) b1).set (q + 2) b2).set (q + 3) b3).set o a0).set
      (o + 1) a1).set (o + 2) a2).set (o + 3) a3) := by
  have c : ∀ x y : Nat, x ≠ y → ∀ (l : List Nat) (a b : Nat),
      (l.set x a).set y b = (l.set y b).set x a :=
    fun x y hxy l a b => List.set_comm a b l hxy
  rw [c (o + 3) q (by omega), c (o + 2) q (by omega), c (o + 1) q (by omega),
    c o q (by omega),
    c (o + 3) (q + 1) (by omega), c (o + 2) (q + 1) (by omega), c (o + 1) (q + 1) (by omega),
    c o (q + 1) (by omega),
    c (o + 3) (q + 2) (by omega), c (o + 2) (q + 2) (by omega), c (o + 1) (q + 2) (by omega),
    c o (q + 2) (by omega),
    c (o + 3) (q + 3) (by omega), c (o + 2) (q + 3) (by omega), c (o + 1) (q + 3) (by omega),
    c o (q + 3) (by omega)]

/-- On a standard bus an address of the PERIPH span is served by the third
region. -/
theorem get_region_periph (pcb : VirtualPCB) (h : pcb.Standard) (a : Nat)
    (h1 : 0x40000000 ≤ a) (h2 : a < 0x40100000) :
    ∃ p, pcb.memory_regions_[2]? = some p ∧ pcb.get_region a = some (2, p) ∧
      p.base_addr = 0x40000000 := by
  obtain ⟨_, hl⟩ := h
  unfold VirtualPCB.get_region
  match hrs : pcb.memory_regions_, hl with
  | f :: s :: p :: rest, hl =>
      simp only [List.map_cons, List.take_succ_cons, List.take_zero, List.cons.injEq,
        MemoryRegion.layout, Prod.mk.injEq, and_true] at hl
      obtain ⟨⟨f1, f2⟩, ⟨s1, s2⟩, p1, p2⟩ := hl
      have hf : f.contains a = false := by
        simp only [MemoryRegion.contains, f1, f2]
        simp
        omega
      have hs : s.contains a = false := by
        simp only [MemoryRegion.contains, s1, s2]
        simp
        omega
      have hp : p.contains a = true := by
        simp only [MemoryRegion.contains, p1, p2]
        simp
        omega
      exact ⟨p, by simp, by simp [get_region_loop, hf, hs, hp], p1⟩
  | [], hl => simp at hl
  | [_], hl => simp at hl
  | [_, _], hl => simp at hl

theorem write_memory_periph (pcb : VirtualPCB) (h : pcb.Standard) (a v : Nat)
    (h1 : 0x40000000 ≤ a) (h2 : a < 0x40100000) (p : MemoryRegion)
    (hp : pcb.memory_regions_[2]? = some p) :
    pcb.write_memory a v =
      (Except.ok (),
        { pcb with
          memory_regions_ :=
            pcb.memory_regions_.set 2 { p with data := p.data.set (a - 0x40000000) v } }) := by
  obtain ⟨q, hq, hg, hb⟩ := get_region_periph pcb h a h1 h2
  rw [hp] at hq
  cases hq
  rw [write_memory_eq pcb h.1 a v 2 p hg, hb]

/-- The bus `write_reg32` leaves at a register of a standard bus, written
out: four bytes of the third region are replaced. -/
theorem poke32_eq (pcb : VirtualPCB) (h : pcb.Standard) (a v : Nat) (ha : IsReg a)
    (p : MemoryRegion) (hp : pcb.memory_regions_[2]? = some p) :
    pcb.poke32 a v =
      { pcb with
        memory_regions_ :=
          pcb.memory_regions_.set 2
            { p with
              data :=
                (((p.data.set (a - 0x40000000) (((v >>> (8 * 0)) &&& 0xFF) % 256)).set
                  (a - 0x40000000 + 1) (((v >>> (8 * 1)) &&& 0xFF) % 256)).set
                  (a - 0x40000000 + 2) (((v >>> (8 * 2)) &&& 0xFF) % 256)).set
                  (a - 0x40000000 + 3) (((v >>> (8 * 3)) &&& 0xFF) % 256) } } := by
  obtain ⟨a1, a2, _⟩ := ha
  have hlen : 2 < pcb.memory_regions_.length := by
    rcases Nat.lt_or_ge 2 pcb.memory_regions_.length with hl | hl
    · exact hl
    · rw [List.getElem?_eq_none hl] at hp
      cases hp
  have e0 : (a + 0) % 18446744073709551616 = a := by omega
  have e1 : (a + 1) % 18446744073709551616 = a + 1 := by omega
  have e2 : (a + 2) % 18446744073709551616 = a + 2 := by omega
  have e3 : (a + 3) % 18446744073709551616 = a + 3 := by omega
  have o1 : a + 1 - 0x40000000 = a - 0x40000000 + 1 := by omega
  have o2 : a + 2 - 0x40000000 = a - 0x40000000 + 2 := by omega
  have o3 : a + 3 - 0x40000000 = a - 0x40000000 + 3 := by omega
  have w0 := write_memory_periph pcb h a (((v >>> (8 * 0)) &&& 0xFF) % 256) a1 (by omega) p hp
  have s0 := standard_write_memory pcb h a (((v >>> (8 * 0)) &&& 0xFF) % 256)
    (Nat.mod_lt _ (by decide))
  rw [w0] at s0
  have w1 := write_memory_periph _ s0 (a + 1) (((v >>> (8 * 1)) &&& 0xFF) % 256) (by omega)
    (by omega) _ (List.getElem?_set_self hlen)
  have s1 := standard_write_memory _ s0 (a + 1) (((v >>> (8 * 1)) &&& 0xFF) % 256)
    (Nat.mod_lt _ (by decide))
  rw [w1] at s1
  simp only [List.set_set, o1] at w1 s1
  have w2 := write_memory_periph _ s1 (a + 2) (((v >>> (8 * 2)) &&& 0xFF) % 256) (by omega)
    (by omega) _ (List.getElem?_set_self hlen)
  have s2 := standard_write_memory _ s1 (a + 2) (((v >>> (8 * 2)) &&& 0xFF) % 256)
    (Nat.mod_lt _ (by decide))
  rw [w2] at s2
  simp only [List.set_set, o2] at w2 s2
  have w3 := write_memory_periph _ s2 (a + 3) (((v >>> (8 * 3)) &&& 0xFF) % 256) (by omega)
    (by omega) _ (List.getElem?_set_self hlen)
  simp only [List.set_set, o3] at w3
  simp only [VirtualPCB.poke32, write_reg32_loop, e0, e1, e2, e3, w0, w1, w2, w3]

theorem poke32_poke32_same (pcb : VirtualPCB) (h : pcb.Standard) (a v w : Nat) (ha : IsReg a) :
    (pcb.poke32 a v).poke32 a w = pcb.poke32 a w := by
  obtain ⟨p, hp, _, _⟩ := get_region_periph pcb h a ha.1 (by have := ha.2.1; omega)
  have hlen : 2 < pcb.memory_regions_.length := by
    rcases Nat.lt_or_ge 2 pcb.memory_regions_.length with hl | hl
    · exact hl
    · rw [List.getElem?_eq_none hl] at hp
      cases hp
  have h1 := standard_poke32 pcb h a v
  rw [poke32_eq pcb h a v ha p hp] at h1 ⊢
  rw [poke32_eq _ h1 a w ha _ (List.getElem?_set_self hlen), poke32_eq pcb h a w ha p hp]
  simp only [List.set_set, set4_same]

theorem poke32_poke32_comm (pcb : VirtualPCB) (h : pcb.Standard) (a b v w : Nat) (ha : IsReg a)
    (hb : IsReg b) (hne : a ≠ b) :
    (pcb.poke32 a v).poke32 b w = (pcb.poke32 b w).poke32 a v := by
  obtain ⟨p, hp, _, _⟩ := get_region_periph pcb h a ha.1 (by have := ha.2.1; omega)
  have hlen : 2 < pcb.memory_regions_.length := by
    rcases Nat.lt_or_ge 2 pcb.memory_regions_.length with hl | hl
    · exact hl
    · rw [List.getElem?_eq_none hl] at hp
      cases hp
  have h1 := standard_poke32 pcb h a v
  have h2 := standard_poke32 pcb h b w
  rw [poke32_eq pcb h a v ha p hp] at h1 ⊢
  rw [poke32_eq pcb h b w hb p hp] at h2 ⊢
  rw [poke32_eq _ h1 b w hb _ (List.getElem?_set_self hlen),
    poke32_eq _ h2 a v ha _ (List.getElem?_set_self hlen)]
  simp only [List.set_set]
  rw [set4_comm]
  obtain ⟨a1, a2, a3⟩ := ha
  obtain ⟨b1, b2, b3⟩ := hb
  omega

/-- What `reset_device` does on an attached driver. -/
theorem reset_device_eq (drv : LlamaCoprocessorDriver) (pcb : VirtualPCB)
    (hatt : drv.pcb ≠ PcbPtr.null) (hstd : pcb.Standard) :
    drv.reset_device pcb =
      (Except.ok true, { drv with inference_active_ := false },
        (pcb.poke32 REG_CMD CMD_RESET).poke32 REG_STATUS
          (if drv.model_loaded_ then STATUS_IDLE ||| STATUS_MODEL_READY else STATUS_IDLE)) := by
  have h1 := standard_poke32 pcb hstd REG_CMD CMD_RESET
  unfold LlamaCoprocessorDriver.reset_device LlamaCoprocessorDriver.reset_device_internal
  simp (disch := first | assumption | decide) only [write_reg32_eq]

theorem standard_init (drv : LlamaCoprocessorDriver) (pcb : VirtualPCB)
    (hstd : pcb.Standard) : ( LlamaCoprocessorDriver.initialize drv pcb).2.Standard := by
  by_cases hatt : drv.pcb = PcbPtr.null
  · simp only [ LlamaCoprocessorDriver.initialize, hatt, if_true]
    exact hstd
  · rw [initialize_eq drv pcb hatt hstd]
    repeat' apply standard_poke32
    exact hstd

/-- C21: `reset_device()` on an attached driver returns true; afterwards CMD
reads `CMD_RESET` (0x01), STATUS reads exactly `STATUS_IDLE` when no model is
loaded and exactly `STATUS_IDLE | STATUS_MODEL_READY` (0x11) when one is, the
inference-active flag is false, the loaded flag and the rest of the driver
object are unchanged, and every register other than CMD and STATUS
(`REG_ERROR_CODE` among them) reads as before. -/
theorem C21_reset_device (drv : LlamaCoprocessorDriver) (pcb : VirtualPCB)
    (hatt : drv.pcb ≠ PcbPtr.null) (hstd : pcb.Standard) :
    (drv.reset_device pcb).1 = Except.ok true ∧
    (drv.reset_device pcb).2.1.read_reg32 (drv.reset_device pcb).2.2 REG_CMD =
      Except.ok CMD_RESET ∧
    (drv.model_loaded_ = false →
      (drv.reset_device pcb).2.1.read_status (drv.reset_device pcb).2.2 =
        Except.ok STATUS_IDLE) ∧
    (drv.model_loaded_ = true →
      (drv.reset_device pcb).2.1.read_status (drv.reset_device pcb).2.2 = Except.ok 0x11) ∧
    (drv.reset_device pcb).2.1.inference_active_ = false ∧
    (drv.reset_device pcb).2.1.model_loaded_ = drv.model_loaded_ ∧
    (drv.reset_device pcb).2.1 = { drv with inference_active_ := false } ∧
    (∀ reg, IsReg reg → reg ≠ REG_CMD → reg ≠ REG_STATUS →
      (drv.reset_device pcb).2.1.read_reg32 (drv.reset_device pcb).2.2 reg =
        drv.read_reg32 pcb reg) := by
  have h1 := standard_poke32 pcb hstd REG_CMD CMD_RESET
  have h2 := standard_poke32 _ h1 REG_STATUS
    (if drv.model_loaded_ then STATUS_IDLE ||| STATUS_MODEL_READY else STATUS_IDLE)
  have hatt2 : ({ drv with inference_active_ := false } : LlamaCoprocessorDriver).pcb ≠
      PcbPtr.null := hatt
  rw [reset_device_eq drv pcb hatt hstd]
  refine ⟨rfl, ?_, ?_, ?_, rfl, rfl, rfl, ?_⟩
  · rw [read_reg32_eq _ _ hatt2 h2 REG_CMD (by decide),
      peek32_poke32_ne _ h1 _ _ _ (by decide) (by decide) (by decide),
      peek32_poke32_same _ hstd _ _ (by decide)]
    rfl
  · intro hnl
    unfold LlamaCoprocessorDriver.read_status
    rw [read_reg32_eq _ _ hatt2 h2 REG_STATUS (by decide),
      peek32_poke32_same _ h1 _ _ (by decide), hnl]
    rfl
  · intro hl
    unfold LlamaCoprocessorDriver.read_status
    rw [read_reg32_eq _ _ hatt2 h2 REG_STATUS (by decide),
      peek32_poke32_same _ h1 _ _ (by decide), hl]
    rfl
  · intro reg hreg hc hs
    rw [read_reg32_eq _ _ hatt2 h2 reg hreg, read_reg32_eq drv pcb hatt hstd reg hreg,
      peek32_poke32_ne _ h1 _ _ _ (by decide) hreg hs,
      peek32_poke32_ne _ hstd _ _ _ (by decide) hreg hc]

theorem C21_reset_device_witness :
    loaded_driver.pcb ≠ PcbPtr.null ∧ loaded_bus.Standard ∧
      (loaded_driver.reset_device loaded_bus).1 = Except.ok true ∧
      (loaded_driver.reset_device loaded_bus).2.1.read_status
        (loaded_driver.reset_device loaded_bus).2.2 = Except.ok 0x11 :=
  ⟨by decide, standard_loaded_bus,
    (C21_reset_device loaded_driver loaded_bus (by decide) standard_loaded_bus).1,
    (C21_reset_device loaded_driver loaded_bus (by decide) standard_loaded_bus).2.2.2.1 rfl⟩

/-- What `run_self_test` does on an attached driver: every check passes and the
bus ends as `reset_device` leaves it. -/
theorem run_self_test_eq (drv : LlamaCoprocessorDriver) (pcb : VirtualPCB)
    (hatt : drv.pcb ≠ PcbPtr.null) (hstd : pcb.Standard) :
    drv.run_self_test pcb =
      (Except.ok true, { drv with inference_active_ := false },
        (pcb.poke32 REG_CMD CMD_RESET).poke32 REG_STATUS
          (if drv.model_loaded_ then STATUS_IDLE ||| STATUS_MODEL_READY else STATUS_IDLE)) := by
  have h1 := standard_poke32 pcb hstd REG_CMD 0xDEADBEEF
  have h2 := standard_poke32 _ h1 REG_CMD 0
  have h3 := standard_poke32 _ h2 REG_STATUS (STATUS_IDLE ||| STATUS_MODEL_READY)
  have h4 := standard_poke32 pcb hstd REG_CMD 0
  have h5 := standard_poke32 pcb hstd REG_CMD CMD_RESET
  have e : (((((pcb.poke32 REG_CMD 0xDEADBEEF).poke32 REG_CMD 0).poke32 REG_STATUS
      (STATUS_IDLE ||| STATUS_MODEL_READY)).poke32 REG_CMD CMD_RESET).poke32 REG_STATUS
        (if drv.model_loaded_ then STATUS_IDLE ||| STATUS_MODEL_READY else STATUS_IDLE)) =
      (pcb.poke32 REG_CMD CMD_RESET).poke32 REG_STATUS
        (if drv.model_loaded_ then STATUS_IDLE ||| STATUS_MODEL_READY else STATUS_IDLE) := by
    rw [poke32_poke32_same pcb hstd REG_CMD _ _ (by decide),
      poke32_poke32_comm _ h4 REG_STATUS REG_CMD _ _ (by decide) (by decide) (by decide),
      poke32_poke32_same pcb hstd REG_CMD _ _ (by decide),
      poke32_poke32_same _ h5 REG_STATUS _ _ (by decide)]
  unfold LlamaCoprocessorDriver.run_self_test
  rw [write_reg32_eq drv pcb hatt hstd _ _ (by decide)]
  simp only []
  rw [read_reg32_eq drv _ hatt h1 _ (by decide), peek32_poke32_same _ hstd _ _ (by decide)]
  simp only []
  rw [if_neg (by decide), write_reg32_eq drv _ hatt h1 _ _ (by decide)]
  simp only []
  rw [write_reg32_eq drv _ hatt h2 _ _ (by decide)]
  simp only []
  rw [read_reg32_eq drv _ hatt h3 _ (by decide), peek32_poke32_same _ h2 _ _ (by decide)]
  simp only []
  rw [if_neg (by decide)]
  have hr := reset_device_eq drv _ hatt h3
  unfold LlamaCoprocessorDriver.reset_device at hr
  rw [hr, e]
  rfl

/-- C22: `run_self_test()` returns true for every attached driver, and the
driver object and the bus it leaves are exactly those `reset_device()` leaves
from the same starting state. -/
theorem C22_run_self_test (drv : LlamaCoprocessorDriver) (pcb : VirtualPCB)
    (hatt : drv.pcb ≠ PcbPtr.null) (hstd : pcb.Standard) :
    (drv.run_self_test pcb).1 = Except.ok true ∧
    (drv.reset_device pcb).1 = Except.ok true ∧
    (drv.run_self_test pcb).2 = (drv.reset_device pcb).2 := by
  rw [run_self_test_eq drv pcb hatt hstd, reset_device_eq drv pcb hatt hstd]
  exact ⟨rfl, rfl, rfl⟩

theorem initialize_attached_driver :
    LlamaCoprocessorDriver.initialize attached_driver VirtualPCB.ctor =
      (Except.ok true, initialized_bus) :=
  initialize_eq attached_driver VirtualPCB.ctor (by decide) standard_ctor

theorem standard_initd_bus : initialized_bus.Standard :=
  standard_poke32 _ (standard_poke32 _ (standard_poke32 _ (standard_poke32 _
    (standard_poke32 _ (standard_poke32 _ (standard_poke32 _ (standard_poke32 _
    (standard_poke32 _ (standard_poke32 _ (standard_poke32 _ standard_ctor REG_CMD 0)
    REG_STATUS STATUS_IDLE) REG_PROMPT_ADDR 0) REG_PROMPT_LEN 0) REG_N_PREDICT 0)
    REG_TOKEN_OUT 0) REG_TOKEN_READY 0) REG_MODEL_ID 0) REG_CTX_USED 0) REG_ERROR_CODE 0)
    REG_PERF_TOKENS_SEC 0

theorem C22_run_self_test_witness :
    attached_driver.pcb ≠ PcbPtr.null ∧ initialized_bus.Standard ∧
      (attached_driver.run_self_test initialized_bus).1 = Except.ok true :=
  ⟨by decide, standard_initd_bus,
    (C22_run_self_test attached_driver initialized_bus (by decide) standard_initd_bus).1⟩

/-- The registers of a standard bus after the eleven stores of `initialize`. -/
theorem peek32_after_init (pcb : VirtualPCB) (hstd : pcb.Standard) :
    (((((((((((pcb.poke32 REG_CMD 0).poke32 REG_STATUS STATUS_IDLE).poke32
      REG_PROMPT_ADDR 0).poke32 REG_PROMPT_LEN 0).poke32 REG_N_PREDICT 0).poke32
      REG_TOKEN_OUT 0).poke32 REG_TOKEN_READY 0).poke32 REG_MODEL_ID 0).poke32
      REG_CTX_USED 0).poke32 REG_ERROR_CODE 0).poke32 REG_PERF_TOKENS_SEC 0).peek32
        REG_STATUS = STATUS_IDLE ∧
    ∀ r ∈ [REG_CMD, REG_PROMPT_ADDR, REG_PROMPT_LEN, REG_N_PREDICT, REG_TOKEN_OUT,
        REG_TOKEN_READY, REG_MODEL_ID, REG_CTX_USED, REG_ERROR_CODE, REG_PERF_TOKENS_SEC],
      (((((((((((pcb.poke32 REG_CMD 0).poke32 REG_STATUS STATUS_IDLE).poke32
        REG_PROMPT_ADDR 0).poke32 REG_PROMPT_LEN 0).poke32 REG_N_PREDICT 0).poke32
        REG_TOKEN_OUT 0).poke32 REG_TOKEN_READY 0).poke32 REG_MODEL_ID 0).poke32
        REG_CTX_USED 0).poke32 REG_ERROR_CODE 0).poke32 REG_PERF_TOKENS_SEC 0).peek32 r = 0 := by
  have h1 := standard_poke32 pcb hstd REG_CMD 0
  have h2 := standard_poke32 _ h1 REG_STATUS STATUS_IDLE
  have h3 := standard_poke32 _ h2 REG_PROMPT_ADDR 0
  have h4 := standard_poke32 _ h3 REG_PROMPT_LEN 0
  have h5 := standard_poke32 _ h4 REG_N_PREDICT 0
  have h6 := standard_poke32 _ h5 REG_TOKEN_OUT 0
  have h7 := standard_poke32 _ h6 REG_TOKEN_READY 0
  have h8 := standard_poke32 _ h7 REG_MODEL_ID 0
  have h9 := standard_poke32 _ h8 REG_CTX_USED 0
  have h10 := standard_poke32 _ h9 REG_ERROR_CODE 0
  constructor
  · simp (disch := first | assumption | decide) only [peek32_poke32_same, peek32_poke32_ne]
    rfl
  · intro r hr
    simp only [List.mem_cons, List.mem_singleton, List.not_mem_nil, or_false] at hr
    rcases hr with rfl | rfl | rfl | rfl | rfl | rfl | rfl | rfl | rfl | rfl <;>
    simp (disch := first | assumption | decide) only [peek32_poke32_same, peek32_poke32_ne]

theorem peek32_initialized_bus :
    initialized_bus.peek32 REG_STATUS = STATUS_IDLE ∧
    ∀ r ∈ [REG_CMD, REG_PROMPT_ADDR, REG_PROMPT_LEN, REG_N_PREDICT, REG_TOKEN_OUT,
        REG_TOKEN_READY, REG_MODEL_ID, REG_CTX_USED, REG_ERROR_CODE, REG_PERF_TOKENS_SEC],
      initialized_bus.peek32 r = 0 :=
  peek32_after_init VirtualPCB.ctor standard_ctor

theorem load_model_eq_of_loaded (drv : LlamaCoprocessorDriver) (pcb : VirtualPCB)
    (hl : drv.model_loaded_ = true) : drv.load_model pcb = (Except.ok true, drv, pcb) := by
  simp [LlamaCoprocessorDriver.load_model, hl]

theorem unload_model_eq_of_not_loaded (drv : LlamaCoprocessorDriver) (pcb : VirtualPCB)
    (hnl : drv.model_loaded_ = false) : drv.unload_model pcb = (Except.ok true, drv, pcb) := by
  simp [LlamaCoprocessorDriver.unload_model, hnl]

/-- What `unload_model` does on an attached driver with a model loaded. -/
theorem unload_model_eq_of_loaded (drv : LlamaCoprocessorDriver) (pcb : VirtualPCB)
    (hatt : drv.pcb ≠ PcbPtr.null) (hstd : pcb.Standard) (hl : drv.model_loaded_ = true) :
    drv.unload_model pcb =
      (Except.ok true, { drv with model_loaded_ := false },
        pcb.poke32 REG_STATUS (pcb.peek32 REG_STATUS &&& (4294967295 - STATUS_MODEL_READY))) := by
  unfold LlamaCoprocessorDriver.unload_model
  simp (disch := first | assumption | decide) only [hl, Bool.not_true, if_false,
    Bool.false_eq_true, read_reg32_eq, write_reg32_eq]

theorem testBit_set_model_ready (status : Nat) (i : Nat) :
    (status ||| STATUS_MODEL_READY).testBit i = (if i = 4 then true else status.testBit i) := by
  have e : STATUS_MODEL_READY = 2 ^ 4 := rfl
  rw [Nat.testBit_or, e, Nat.testBit_two_pow]
  by_cases h4 : i = 4
  · subst h4
    simp
  · have g : ¬ 4 = i := fun h => h4 h.symm
    simp [h4, g]

theorem testBit_clear_model_ready (status : Nat) (i : Nat) (hlt : status < 4294967296) :
    (status &&& (4294967295 - STATUS_MODEL_READY)).testBit i =
      (if i = 4 then false else status.testBit i) := by
  have e : STATUS_MODEL_READY = 2 ^ 4 := rfl
  rw [Nat.testBit_and, testBit_complement _ (by decide), e, Nat.testBit_two_pow]
  by_cases h4 : i = 4
  · subst h4
    simp
  · have g : ¬ 4 = i := fun h => h4 h.symm
    by_cases h32 : i < 32
    · simp [h4, g, h32]
    · simp [h4, g, h32, testBit_uint32 status hlt i (by omega)]

/-- The state in which `initialize()` leaves a driver with a model loaded:
`load(&bus)`, `load_model()`, `initialize()` on a fresh driver and bus give
`loaded_driver` next to `initialized_bus`. -/
theorem initialize_loaded_driver :
    LlamaCoprocessorDriver.initialize loaded_driver loaded_bus =
      (Except.ok true, initialized_bus) := by
  have h0 := standard_ctor
  have h1 := standard_poke32 _ h0 REG_CMD 0
  rw [initialize_eq loaded_driver loaded_bus (by decide) standard_loaded_bus]
  unfold loaded_bus initialized_bus
  rw [poke32_poke32_comm _ h0 REG_STATUS REG_CMD _ _ (by decide) (by decide) (by decide),
    poke32_poke32_same _ h1 REG_STATUS _ _ (by decide)]

/-- C23, as stated, fails on an attached driver whose loaded flag is set while
STATUS has the MODEL_READY bit clear (the state `load(&bus)`, `load_model()`,
`initialize()` leave): `load_model()` returns true at once and STATUS still
reads `STATUS_IDLE`, so the MODEL_READY bit is not set after the call. -/
theorem C23_load_model_bit_stays_clear :
    (loaded_driver.load_model initialized_bus).1 = Except.ok true ∧
    (loaded_driver.load_model initialized_bus).2.1.read_status
      (loaded_driver.load_model initialized_bus).2.2 = Except.ok STATUS_IDLE ∧
    STATUS_IDLE &&& STATUS_MODEL_READY = 0 := by
  rw [load_model_eq_of_loaded loaded_driver initialized_bus rfl]
  refine ⟨rfl, ?_, by decide⟩
  unfold LlamaCoprocessorDriver.read_status
  rw [read_reg32_eq loaded_driver initialized_bus (by decide) standard_initd_bus
    REG_STATUS (by decide), peek32_initialized_bus.1]

/-- C23, amended: on an attached driver `load_model()` and `unload_model()`
return true and are idempotent (a second call returns true and changes
nothing); `load_model()` leaves the loaded flag set and `unload_model()` leaves
it clear, the rest of the driver object unchanged. With a model already loaded
`load_model()` changes nothing, and with none loaded `unload_model()` changes
nothing. Otherwise `load_model()` sets the MODEL_READY bit of STATUS and
`unload_model()` clears it, every other STATUS bit staying as it was. Neither
changes any other register. -/
theorem C23_load_unload_model (drv : LlamaCoprocessorDriver) (pcb : VirtualPCB)
    (hatt : drv.pcb ≠ PcbPtr.null) (hstd : pcb.Standard) :
    (drv.load_model pcb).1 = Except.ok true ∧
    (drv.load_model pcb).2.1.load_model (drv.load_model pcb).2.2 =
      (Except.ok true, (drv.load_model pcb).2) ∧
    (drv.unload_model pcb).1 = Except.ok true ∧
    (drv.unload_model pcb).2.1.unload_model (drv.unload_model pcb).2.2 =
      (Except.ok true, (drv.unload_model pcb).2) ∧
    (drv.load_model pcb).2.1 = { drv with model_loaded_ := true } ∧
    (drv.unload_model pcb).2.1 = { drv with model_loaded_ := false } ∧
    (drv.model_loaded_ = true → (drv.load_model pcb).2.2 = pcb) ∧
    (drv.model_loaded_ = false → (drv.unload_model pcb).2.2 = pcb) ∧
    (∃ status, drv.read_status pcb = Except.ok status ∧
      (drv.model_loaded_ = false →
        drv.read_status (drv.load_model pcb).2.2 = Except.ok (status ||| STATUS_MODEL_READY) ∧
        ∀ i, (status ||| STATUS_MODEL_READY).testBit i =
          (if i = 4 then true else status.testBit i)) ∧
      (drv.model_loaded_ = true →
        drv.read_status (drv.unload_model pcb).2.2 =
          Except.ok (status &&& (4294967295 - STATUS_MODEL_READY)) ∧
        ∀ i, (status &&& (4294967295 - STATUS_MODEL_READY)).testBit i =
          (if i = 4 then false else status.testBit i))) ∧
    (∀ reg, IsReg reg → reg ≠ REG_STATUS →
      drv.read_reg32 (drv.load_model pcb).2.2 reg = drv.read_reg32 pcb reg ∧
      drv.read_reg32 (drv.unload_model pcb).2.2 reg = drv.read_reg32 pcb reg) := by
  have hlt := peek32_lt pcb hstd REG_STATUS (by decide)
  have h1 := standard_poke32 pcb hstd REG_STATUS (pcb.peek32 REG_STATUS ||| STATUS_MODEL_READY)
  have h2 := standard_poke32 pcb hstd REG_STATUS
    (pcb.peek32 REG_STATUS &&& (4294967295 - STATUS_MODEL_READY))
  cases hl : drv.model_loaded_ with
  | false =>
      have hd : ({ drv with model_loaded_ := false } : LlamaCoprocessorDriver) = drv := by
        cases drv
        simp only at hl
        subst hl
        rfl
      rw [load_model_eq_of_not_loaded drv pcb hatt hstd hl,
        unload_model_eq_of_not_loaded drv pcb hl]
      refine ⟨rfl, load_model_eq_of_loaded _ _ rfl, rfl,
        unload_model_eq_of_not_loaded _ _ hl, rfl, hd.symm, fun h => by simp at h, fun _ => rfl,
        ⟨pcb.peek32 REG_STATUS, read_reg32_eq drv pcb hatt hstd REG_STATUS (by decide),
          fun _ => ⟨?_, testBit_set_model_ready _⟩, fun h => by simp at h⟩, ?_⟩
      · unfold LlamaCoprocessorDriver.read_status
        rw [read_reg32_eq drv _ hatt h1 REG_STATUS (by decide),
          peek32_poke32_same _ hstd _ _ (by decide), or_uint32 _ _ hlt (by decide)]
      · intro reg hreg hne
        refine ⟨?_, rfl⟩
        rw [read_reg32_eq drv _ hatt h1 reg hreg, read_reg32_eq drv pcb hatt hstd reg hreg,
          peek32_poke32_ne _ hstd _ _ _ (by decide) hreg hne]
  | true =>
      have hd : ({ drv with model_loaded_ := true } : LlamaCoprocessorDriver) = drv := by
        cases drv
        simp only at hl
        subst hl
        rfl
      rw [load_model_eq_of_loaded drv pcb hl,
        unload_model_eq_of_loaded drv pcb hatt hstd hl]
      refine ⟨rfl, load_model_eq_of_loaded _ _ hl, rfl,
        unload_model_eq_of_not_loaded _ _ rfl, hd.symm, rfl, fun _ => rfl, fun h => by simp at h,
        ⟨pcb.peek32 REG_STATUS, read_reg32_eq drv pcb hatt hstd REG_STATUS (by decide),
          fun h => by simp at h, fun _ => ⟨?_, fun i => testBit_clear_model_ready _ i hlt⟩⟩, ?_⟩
      · unfold LlamaCoprocessorDriver.read_status
        rw [read_reg32_eq drv _ hatt h2 REG_STATUS (by decide),
          peek32_poke32_same _ hstd _ _ (by decide), and_uint32 _ _ hlt]
      · intro reg hreg hne
        refine ⟨rfl, ?_⟩
        rw [read_reg32_eq drv _ hatt h2 reg hreg, read_reg32_eq drv pcb hatt hstd reg hreg,
          peek32_poke32_ne _ hstd _ _ _ (by decide) hreg hne]

theorem C23_load_unload_model_witness :
    attached_driver.pcb ≠ PcbPtr.null ∧ VirtualPCB.ctor.Standard ∧
      (attached_driver.load_model VirtualPCB.ctor).1 = Except.ok true ∧
      (attached_driver.load_model VirtualPCB.ctor).2.1 =
        { attached_driver with model_loaded_ := true } :=
  ⟨by decide, standard_ctor,
    (C23_load_unload_model attached_driver VirtualPCB.ctor (by decide) standard_ctor).1,
    (C23_load_unload_model attached_driver VirtualPCB.ctor (by decide)
      standard_ctor).2.2.2.2.1⟩

/-! ## The outcomes of the driver methods -/

/-- The outcomes of `load_model`. -/
theorem load_model_driver (drv : LlamaCoprocessorDriver) (pcb : VirtualPCB) :
    (drv.model_loaded_ = true ∧ drv.load_model pcb = (Except.ok true, drv, pcb)) ∨
    (drv.model_loaded_ = false ∧ (∃ e, (drv.load_model pcb).1 = Except.error e) ∧
      (drv.load_model pcb).2.1 = drv) ∨
    (drv.model_loaded_ = false ∧ drv.pcb ≠ PcbPtr.null ∧
      (drv.load_model pcb).1 = Except.ok true ∧
      (drv.load_model pcb).2.1 = { drv with model_loaded_ := true }) := by
  cases hl : drv.model_loaded_ with
  | true => exact Or.inl ⟨rfl, by simp [LlamaCoprocessorDriver.load_model, hl]⟩
  | false =>
      right
      by_cases hatt : drv.pcb = PcbPtr.null
      · left
        simp [LlamaCoprocessorDriver.load_model, LlamaCoprocessorDriver.read_reg32, hatt, hl]
      · unfold LlamaCoprocessorDriver.load_model
        rw [hl]
        simp only [Bool.false_eq_true, if_false]
        cases drv.read_reg32 pcb REG_STATUS with
        | error e => exact Or.inl ⟨trivial, ⟨e, rfl⟩, rfl⟩
        | ok status =>
            simp only []
            rcases drv.write_reg32 pcb REG_STATUS (status ||| STATUS_MODEL_READY) with ⟨r, p1⟩
            cases r with
            | error e => exact Or.inl ⟨trivial, ⟨e, rfl⟩, rfl⟩
            | ok u => exact Or.inr ⟨trivial, hatt, rfl, rfl⟩

/-- The outcomes of `unload_model`. -/
theorem unload_model_driver (drv : LlamaCoprocessorDriver) (pcb : VirtualPCB) :
    (drv.model_loaded_ = false ∧ drv.unload_model pcb = (Except.ok true, drv, pcb)) ∨
    (drv.model_loaded_ = true ∧ (∃ e, (drv.unload_model pcb).1 = Except.error e) ∧
      (drv.unload_model pcb).2.1 = drv) ∨
    (drv.model_loaded_ = true ∧ (drv.unload_model pcb).1 = Except.ok true ∧
      (drv.unload_model pcb).2.1 = { drv with model_loaded_ := false }) := by
  cases hl : drv.model_loaded_ with
  | false => exact Or.inl ⟨rfl, by simp [LlamaCoprocessorDriver.unload_model, hl]⟩
  | true =>
      right
      unfold LlamaCoprocessorDriver.unload_model
      rw [hl]
      simp only [Bool.not_true, Bool.false_eq_true, if_false]
      cases drv.read_reg32 pcb REG_STATUS with
      | error e => exact Or.inl ⟨trivial, ⟨e, rfl⟩, rfl⟩
      | ok status =>
          simp only []
          rcases drv.write_reg32 pcb REG_STATUS
            (status &&& (4294967295 - STATUS_MODEL_READY)) with ⟨r, p1⟩
          cases r with
          | error e => exact Or.inl ⟨trivial, ⟨e, rfl⟩, rfl⟩
          | ok u => exact Or.inr ⟨trivial, rfl, rfl⟩

/-- The outcomes of `remove`. -/
theorem remove_driver (drv : LlamaCoprocessorDriver) (pcb : VirtualPCB) :
    ((drv.remove pcb).1 = Except.ok true ∧
      (drv.remove pcb).2.1 = { drv with pcb := PcbPtr.null, model_loaded_ := false }) ∨
    (drv.model_loaded_ = true ∧ (∃ e, (drv.remove pcb).1 = Except.error e) ∧
      (drv.remove pcb).2.1 = drv) := by
  rcases unload_model_driver drv pcb with ⟨hl, _⟩ | ⟨hl, ⟨e, he⟩, hd⟩ | ⟨hl, hok, hd⟩
  · left
    cases drv
    simp only at hl
    subst hl
    simp [LlamaCoprocessorDriver.remove]
  · right
    unfold LlamaCoprocessorDriver.remove
    rw [hl, if_pos rfl]
    rcases hu : drv.unload_model pcb with ⟨r, d1, p1⟩
    rw [hu] at he hd
    simp only at he hd
    subst he hd
    exact ⟨rfl, ⟨e, rfl⟩, rfl⟩
  · left
    unfold LlamaCoprocessorDriver.remove
    rw [hl, if_pos rfl]
    rcases hu : drv.unload_model pcb with ⟨r, d1, p1⟩
    rw [hu] at hok hd
    simp only at hok hd
    subst hok hd
    exact ⟨rfl, rfl⟩

/-- The outcomes of `reset_device`. -/
theorem reset_device_driver (drv : LlamaCoprocessorDriver) (pcb : VirtualPCB) :
    ((∃ e, (drv.reset_device pcb).1 = Except.error e) ∧ (drv.reset_device pcb).2.1 = drv) ∨
    ((drv.reset_device pcb).1 = Except.ok true ∧
      (drv.reset_device pcb).2.1 = { drv with inference_active_ := false }) := by
  unfold LlamaCoprocessorDriver.reset_device LlamaCoprocessorDriver.reset_device_internal
  rcases drv.write_reg32 pcb REG_CMD CMD_RESET with ⟨r, p1⟩
  cases r with
  | error e => exact Or.inl ⟨⟨e, rfl⟩, rfl⟩
  | ok u =>
      simp only []
      rcases drv.write_reg32 p1 REG_STATUS
        (if drv.model_loaded_ = true then STATUS_IDLE ||| STATUS_MODEL_READY else STATUS_IDLE)
        with ⟨r2, p2⟩
      cases r2 with
      | error e => exact Or.inl ⟨⟨e, rfl⟩, rfl⟩
      | ok u => exact Or.inr ⟨rfl, rfl⟩

/-- The outcomes of `run_self_test`. -/
theorem run_self_test_driver (drv : LlamaCoprocessorDriver) (pcb : VirtualPCB) :
    ((∃ e, (drv.run_self_test pcb).1 = Except.error e) ∧ (drv.run_self_test pcb).2.1 = drv) ∨
    ((drv.run_self_test pcb).1 = Except.ok false ∧ (drv.run_self_test pcb).2.1 = drv) ∨
    ((drv.run_self_test pcb).1 = Except.ok true ∧
      (drv.run_self_test pcb).2.1 = { drv with inference_active_ := false }) := by
  unfold LlamaCoprocessorDriver.run_self_test
  rcases drv.write_reg32 pcb REG_CMD 0xDEADBEEF with ⟨r1, p1⟩
  cases r1 with
  | error e => exact Or.inl ⟨⟨e, rfl⟩, rfl⟩
  | ok u =>
  simp only []
  cases drv.read_reg32 p1 REG_CMD with
  | error e => exact Or.inl ⟨⟨e, rfl⟩, rfl⟩
  | ok cmd =>
  simp only []
  split
  · exact Or.inr (Or.inl ⟨rfl, rfl⟩)
  · rcases drv.write_reg32 p1 REG_CMD 0 with ⟨r2, p2⟩
    cases r2 with
    | error e => exact Or.inl ⟨⟨e, rfl⟩, rfl⟩
    | ok u =>
    simp only []
    rcases drv.write_reg32 p2 REG_STATUS (STATUS_IDLE ||| STATUS_MODEL_READY) with ⟨r3, p3⟩
    cases r3 with
    | error e => exact Or.inl ⟨⟨e, rfl⟩, rfl⟩
    | ok u =>
    simp only []
    cases drv.read_reg32 p3 REG_STATUS with
    | error e => exact Or.inl ⟨⟨e, rfl⟩, rfl⟩
    | ok status =>
    simp only []
    split
    · exact Or.inr (Or.inl ⟨rfl, rfl⟩)
    · have hr := reset_device_driver drv p3
      unfold LlamaCoprocessorDriver.reset_device at hr
      rcases hu : drv.reset_device_internal p3 with ⟨r4, d4, p4⟩
      rw [hu] at hr
      simp only at hr
      rcases hr with ⟨⟨e, he⟩, hd⟩ | ⟨hok, hd⟩
      · subst he hd
        exact Or.inl ⟨⟨e, rfl⟩, rfl⟩
      · subst hok hd
        exact Or.inr (Or.inr ⟨rfl, rfl⟩)

/-- The outcomes of `start_inference`. -/
theorem start_inference_driver (drv : LlamaCoprocessorDriver) (pcb : VirtualPCB) (now : Nat) :
    ((∃ e, (drv.start_inference pcb now).1 = Except.error e) ∧
      (drv.start_inference pcb now).2.1 = drv) ∨
    (drv.model_loaded_ = false ∧ (drv.start_inference pcb now).1 = Except.ok false ∧
      (drv.start_inference pcb now).2.1 = drv) ∨
    (drv.model_loaded_ = true ∧ (drv.start_inference pcb now).1 = Except.ok true ∧
      (drv.start_inference pcb now).2.1 =
        { drv with
          inference_active_ := true,
          telemetry_ := { drv.telemetry_ with last_inference_start := now } }) := by
  unfold LlamaCoprocessorDriver.start_inference
  cases hl : drv.model_loaded_ with
  | false =>
      simp only [Bool.not_false, if_true]
      cases drv.read_reg32 pcb REG_STATUS with
      | error e => exact Or.inl ⟨⟨e, rfl⟩, rfl⟩
      | ok status =>
          simp only []
          rcases drv.write_reg32 pcb REG_STATUS (status ||| STATUS_ERROR) with ⟨r1, p1⟩
          cases r1 with
          | error e => exact Or.inl ⟨⟨e, rfl⟩, rfl⟩
          | ok u =>
              simp only []
              rcases drv.write_reg32 p1 REG_ERROR_CODE 1 with ⟨r2, p2⟩
              cases r2 with
              | error e => exact Or.inl ⟨⟨e, rfl⟩, rfl⟩
              | ok u => exact Or.inr (Or.inl ⟨trivial, rfl, rfl⟩)
  | true =>
      simp only [Bool.not_true, Bool.false_eq_true, if_false]
      cases drv.read_reg32 pcb REG_STATUS with
      | error e => exact Or.inl ⟨⟨e, rfl⟩, rfl⟩
      | ok status =>
          simp only []
          rcases drv.write_reg32 pcb REG_STATUS
            (((status ||| STATUS_BUSY) &&& (4294967295 - STATUS_IDLE)) &&&
              (4294967295 - STATUS_EOG)) with ⟨r1, p1⟩
          cases r1 with
          | error e => exact Or.inl ⟨⟨e, rfl⟩, rfl⟩
          | ok u => exact Or.inr (Or.inr ⟨trivial, rfl, rfl⟩)

/-- The outcomes of `infer`: with no model loaded nothing changes; otherwise a
fault leaves the driver object as it was or as it is after the telemetry
update, and a normal return leaves it with the telemetry updated and the
inference-active flag clear. -/
theorem infer_driver (drv : LlamaCoprocessorDriver) (pcb : VirtualPCB) (prompt : String)
    (seq_cfg : LlamaSequenceConfig) (now_start now_end : Nat) :
    (drv.model_loaded_ = false ∧
      drv.infer pcb prompt seq_cfg now_start now_end =
        (Except.ok "[ERROR] Model not loaded. Call load_model() first.", drv, pcb)) ∨
    (drv.model_loaded_ = true ∧
      (∃ e, (drv.infer pcb prompt seq_cfg now_start now_end).1 = Except.error e) ∧
      (drv.infer pcb prompt seq_cfg now_start now_end).2.1 = drv) ∨
    (drv.model_loaded_ = true ∧
      ((∃ e, (drv.infer pcb prompt seq_cfg now_start now_end).1 = Except.error e) ∧
          (drv.infer pcb prompt seq_cfg now_start now_end).2.1.inference_active_ = true ∨
        (drv.infer pcb prompt seq_cfg now_start now_end).1 =
            Except.ok (infer_text drv.model_config_ prompt seq_cfg) ∧
          (drv.infer pcb prompt seq_cfg now_start now_end).2.1.inference_active_ = false) ∧
      (drv.infer pcb prompt seq_cfg now_start now_end).2.1.pcb = drv.pcb ∧
      (drv.infer pcb prompt seq_cfg now_start now_end).2.1.model_config_ = drv.model_config_ ∧
      (drv.infer pcb prompt seq_cfg now_start now_end).2.1.model_loaded_ = true ∧
      (drv.infer pcb prompt seq_cfg now_start now_end).2.1.telemetry_ =
        { tokens_per_second :=
            infer_tokens_per_second drv.telemetry_.tokens_per_second seq_cfg.n_predict
              now_start now_end,
          total_tokens_generated :=
            (drv.telemetry_.total_tokens_generated + to_uint64 seq_cfg.n_predict) %
              18446744073709551616,
          total_prompts := (drv.telemetry_.total_prompts + 1) % 18446744073709551616,
          last_prompt_tokens := prompt.utf8ByteSize,
          last_completion_tokens := to_uint64 seq_cfg.n_predict,
          last_inference_start := now_start,
          last_inference_end := now_end }) := by
  cases hl : drv.model_loaded_ with
  | false => exact Or.inl ⟨rfl, by simp [LlamaCoprocessorDriver.infer, hl]⟩
  | true =>
      right
      generalize hres : drv.infer pcb prompt seq_cfg now_start now_end = res
      unfold LlamaCoprocessorDriver.infer at hres
      rw [hl] at hres
      simp only [Bool.not_true, Bool.false_eq_true, if_false] at hres
      split at hres
      · subst hres
        exact Or.inl ⟨by trivial, ⟨_, rfl⟩, rfl⟩
      · rename_i pcb1 _
        rcases start_inference_driver drv pcb1 now_start with
          ⟨⟨e, he⟩, hd⟩ | ⟨hnl, _, _⟩ | ⟨_, hok, hd⟩
        · rcases hs : drv.start_inference pcb1 now_start with ⟨rs, drv2, pcb2⟩
          rw [hs] at he hd hres
          simp only at he hd hres
          subst he hd hres
          exact Or.inl ⟨by trivial, ⟨_, rfl⟩, rfl⟩
        · rw [hl] at hnl
          cases hnl
        · rcases hs : drv.start_inference pcb1 now_start with ⟨rs, drv2, pcb2⟩
          rw [hs] at hok hd hres
          simp only at hok hd hres
          subst hok hd
          simp only at hres
          right
          split at hres
          · subst hres
            simp [hl]
          split at hres
          · subst hres
            simp [hl]
          split at hres
          · subst hres
            simp [hl]
          split at hres
          · subst hres
            simp [hl]
          · subst hres
            simp [hl]

/-- The invocations `infer_streaming` makes of its callback. -/
theorem streaming_calls_fake_tokens :
    streaming_calls fake_tokens.length 0 fake_tokens =
      [("This", 0, false), (" is", 1, false), (" a", 2, false), (" stubbed", 3, false),
        (" streaming", 4, false), (" response", 5, false), (".", 6, true)] := by
  decide

/-- What `infer_streaming` does on an attached driver with a model loaded. -/
theorem infer_streaming_eq_of_loaded (drv : LlamaCoprocessorDriver) (pcb : VirtualPCB)
    (hatt : drv.pcb ≠ PcbPtr.null) (hstd : pcb.Standard) (hl : drv.model_loaded_ = true)
    (prompt : String) (seq_cfg : LlamaSequenceConfig) (now_start now_end : Nat) :
    drv.infer_streaming pcb prompt seq_cfg now_start now_end =
      (Except.ok true, streaming_calls fake_tokens.length 0 fake_tokens,
        { drv with
          inference_active_ := false,
          telemetry_ :=
            { drv.telemetry_ with
              last_inference_start := now_start,
              last_inference_end := now_end,
              total_prompts := (drv.telemetry_.total_prompts + 1) % 18446744073709551616,
              total_tokens_generated :=
                (drv.telemetry_.total_tokens_generated + fake_tokens.length) %
                  18446744073709551616 } },
        ((((pcb.poke32 REG_PROMPT_ADDR (0x20000000 % 4294967296)).poke32 REG_PROMPT_LEN
          (prompt.utf8ByteSize % 4294967296)).poke32 REG_N_PREDICT
          (to_uint32 seq_cfg.n_predict)).poke32 REG_STATUS
          (((pcb.peek32 REG_STATUS ||| STATUS_BUSY) &&& (4294967295 - STATUS_IDLE)) &&&
            (4294967295 - STATUS_EOG))).poke32 REG_STATUS
          ((((((pcb.peek32 REG_STATUS ||| STATUS_BUSY) &&& (4294967295 - STATUS_IDLE)) &&&
            (4294967295 - STATUS_EOG))) &&& (4294967295 - STATUS_BUSY)) |||
              (STATUS_IDLE ||| STATUS_EOG))) := by
  have c1 := standard_poke32 pcb hstd REG_PROMPT_ADDR (0x20000000 % 4294967296)
  have c2 := standard_poke32 _ c1 REG_PROMPT_LEN (prompt.utf8ByteSize % 4294967296)
  have c3 := standard_poke32 _ c2 REG_N_PREDICT (to_uint32 seq_cfg.n_predict)
  have hlt := peek32_lt pcb hstd REG_STATUS (by decide)
  have hs3 : (((pcb.poke32 REG_PROMPT_ADDR (0x20000000 % 4294967296)).poke32 REG_PROMPT_LEN
      (prompt.utf8ByteSize % 4294967296)).poke32 REG_N_PREDICT
      (to_uint32 seq_cfg.n_predict)).peek32 REG_STATUS = pcb.peek32 REG_STATUS := by
    rw [peek32_poke32_ne _ c2 _ _ _ (by decide) (by decide) (by decide),
      peek32_poke32_ne _ c1 _ _ _ (by decide) (by decide) (by decide),
      peek32_poke32_ne _ hstd _ _ _ (by decide) (by decide) (by decide)]
  unfold LlamaCoprocessorDriver.infer_streaming
  rw [configure_inference_eq_of_loaded drv pcb hatt hstd hl]
  simp only [hl, Bool.not_true, Bool.false_eq_true, if_false]
  rw [start_inference_eq_of_loaded drv _ hatt c3 hl, hs3]
  simp (disch := first | assumption | exact hatt |
      ((repeat' apply standard_poke32); assumption) | decide)
    only [write_reg32_eq, read_reg32_eq, peek32_poke32_ne,
      peek32_poke32_same, Nat.mod_eq_of_lt (start_status_lt _ hlt)]
  rw [hl]

/-- The outcomes of `infer_streaming`. -/
theorem infer_streaming_driver (drv : LlamaCoprocessorDriver) (pcb : VirtualPCB)
    (prompt : String) (seq_cfg : LlamaSequenceConfig) (now_start now_end : Nat) :
    (drv.model_loaded_ = false ∧
      drv.infer_streaming pcb prompt seq_cfg now_start now_end =
        (Except.ok false, [], drv, pcb)) ∨
    (drv.model_loaded_ = true ∧
      (∃ e, (drv.infer_streaming pcb prompt seq_cfg now_start now_end).1 = Except.error e) ∧
      (drv.infer_streaming pcb prompt seq_cfg now_start now_end).2.1 = [] ∧
      (drv.infer_streaming pcb prompt seq_cfg now_start now_end).2.2.1 = drv) ∨
    (drv.model_loaded_ = true ∧
      ((∃ e, (drv.infer_streaming pcb prompt seq_cfg now_start now_end).1 = Except.error e) ∧
          (drv.infer_streaming pcb prompt seq_cfg now_start now_end).2.2.1.inference_active_ =
            true ∨
        (drv.infer_streaming pcb prompt seq_cfg now_start now_end).1 = Except.ok true ∧
          (drv.infer_streaming pcb prompt seq_cfg now_start now_end).2.2.1.inference_active_ =
            false) ∧
      (drv.infer_streaming pcb prompt seq_cfg now_start now_end).2.1 =
        streaming_calls fake_tokens.length 0 fake_tokens ∧
      (drv.infer_streaming pcb prompt seq_cfg now_start now_end).2.2.1.pcb = drv.pcb ∧
      (drv.infer_streaming pcb prompt seq_cfg now_start now_end).2.2.1.model_config_ =
        drv.model_config_ ∧
      (drv.infer_streaming pcb prompt seq_cfg now_start now_end).2.2.1.model_loaded_ = true ∧
      (drv.infer_streaming pcb prompt seq_cfg now_start now_end).2.2.1.telemetry_ =
        { drv.telemetry_ with
          last_inference_start := now_start,
          last_inference_end := now_end,
          total_prompts := (drv.telemetry_.total_prompts + 1) % 18446744073709551616,
          total_tokens_generated :=
            (drv.telemetry_.total_tokens_generated + fake_tokens.length) %
              18446744073709551616 }) := by
  cases hl : drv.model_loaded_ with
  | false => exact Or.inl ⟨rfl, by simp [LlamaCoprocessorDriver.infer_streaming, hl]⟩
  | true =>
      right
      generalize hres : drv.infer_streaming pcb prompt seq_cfg now_start now_end = res
      unfold LlamaCoprocessorDriver.infer_streaming at hres
      rw [hl] at hres
      simp only [Bool.not_true, Bool.false_eq_true, if_false] at hres
      split at hres
      · subst hres
        exact Or.inl ⟨by trivial, ⟨_, rfl⟩, rfl, rfl⟩
      · rename_i pcb1 _
        rcases start_inference_driver drv pcb1 now_start with
          ⟨⟨e, he⟩, hd⟩ | ⟨hnl, _, _⟩ | ⟨_, hok, hd⟩
        · rcases hs : drv.start_inference pcb1 now_start with ⟨rs, drv2, pcb2⟩
          rw [hs] at he hd hres
          simp only at he hd hres
          subst he hd hres
          exact Or.inl ⟨by trivial, ⟨_, rfl⟩, rfl, rfl⟩
        · rw [hl] at hnl
          cases hnl
        · rcases hs : drv.start_inference pcb1 now_start with ⟨rs, drv2, pcb2⟩
          rw [hs] at hok hd hres
          simp only at hok hd hres
          subst hok hd
          simp only at hres
          right
          split at hres
          · subst hres
            simp [hl]
          split at hres
          · subst hres
            simp [hl]
          · subst hres
            simp [hl]

/-! ## What a call keeps: the standard bus, the model flag and its status bit -/

/-- A driver with no back-reference never changes the bus: every register
access throws before its first store. -/
theorem apply_bus_of_detached (drv : LlamaCoprocessorDriver) (pcb : VirtualPCB)
    (op : DriverOp) (h : drv.pcb = PcbPtr.null) : (DriverOp.apply drv pcb op).2 = pcb := by
  cases hl : drv.model_loaded_ <;> cases op <;>
    simp [DriverOp.apply, LlamaCoprocessorDriver.initialize, LlamaCoprocessorDriver.remove,
      LlamaCoprocessorDriver.unload_model, LlamaCoprocessorDriver.load_model,
      LlamaCoprocessorDriver.configure_inference, LlamaCoprocessorDriver.start_inference,
      LlamaCoprocessorDriver.read_token, LlamaCoprocessorDriver.token_available,
      LlamaCoprocessorDriver.reset_device, LlamaCoprocessorDriver.reset_device_internal,
      LlamaCoprocessorDriver.run_self_test, LlamaCoprocessorDriver.infer,
      LlamaCoprocessorDriver.infer_streaming, LlamaCoprocessorDriver.write_reg32,
      LlamaCoprocessorDriver.read_reg32, bus_then, h, hl]

theorem standard_apply (drv : LlamaCoprocessorDriver) (pcb : VirtualPCB) (op : DriverOp)
    (hstd : pcb.Standard) : (DriverOp.apply drv pcb op).2.Standard := by
  by_cases hatt : drv.pcb = PcbPtr.null
  · rw [apply_bus_of_detached drv pcb op hatt]
    exact hstd
  · have hlt := peek32_lt pcb hstd REG_STATUS (by decide)
    match op with
    | DriverOp.load p => exact hstd
    | DriverOp.init => exact standard_init drv pcb hstd
    | DriverOp.probe => exact hstd
    | DriverOp.remove => exact remove_standard drv pcb hstd (fun _ => hatt)
    | DriverOp.set_model_config cfg => exact hstd
    | DriverOp.load_model =>
        simp only [DriverOp.apply]
        cases hl : drv.model_loaded_ with
        | true => rw [load_model_eq_of_loaded drv pcb hl]; exact hstd
        | false =>
            rw [load_model_eq_of_not_loaded drv pcb hatt hstd hl]
            exact standard_poke32 pcb hstd _ _
    | DriverOp.unload_model =>
        simp only [DriverOp.apply]
        cases hl : drv.model_loaded_ with
        | false => rw [unload_model_eq_of_not_loaded drv pcb hl]; exact hstd
        | true =>
            rw [unload_model_eq_of_loaded drv pcb hatt hstd hl]
            exact standard_poke32 pcb hstd _ _
    | DriverOp.configure_inference a l c =>
        simp only [DriverOp.apply]
        cases hl : drv.model_loaded_ with
        | false =>
            simp only [LlamaCoprocessorDriver.configure_inference, hl, Bool.not_false, if_true]
            exact hstd
        | true =>
            rw [configure_inference_eq_of_loaded drv pcb hatt hstd hl]
            repeat' apply standard_poke32
            exact hstd
    | DriverOp.start_inference now =>
        simp only [DriverOp.apply]
        cases hl : drv.model_loaded_ with
        | false =>
            rw [start_inference_eq_of_not_loaded drv pcb hatt hstd hl]
            repeat' apply standard_poke32
            exact hstd
        | true =>
            rw [start_inference_eq_of_loaded drv pcb hatt hstd hl]
            exact standard_poke32 pcb hstd _ _
    | DriverOp.read_token =>
        simp only [DriverOp.apply]
        by_cases hr : pcb.peek32 REG_STATUS &&& STATUS_TOKEN_READY = 0
        · rw [read_token_eq_of_not_ready drv pcb hatt hstd hr]
          exact hstd
        · rw [read_token_eq_of_ready drv pcb hatt hstd hr]
          exact standard_poke32 pcb hstd _ _
    | DriverOp.reset_device =>
        simp only [DriverOp.apply]
        rw [reset_device_eq drv pcb hatt hstd]
        repeat' apply standard_poke32
        exact hstd
    | DriverOp.run_self_test =>
        simp only [DriverOp.apply]
        rw [run_self_test_eq drv pcb hatt hstd]
        repeat' apply standard_poke32
        exact hstd
    | DriverOp.infer p c a b =>
        simp only [DriverOp.apply]
        cases hl : drv.model_loaded_ with
        | false =>
            simp only [LlamaCoprocessorDriver.infer, hl, Bool.not_false, if_true]
            exact hstd
        | true =>
            rw [infer_eq_of_loaded drv pcb hatt hstd hl]
            repeat' apply standard_poke32
            exact hstd
    | DriverOp.infer_streaming p c a b =>
        simp only [DriverOp.apply]
        cases hl : drv.model_loaded_ with
        | false =>
            simp only [LlamaCoprocessorDriver.infer_streaming, hl, Bool.not_false, if_true]
            exact hstd
        | true =>
            rw [infer_streaming_eq_of_loaded drv pcb hatt hstd hl]
            repeat' apply standard_poke32
            exact hstd

theorem standard_run (ops : List DriverOp) :
    ∀ (drv : LlamaCoprocessorDriver) (pcb : VirtualPCB), pcb.Standard →
      (DriverOp.run drv pcb ops).2.Standard := by
  induction ops with
  | nil => intro drv pcb h; exact h
  | cons op rest ih =>
      intro drv pcb h
      exact ih _ _ (standard_apply drv pcb op h)

/-- C25: for every attached driver with a model loaded, every prompt, every
sequence config and every pair of clock readings, `infer_streaming` returns
true and invokes the token callback exactly N = 7 times, N being the number of
stub tokens; the k-th invocation (k = 0..6) carries the k-th token and
`token_index` k, and `is_last` is true exactly on the invocation with
k = N - 1. -/
theorem C25_infer_streaming_callbacks (drv : LlamaCoprocessorDriver) (pcb : VirtualPCB)
    (hatt : drv.pcb ≠ PcbPtr.null) (hstd : pcb.Standard) (hl : drv.model_loaded_ = true)
    (prompt : String) (seq_cfg : LlamaSequenceConfig) (now_start now_end : Nat) :
    (drv.infer_streaming pcb prompt seq_cfg now_start now_end).1 = Except.ok true ∧
    (drv.infer_streaming pcb prompt seq_cfg now_start now_end).2.1 =
      [("This", 0, false), (" is", 1, false), (" a", 2, false), (" stubbed", 3, false),
        (" streaming", 4, false), (" response", 5, false), (".", 6, true)] ∧
    (drv.infer_streaming pcb prompt seq_cfg now_start now_end).2.1.length =
      fake_tokens.length ∧
    fake_tokens.length = 7 ∧
    ∀ k, k < fake_tokens.length →
      (drv.infer_streaming pcb prompt seq_cfg now_start now_end).2.1[k]? =
        some (fake_tokens.getD k "", (k : Int), decide (k = fake_tokens.length - 1)) := by
  rw [infer_streaming_eq_of_loaded drv pcb hatt hstd hl, streaming_calls_fake_tokens]
  refine ⟨rfl, rfl, rfl, rfl, ?_⟩
  intro k hk
  have h7 : k < 7 := hk
  interval_cases k <;> rfl

theorem C25_infer_streaming_callbacks_witness :
    loaded_driver.pcb ≠ PcbPtr.null ∧ loaded_bus.Standard ∧
      loaded_driver.model_loaded_ = true ∧
      (loaded_driver.infer_streaming loaded_bus "hello" LlamaSequenceConfig.ctor 0 0).1 =
        Except.ok true ∧
      (loaded_driver.infer_streaming loaded_bus "hello" LlamaSequenceConfig.ctor 0 0).2.1 =
        [("This", 0, false), (" is", 1, false), (" a", 2, false), (" stubbed", 3, false),
          (" streaming", 4, false), (" response", 5, false), (".", 6, true)] :=
  ⟨by decide, standard_loaded_bus, rfl,
    (C25_infer_streaming_callbacks loaded_driver loaded_bus (by decide) standard_loaded_bus
      rfl "hello" LlamaSequenceConfig.ctor 0 0).1,
    (C25_infer_streaming_callbacks loaded_driver loaded_bus (by decide) standard_loaded_bus
      rfl "hello" LlamaSequenceConfig.ctor 0 0).2.1⟩

/-- A driver with no back-reference and no model gains no model: `load_model`
throws before it sets the flag. -/
theorem apply_loaded_of_detached (drv : LlamaCoprocessorDriver) (pcb : VirtualPCB)
    (op : DriverOp) (h : drv.pcb = PcbPtr.null) (hnl : drv.model_loaded_ = false) :
    (DriverOp.apply drv pcb op).1.model_loaded_ = false := by
  cases op <;>
    simp [DriverOp.apply, LlamaCoprocessorDriver.load, LlamaCoprocessorDriver.remove,
      LlamaCoprocessorDriver.set_model_config,
      LlamaCoprocessorDriver.unload_model, LlamaCoprocessorDriver.load_model,
      LlamaCoprocessorDriver.start_inference,
      LlamaCoprocessorDriver.reset_device, LlamaCoprocessorDriver.reset_device_internal,
      LlamaCoprocessorDriver.run_self_test, LlamaCoprocessorDriver.infer,
      LlamaCoprocessorDriver.infer_streaming, LlamaCoprocessorDriver.write_reg32,
      LlamaCoprocessorDriver.read_reg32, h, hnl]
  split <;> first | exact hnl | rfl

/-- The bits of the STATUS value `infer` and `infer_streaming` leave, in terms
of the STATUS value before the call: IDLE and EOG set, BUSY clear, every other
bit as before. -/
theorem testBit_request_status (status : Nat) (hlt : status < 4294967296) (i : Nat) :
    ((((((status ||| STATUS_BUSY) &&& (4294967295 - STATUS_IDLE)) &&&
      (4294967295 - STATUS_EOG)) &&& (4294967295 - STATUS_BUSY)) |||
        (STATUS_IDLE ||| STATUS_EOG)).testBit i) =
      (if i = 0 ∨ i = 2 then true else if i = 1 then false else status.testBit i) := by
  have e1 : STATUS_BUSY = 2 ^ 1 := rfl
  have e5 : STATUS_IDLE ||| STATUS_EOG = 2 ^ 0 ||| 2 ^ 2 := rfl
  rw [Nat.testBit_or, Nat.testBit_and, testBit_start_status status hlt,
    testBit_complement _ (by decide), e1, e5, Nat.testBit_or, Nat.testBit_two_pow,
    Nat.testBit_two_pow, Nat.testBit_two_pow]
  by_cases h0 : i = 0
  · subst h0
    simp
  · by_cases h2 : i = 2
    · subst h2
      simp
    · by_cases h1 : i = 1
      · subst h1
        simp
      · have g1 : ¬ 1 = i := fun h => h1 h.symm
        have g0 : ¬ 0 = i := fun h => h0 h.symm
        have g2 : ¬ 2 = i := fun h => h2 h.symm
        by_cases h32 : i < 32
        · simp [h32, h1, h0, h2, g1, g0, g2]
        · simp [h32, h1, h0, h2, g1, g0, g2, testBit_uint32 status hlt i (by omega)]

theorem testBit_set_error (status : Nat) (i : Nat) :
    (status ||| STATUS_ERROR).testBit i = (if i = 3 then true else status.testBit i) := by
  have e : STATUS_ERROR = 2 ^ 3 := rfl
  rw [Nat.testBit_or, e, Nat.testBit_two_pow]
  by_cases h3 : i = 3
  · subst h3
    simp
  · have g : ¬ 3 = i := fun h => h3 h.symm
    simp [h3, g]

/-- Every call other than an `initialize()` with a model loaded keeps the
MODEL_READY bit of STATUS equal to the loaded flag. -/
theorem model_ready_apply (drv : LlamaCoprocessorDriver) (pcb : VirtualPCB) (op : DriverOp)
    (hstd : pcb.Standard) (hc : drv.Consistent)
    (hinv : (pcb.peek32 REG_STATUS).testBit 4 = drv.model_loaded_)
    (hop : op = DriverOp.init → drv.model_loaded_ = false) :
    ((DriverOp.apply drv pcb op).2.peek32 REG_STATUS).testBit 4 =
      (DriverOp.apply drv pcb op).1.model_loaded_ := by
  by_cases hatt : drv.pcb = PcbPtr.null
  · have hnl : drv.model_loaded_ = false := by
      cases hl : drv.model_loaded_ with
      | false => rfl
      | true => exact absurd hatt (hc hl)
    rw [apply_bus_of_detached drv pcb op hatt, apply_loaded_of_detached drv pcb op hatt hnl,
      hinv, hnl]
  · have hlt := peek32_lt pcb hstd REG_STATUS (by decide)
    match op, hop with
    | DriverOp.load p, _ =>
        simp only [DriverOp.apply, LlamaCoprocessorDriver.load]
        split <;> exact hinv
    | DriverOp.init, hop =>
        have hnl := hop rfl
        simp only [DriverOp.apply]
        rw [initialize_eq drv pcb hatt hstd, (peek32_after_init pcb hstd).1, hnl]
        decide
    | DriverOp.probe, _ => exact hinv
    | DriverOp.remove, _ =>
        simp only [DriverOp.apply]
        rw [remove_eq drv pcb hstd hc]
        simp only []
        cases hl : drv.model_loaded_ with
        | false =>
            rw [hl] at hinv
            simpa using hinv
        | true =>
            simp only [if_true]
            rw [peek32_poke32_same _ hstd _ _ (by decide), and_uint32 _ _ hlt,
              testBit_clear_model_ready _ _ hlt]
            rfl
    | DriverOp.set_model_config cfg, _ => exact hinv
    | DriverOp.load_model, _ =>
        simp only [DriverOp.apply]
        cases hl : drv.model_loaded_ with
        | true =>
            rw [load_model_eq_of_loaded drv pcb hl]
            simp only []
            rw [hinv, hl]
        | false =>
            rw [load_model_eq_of_not_loaded drv pcb hatt hstd hl]
            simp only []
            rw [peek32_poke32_same _ hstd _ _ (by decide), or_uint32 _ _ hlt (by decide),
              testBit_set_model_ready]
            rfl
    | DriverOp.unload_model, _ =>
        simp only [DriverOp.apply]
        cases hl : drv.model_loaded_ with
        | false =>
            rw [unload_model_eq_of_not_loaded drv pcb hl]
            simp only []
            rw [hinv, hl]
        | true =>
            rw [unload_model_eq_of_loaded drv pcb hatt hstd hl]
            simp only []
            rw [peek32_poke32_same _ hstd _ _ (by decide), and_uint32 _ _ hlt,
              testBit_clear_model_ready _ _ hlt]
            rfl
    | DriverOp.configure_inference a l c, _ =>
        simp only [DriverOp.apply]
        cases hl : drv.model_loaded_ with
        | false =>
            simp only [LlamaCoprocessorDriver.configure_inference, hl, Bool.not_false, if_true]
            rw [hinv, hl]
        | true =>
            rw [configure_inference_eq_of_loaded drv pcb hatt hstd hl]
            simp (disch := first | assumption |
                ((repeat' apply standard_poke32); assumption) | decide)
              only [peek32_poke32_ne]
            rw [hinv, hl]
    | DriverOp.start_inference now, _ =>
        simp only [DriverOp.apply]
        cases hl : drv.model_loaded_ with
        | false =>
            rw [start_inference_eq_of_not_loaded drv pcb hatt hstd hl]
            simp (disch := first | assumption |
                ((repeat' apply standard_poke32); assumption) | decide)
              only [peek32_poke32_ne, peek32_poke32_same]
            rw [or_uint32 _ _ hlt (by decide), testBit_set_error, hl, ← hl, ← hinv]
            rfl
        | true =>
            rw [start_inference_eq_of_loaded drv pcb hatt hstd hl]
            simp only []
            rw [peek32_poke32_same _ hstd _ _ (by decide),
              Nat.mod_eq_of_lt (start_status_lt _ hlt), testBit_start_status _ hlt, hl, ← hl,
              ← hinv]
            rfl
    | DriverOp.read_token, _ =>
        simp only [DriverOp.apply]
        by_cases hr : pcb.peek32 REG_STATUS &&& STATUS_TOKEN_READY = 0
        · rw [read_token_eq_of_not_ready drv pcb hatt hstd hr]
          exact hinv
        · rw [read_token_eq_of_ready drv pcb hatt hstd hr]
          simp only []
          rw [peek32_poke32_same _ hstd _ _ (by decide), and_uint32 _ _ hlt,
            testBit_clear_token_ready _ _ hlt, ← hinv]
          rfl
    | DriverOp.reset_device, _ =>
        simp only [DriverOp.apply]
        rw [reset_device_eq drv pcb hatt hstd]
        simp only []
        rw [peek32_poke32_same _ (standard_poke32 pcb hstd _ _) _ _ (by decide)]
        cases drv.model_loaded_ <;> decide
    | DriverOp.run_self_test, _ =>
        simp only [DriverOp.apply]
        rw [run_self_test_eq drv pcb hatt hstd]
        simp only []
        rw [peek32_poke32_same _ (standard_poke32 pcb hstd _ _) _ _ (by decide)]
        cases drv.model_loaded_ <;> decide
    | DriverOp.infer p c a b, _ =>
        simp only [DriverOp.apply]
        cases hl : drv.model_loaded_ with
        | false =>
            simp only [LlamaCoprocessorDriver.infer, hl, Bool.not_false, if_true]
            rw [hinv, hl]
        | true =>
            rw [infer_eq_of_loaded drv pcb hatt hstd hl]
            simp (disch := first | assumption |
                ((repeat' apply standard_poke32); assumption) | decide)
              only [peek32_poke32_same]
            rw [Nat.mod_eq_of_lt (final_status_lt _ (start_status_lt _ hlt)),
              testBit_request_status _ hlt, hl, ← hl, ← hinv]
            rfl
    | DriverOp.infer_streaming p c a b, _ =>
        simp only [DriverOp.apply]
        cases hl : drv.model_loaded_ with
        | false =>
            simp only [LlamaCoprocessorDriver.infer_streaming, hl, Bool.not_false, if_true]
            rw [hinv, hl]
        | true =>
            rw [infer_streaming_eq_of_loaded drv pcb hatt hstd hl]
            simp (disch := first | assumption |
                ((repeat' apply standard_poke32); assumption) | decide)
              only [peek32_poke32_same]
            rw [Nat.mod_eq_of_lt (final_status_lt _ (start_status_lt _ hlt)),
              testBit_request_status _ hlt, hl, ← hl, ← hinv]
            rfl

/-- Every call keeps the driver object consistent: the loaded flag is set only
by a `load_model()` that reached the bus, and `remove()` clears the flag before
the back-reference. -/
theorem consistent_apply (drv : LlamaCoprocessorDriver) (pcb : VirtualPCB) (op : DriverOp)
    (hc : drv.Consistent) : (DriverOp.apply drv pcb op).1.Consistent := by
  match op with
  | DriverOp.load p =>
      simp only [DriverOp.apply, LlamaCoprocessorDriver.load]
      split
      · exact hc
      · rename_i hp
        exact fun _ => hp
  | DriverOp.init => exact hc
  | DriverOp.probe => exact hc
  | DriverOp.remove =>
      simp only [DriverOp.apply]
      rcases remove_driver drv pcb with ⟨_, hd⟩ | ⟨_, _, hd⟩
      · rw [hd]
        intro h
        cases h
      · rw [hd]
        exact hc
  | DriverOp.set_model_config cfg => exact hc
  | DriverOp.load_model =>
      simp only [DriverOp.apply]
      rcases load_model_driver drv pcb with ⟨_, hd⟩ | ⟨_, _, hd⟩ | ⟨_, hatt, _, hd⟩
      · rw [hd]
        exact hc
      · rw [hd]
        exact hc
      · rw [hd]
        exact fun _ => hatt
  | DriverOp.unload_model =>
      simp only [DriverOp.apply]
      rcases unload_model_driver drv pcb with ⟨_, hd⟩ | ⟨_, _, hd⟩ | ⟨_, _, hd⟩
      · rw [hd]
        exact hc
      · rw [hd]
        exact hc
      · rw [hd]
        intro h
        cases h
  | DriverOp.configure_inference a l c => exact hc
  | DriverOp.start_inference now =>
      simp only [DriverOp.apply]
      rcases start_inference_driver drv pcb now with ⟨_, hd⟩ | ⟨_, _, hd⟩ | ⟨_, _, hd⟩
      · rw [hd]
        exact hc
      · rw [hd]
        exact hc
      · rw [hd]
        exact hc
  | DriverOp.read_token => exact hc
  | DriverOp.reset_device =>
      simp only [DriverOp.apply]
      rcases reset_device_driver drv pcb with ⟨_, hd⟩ | ⟨_, hd⟩
      · rw [hd]
        exact hc
      · rw [hd]
        exact hc
  | DriverOp.run_self_test =>
      simp only [DriverOp.apply]
      rcases run_self_test_driver drv pcb with ⟨_, hd⟩ | ⟨_, hd⟩ | ⟨_, hd⟩
      · rw [hd]
        exact hc
      · rw [hd]
        exact hc
      · rw [hd]
        exact hc
  | DriverOp.infer p c a b =>
      simp only [DriverOp.apply]
      rcases infer_driver drv pcb p c a b with ⟨_, hd⟩ | ⟨_, _, hd⟩ | ⟨hl, _, hp, _⟩
      · rw [hd]
        exact hc
      · rw [hd]
        exact hc
      · intro _
        rw [hp]
        exact hc hl
  | DriverOp.infer_streaming p c a b =>
      simp only [DriverOp.apply]
      rcases infer_streaming_driver drv pcb p c a b with
        ⟨_, hd⟩ | ⟨_, _, _, hd⟩ | ⟨hl, _, _, hp, _⟩
      · rw [hd]
        exact hc
      · rw [hd]
        exact hc
      · intro _
        rw [hp]
        exact hc hl

/-- The MODEL_READY bit of STATUS equals the loaded flag in every state reached
from one where it does by calls other than `initialize()`. -/
theorem model_ready_run (ops : List DriverOp) :
    ∀ (drv : LlamaCoprocessorDriver) (pcb : VirtualPCB), pcb.Standard → drv.Consistent →
      (pcb.peek32 REG_STATUS).testBit 4 = drv.model_loaded_ →
      (∀ op ∈ ops, op ≠ DriverOp.init) →
      ((DriverOp.run drv pcb ops).2.peek32 REG_STATUS).testBit 4 =
        (DriverOp.run drv pcb ops).1.model_loaded_ := by
  induction ops with
  | nil => intro drv pcb _ _ h _; exact h
  | cons op rest ih =>
      intro drv pcb hstd hc hinv hops
      exact ih _ _ (standard_apply drv pcb op hstd) (consistent_apply drv pcb op hc)
        (model_ready_apply drv pcb op hstd hc hinv
          (fun h => absurd h (hops op (List.mem_cons_self op rest))))
        (fun o ho => hops o (List.mem_cons_of_mem op ho))

/-- On an attached driver with no model loaded, `load_model()` followed by
`initialize()` leaves the loaded flag set and STATUS equal to `STATUS_IDLE`. -/
theorem load_model_then_init (drv : LlamaCoprocessorDriver) (pcb : VirtualPCB)
    (hatt : drv.pcb ≠ PcbPtr.null) (hstd : pcb.Standard) (hnl : drv.model_loaded_ = false) :
    (DriverOp.run drv pcb [DriverOp.load_model, DriverOp.init]).1.is_model_loaded
      = true ∧
    (DriverOp.run drv pcb [DriverOp.load_model, DriverOp.init]).1.read_status
      (DriverOp.run drv pcb [DriverOp.load_model, DriverOp.init]).2 =
        Except.ok STATUS_IDLE ∧
    STATUS_IDLE &&& STATUS_MODEL_READY = 0 := by
  have h1 := standard_poke32 pcb hstd REG_STATUS (pcb.peek32 REG_STATUS ||| STATUS_MODEL_READY)
  have hatt1 : ({ drv with model_loaded_ := true } : LlamaCoprocessorDriver).pcb ≠
      PcbPtr.null := hatt
  simp only [DriverOp.run, DriverOp.apply,
    load_model_eq_of_not_loaded drv pcb hatt hstd hnl]
  refine ⟨rfl, ?_, by decide⟩
  unfold LlamaCoprocessorDriver.read_status
  rw [read_reg32_eq _ _ hatt1 (standard_init _ _ h1) REG_STATUS (by decide),
    initialize_eq _ _ hatt1 h1, (peek32_after_init _ h1).1]

/-- C24: the claim fails on the code. From the freshly constructed, attached
and initialized driver, `load_model()` followed by `initialize()` reaches a
state in which `is_model_loaded()` is true while STATUS reads `STATUS_IDLE`,
whose MODEL_READY bit is clear: `initialize()` stores `STATUS_IDLE` whatever the
loaded flag is, where `reset_device_internal()` keeps MODEL_READY for a loaded
model. -/
theorem C24_initialize_clears_model_ready :
    (DriverOp.run attached_driver initialized_bus
      [DriverOp.load_model, DriverOp.init]).1.is_model_loaded = true ∧
    (DriverOp.run attached_driver initialized_bus
      [DriverOp.load_model, DriverOp.init]).1.read_status
        (DriverOp.run attached_driver initialized_bus
          [DriverOp.load_model, DriverOp.init]).2 = Except.ok STATUS_IDLE ∧
    STATUS_IDLE &&& STATUS_MODEL_READY = 0 :=
  load_model_then_init attached_driver initialized_bus (by decide)
    standard_initd_bus rfl

/-! ## The registers of `infer` and `infer_streaming` -/

theorem load_model_initialized_bus :
    attached_driver.load_model initialized_bus = (Except.ok true, loaded_driver, ready_bus) :=
  load_model_eq_of_not_loaded attached_driver initialized_bus (by decide)
    standard_initd_bus rfl

theorem standard_ready_bus : ready_bus.Standard :=
  standard_poke32 initialized_bus standard_initd_bus REG_STATUS
    (initialized_bus.peek32 REG_STATUS ||| STATUS_MODEL_READY)

theorem read_reg32_ready_bus_ctx_used :
    loaded_driver.read_reg32 ready_bus REG_CTX_USED = Except.ok 0 := by
  rw [read_reg32_eq loaded_driver ready_bus (by decide) standard_ready_bus _ (by decide)]
  unfold ready_bus
  rw [peek32_poke32_ne _ standard_initd_bus _ _ _ (by decide) (by decide) (by decide),
    peek32_initialized_bus.2 REG_CTX_USED (by simp)]

theorem standard_infer (drv : LlamaCoprocessorDriver) (pcb : VirtualPCB) (hstd : pcb.Standard)
    (prompt : String) (seq_cfg : LlamaSequenceConfig) (now_start now_end : Nat) :
    (drv.infer pcb prompt seq_cfg now_start now_end).2.2.Standard :=
  standard_apply drv pcb (DriverOp.infer prompt seq_cfg now_start now_end) hstd

theorem standard_infer_streaming (drv : LlamaCoprocessorDriver) (pcb : VirtualPCB)
    (hstd : pcb.Standard) (prompt : String) (seq_cfg : LlamaSequenceConfig)
    (now_start now_end : Nat) :
    (drv.infer_streaming pcb prompt seq_cfg now_start now_end).2.2.2.Standard :=
  standard_apply drv pcb (DriverOp.infer_streaming prompt seq_cfg now_start now_end) hstd

/-- The registers `infer` and `infer_streaming` leave, side by side, on an
attached driver with a model loaded: STATUS, PROMPT_ADDR, PROMPT_LEN and
N_PREDICT agree; CTX_USED and PERF_TOKENS_SEC are stored by `infer` alone and
keep their previous values across `infer_streaming`. -/
theorem infer_streaming_registers (drv : LlamaCoprocessorDriver) (pcb : VirtualPCB)
    (hatt : drv.pcb ≠ PcbPtr.null) (hstd : pcb.Standard) (hl : drv.model_loaded_ = true)
    (prompt : String) (seq_cfg : LlamaSequenceConfig) (now_start now_end : Nat) :
    (∀ reg ∈ [REG_STATUS, REG_PROMPT_ADDR, REG_PROMPT_LEN, REG_N_PREDICT],
      drv.read_reg32 (drv.infer_streaming pcb prompt seq_cfg now_start now_end).2.2.2 reg =
        drv.read_reg32 (drv.infer pcb prompt seq_cfg now_start now_end).2.2 reg) ∧
    drv.read_reg32 (drv.infer pcb prompt seq_cfg now_start now_end).2.2 REG_CTX_USED =
      Except.ok (((prompt.utf8ByteSize + to_uint64 seq_cfg.n_predict) %
        18446744073709551616) % 4294967296) ∧
    drv.read_reg32 (drv.infer_streaming pcb prompt seq_cfg now_start now_end).2.2.2
      REG_CTX_USED = drv.read_reg32 pcb REG_CTX_USED ∧
    drv.read_reg32 (drv.infer_streaming pcb prompt seq_cfg now_start now_end).2.2.2
      REG_PERF_TOKENS_SEC = drv.read_reg32 pcb REG_PERF_TOKENS_SEC := by
  have hi := standard_infer drv pcb hstd prompt seq_cfg now_start now_end
  have hs := standard_infer_streaming drv pcb hstd prompt seq_cfg now_start now_end
  have key : ∀ reg, IsReg reg →
      (drv.read_reg32 (drv.infer_streaming pcb prompt seq_cfg now_start now_end).2.2.2 reg =
        Except.ok ((drv.infer_streaming pcb prompt seq_cfg now_start now_end).2.2.2.peek32 reg)) ∧
      (drv.read_reg32 (drv.infer pcb prompt seq_cfg now_start now_end).2.2 reg =
        Except.ok ((drv.infer pcb prompt seq_cfg now_start now_end).2.2.peek32 reg)) ∧
      drv.read_reg32 pcb reg = Except.ok (pcb.peek32 reg) :=
    fun reg hreg => ⟨read_reg32_eq drv _ hatt hs reg hreg, read_reg32_eq drv _ hatt hi reg hreg,
      read_reg32_eq drv pcb hatt hstd reg hreg⟩
  refine ⟨?_, ?_, ?_, ?_⟩
  · intro reg hreg
    simp only [List.mem_cons, List.mem_singleton, List.not_mem_nil, or_false] at hreg
    rcases hreg with rfl | rfl | rfl | rfl
    all_goals
      rw [(key _ (by decide)).1, (key _ (by decide)).2.1,
        infer_eq_of_loaded drv pcb hatt hstd hl,
        infer_streaming_eq_of_loaded drv pcb hatt hstd hl]
      simp (disch := first | assumption |
          ((repeat' apply standard_poke32); assumption) | decide)
        only [peek32_poke32_same, peek32_poke32_ne]
  · rw [(key _ (by decide)).2.1, infer_eq_of_loaded drv pcb hatt hstd hl]
    simp (disch := first | assumption |
        ((repeat' apply standard_poke32); assumption) | decide)
      only [peek32_poke32_same, peek32_poke32_ne, Nat.mod_mod]
  · rw [(key _ (by decide)).1, (key _ (by decide)).2.2,
      infer_streaming_eq_of_loaded drv pcb hatt hstd hl]
    simp (disch := first | assumption |
        ((repeat' apply standard_poke32); assumption) | decide)
      only [peek32_poke32_ne]
  · rw [(key _ (by decide)).1, (key _ (by decide)).2.2,
      infer_streaming_eq_of_loaded drv pcb hatt hstd hl]
    simp (disch := first | assumption |
        ((repeat' apply standard_poke32); assumption) | decide)
      only [peek32_poke32_ne]

/-- C26: the claim fails on the code. On the freshly constructed, attached,
initialized driver with a model loaded, `infer("hello", n_predict = 128)` leaves
CTX_USED = 5 + 128 = 133, while `infer_streaming` with the same arguments from
the same state leaves CTX_USED = 0, the value it had before:
`infer_streaming` has no store to CTX_USED (nor to PERF_TOKENS_SEC). -/
theorem C26_infer_streaming_skips_ctx_used :
    loaded_driver.read_reg32
      (loaded_driver.infer ready_bus "hello" LlamaSequenceConfig.ctor 0 0).2.2
      REG_CTX_USED = Except.ok 133 ∧
    loaded_driver.read_reg32
      (loaded_driver.infer_streaming ready_bus "hello" LlamaSequenceConfig.ctor 0 0).2.2.2
      REG_CTX_USED = Except.ok 0 :=
  ⟨(infer_streaming_registers loaded_driver ready_bus (by decide) standard_ready_bus rfl
      "hello" LlamaSequenceConfig.ctor 0 0).2.1.trans (congrArg Except.ok (by decide)),
    (infer_streaming_registers loaded_driver ready_bus (by decide) standard_ready_bus rfl
      "hello" LlamaSequenceConfig.ctor 0 0).2.2.1.trans read_reg32_ready_bus_ctx_used⟩

/-! ## Telemetry -/

/-- C28, as stated, fails for `start_inference`: on the attached driver with a
model loaded it returns true and sets the telemetry timestamp
`last_inference_start` to the clock reading, here from 0 to 5. -/
theorem C28_start_inference_changes_telemetry :
    (loaded_driver.start_inference loaded_bus 5).1 = Except.ok true ∧
    (loaded_driver.start_inference loaded_bus 5).2.1.telemetry_.last_inference_start = 5 ∧
    loaded_driver.telemetry_.last_inference_start = 0 := by
  rw [start_inference_eq_of_loaded loaded_driver loaded_bus (by decide) standard_loaded_bus rfl]
  exact ⟨rfl, rfl, rfl⟩

/-- C28, amended: every driver operation other than `infer` and
`infer_streaming` leaves the telemetry record exactly as it was, with one
exception: a `start_inference()` that returns true (a model is loaded) sets
`last_inference_start` to the current clock reading and leaves the counters and
`last_inference_end` as they were. -/
theorem C28_telemetry_frame (drv : LlamaCoprocessorDriver) (pcb : VirtualPCB) (op : DriverOp)
    (h1 : ∀ p c a b, op ≠ DriverOp.infer p c a b)
    (h2 : ∀ p c a b, op ≠ DriverOp.infer_streaming p c a b) :
    (DriverOp.apply drv pcb op).1.telemetry_ = drv.telemetry_ ∨
    ∃ now, op = DriverOp.start_inference now ∧ drv.model_loaded_ = true ∧
      (drv.start_inference pcb now).1 = Except.ok true ∧
      (DriverOp.apply drv pcb op).1.telemetry_ =
        { drv.telemetry_ with last_inference_start := now } := by
  match op, h1, h2 with
  | DriverOp.load p, _, _ =>
      left
      simp only [DriverOp.apply, LlamaCoprocessorDriver.load]
      split <;> rfl
  | DriverOp.init, _, _ => exact Or.inl rfl
  | DriverOp.probe, _, _ => exact Or.inl rfl
  | DriverOp.remove, _, _ =>
      left
      simp only [DriverOp.apply]
      rcases remove_driver drv pcb with ⟨_, hd⟩ | ⟨_, _, hd⟩ <;> rw [hd]
  | DriverOp.set_model_config cfg, _, _ => exact Or.inl rfl
  | DriverOp.load_model, _, _ =>
      left
      simp only [DriverOp.apply]
      rcases load_model_driver drv pcb with ⟨_, hd⟩ | ⟨_, _, hd⟩ | ⟨_, _, _, hd⟩ <;> rw [hd]
  | DriverOp.unload_model, _, _ =>
      left
      simp only [DriverOp.apply]
      rcases unload_model_driver drv pcb with ⟨_, hd⟩ | ⟨_, _, hd⟩ | ⟨_, _, hd⟩ <;> rw [hd]
  | DriverOp.configure_inference a l c, _, _ => exact Or.inl rfl
  | DriverOp.start_inference now, _, _ =>
      simp only [DriverOp.apply]
      rcases start_inference_driver drv pcb now with ⟨_, hd⟩ | ⟨_, _, hd⟩ | ⟨hl, hok, hd⟩
      · left
        rw [hd]
      · left
        rw [hd]
      · right
        exact ⟨now, rfl, hl, hok, by rw [hd]⟩
  | DriverOp.read_token, _, _ => exact Or.inl rfl
  | DriverOp.reset_device, _, _ =>
      left
      simp only [DriverOp.apply]
      rcases reset_device_driver drv pcb with ⟨_, hd⟩ | ⟨_, hd⟩ <;> rw [hd]
  | DriverOp.run_self_test, _, _ =>
      left
      simp only [DriverOp.apply]
      rcases run_self_test_driver drv pcb with ⟨_, hd⟩ | ⟨_, hd⟩ | ⟨_, hd⟩ <;> rw [hd]
  | DriverOp.infer p c a b, h1, _ => exact absurd rfl (h1 p c a b)
  | DriverOp.infer_streaming p c a b, _, h2 => exact absurd rfl (h2 p c a b)

theorem C28_telemetry_frame_witness :
    (∀ p c a b, DriverOp.start_inference 5 ≠ DriverOp.infer p c a b) ∧
    (∀ p c a b, DriverOp.start_inference 5 ≠ DriverOp.infer_streaming p c a b) ∧
    ((DriverOp.apply loaded_driver loaded_bus (DriverOp.start_inference 5)).1.telemetry_ =
        loaded_driver.telemetry_ ∨
      ∃ now, DriverOp.start_inference 5 = DriverOp.start_inference now ∧
        loaded_driver.model_loaded_ = true ∧
        (loaded_driver.start_inference loaded_bus now).1 = Except.ok true ∧
        (DriverOp.apply loaded_driver loaded_bus (DriverOp.start_inference 5)).1.telemetry_ =
          { loaded_driver.telemetry_ with last_inference_start := now }) :=
  ⟨fun _ _ _ _ h => DriverOp.noConfusion h, fun _ _ _ _ h => DriverOp.noConfusion h,
    C28_telemetry_frame loaded_driver loaded_bus (DriverOp.start_inference 5)
      (fun _ _ _ _ h => DriverOp.noConfusion h) (fun _ _ _ _ h => DriverOp.noConfusion h)⟩

/-- After `infer` on an attached driver with a model loaded the driver is
still attached and loaded, and `last_prompt_tokens` is the prompt length. -/
theorem infer_last_prompt_tokens (drv : LlamaCoprocessorDriver) (pcb : VirtualPCB)
    (hatt : drv.pcb ≠ PcbPtr.null) (hstd : pcb.Standard) (hl : drv.model_loaded_ = true)
    (p : String) (c : LlamaSequenceConfig) (a b : Nat) :
    (drv.infer pcb p c a b).2.1.telemetry_.last_prompt_tokens = p.utf8ByteSize ∧
    (drv.infer pcb p c a b).2.1.pcb ≠ PcbPtr.null ∧
    (drv.infer pcb p c a b).2.1.model_loaded_ = true := by
  rw [infer_eq_of_loaded drv pcb hatt hstd hl p c a b]
  exact ⟨rfl, hatt, hl⟩

/-- The prompt length `infer` records on an attached driver with a model
loaded, after one request and after a second one. -/
theorem infer_twice_last_prompt_tokens (drv : LlamaCoprocessorDriver) (pcb : VirtualPCB)
    (hatt : drv.pcb ≠ PcbPtr.null) (hstd : pcb.Standard) (hl : drv.model_loaded_ = true)
    (p1 p2 : String) (c : LlamaSequenceConfig) (a b : Nat) :
    (DriverOp.run drv pcb [DriverOp.infer p1 c a b]).1.telemetry_.last_prompt_tokens =
      p1.utf8ByteSize ∧
    (DriverOp.run drv pcb
      [DriverOp.infer p1 c a b, DriverOp.infer p2 c a b]).1.telemetry_.last_prompt_tokens =
        p2.utf8ByteSize := by
  obtain ⟨k1, k2, k3⟩ := infer_last_prompt_tokens drv pcb hatt hstd hl p1 c a b
  have hs1 := standard_infer drv pcb hstd p1 c a b
  simp only [DriverOp.run, DriverOp.apply]
  exact ⟨k1, (infer_last_prompt_tokens _ _ k2 hs1 k3 p2 c a b).1⟩

/-- C27, as stated, fails for `last_prompt_tokens`: on the attached driver
with a model loaded, `infer("hello", ...)` leaves it at 5 and a following
`infer("", ...)` lowers it to 0. -/
theorem C27_last_prompt_tokens_decreases :
    (DriverOp.run loaded_driver loaded_bus
      [DriverOp.infer "hello" LlamaSequenceConfig.ctor 0 0,
        DriverOp.infer "" LlamaSequenceConfig.ctor 0 0]).1.telemetry_.last_prompt_tokens <
    (DriverOp.run loaded_driver loaded_bus
      [DriverOp.infer "hello" LlamaSequenceConfig.ctor 0 0]).1.telemetry_.last_prompt_tokens :=
  lt_of_eq_of_lt
    (infer_twice_last_prompt_tokens loaded_driver loaded_bus (by decide) standard_loaded_bus
      rfl "hello" "" LlamaSequenceConfig.ctor 0 0).2
    (lt_of_lt_of_eq (by decide)
      (infer_twice_last_prompt_tokens loaded_driver loaded_bus (by decide) standard_loaded_bus
        rfl "hello" "" LlamaSequenceConfig.ctor 0 0).1.symm)

theorem to_uint64_of_nonneg (n : Int) (h : 0 ≤ n) (h64 : n < 18446744073709551616) :
    to_uint64 n = n.toNat := by
  unfold to_uint64
  rw [Int.emod_eq_of_lt h h64]

/-- C27, amended: across every driver operation `total_prompts` and
`total_tokens_generated` are greater than or equal to their values before the
operation, as long as the 64-bit counters do not wrap around and `infer` is
given `n_predict >= 0`; `last_prompt_tokens` and `last_completion_tokens` are
not monotone: an `infer` with a model loaded that gets past
`start_inference` overwrites them with the prompt length and `n_predict`, and
every other operation leaves them as they were. -/
theorem C27_telemetry_counters (drv : LlamaCoprocessorDriver) (pcb : VirtualPCB)
    (op : DriverOp)
    (hp : drv.telemetry_.total_prompts + 1 < 18446744073709551616)
    (ht : drv.telemetry_.total_tokens_generated + fake_tokens.length < 18446744073709551616)
    (hn : ∀ p c a b, op = DriverOp.infer p c a b →
      0 ≤ c.n_predict ∧
        drv.telemetry_.total_tokens_generated + c.n_predict.toNat < 18446744073709551616) :
    drv.telemetry_.total_prompts ≤ (DriverOp.apply drv pcb op).1.telemetry_.total_prompts ∧
    drv.telemetry_.total_tokens_generated ≤
      (DriverOp.apply drv pcb op).1.telemetry_.total_tokens_generated ∧
    (((DriverOp.apply drv pcb op).1.telemetry_.last_prompt_tokens =
          drv.telemetry_.last_prompt_tokens ∧
        (DriverOp.apply drv pcb op).1.telemetry_.last_completion_tokens =
          drv.telemetry_.last_completion_tokens) ∨
      ∃ p c a b, op = DriverOp.infer p c a b ∧ drv.model_loaded_ = true ∧
        (DriverOp.apply drv pcb op).1.telemetry_.last_prompt_tokens = p.utf8ByteSize ∧
        (DriverOp.apply drv pcb op).1.telemetry_.last_completion_tokens =
          to_uint64 c.n_predict) := by
  match op, hn with
  | DriverOp.infer p c a b, hn =>
      obtain ⟨h0, hlt⟩ := hn p c a b rfl
      have hu : to_uint64 c.n_predict = c.n_predict.toNat :=
        to_uint64_of_nonneg _ h0 (by omega)
      simp only [DriverOp.apply]
      rcases infer_driver drv pcb p c a b with ⟨_, hd⟩ | ⟨_, _, hd⟩ | ⟨hl, _, _, _, _, hd⟩
      · rw [hd]
        exact ⟨Nat.le_refl _, Nat.le_refl _, Or.inl ⟨rfl, rfl⟩⟩
      · rw [hd]
        exact ⟨Nat.le_refl _, Nat.le_refl _, Or.inl ⟨rfl, rfl⟩⟩
      · rw [hd]
        refine ⟨?_, ?_, Or.inr ⟨p, c, a, b, rfl, hl, rfl, rfl⟩⟩
        · simp only []
          omega
        · simp only [hu]
          omega
  | DriverOp.infer_streaming p c a b, _ =>
      simp only [DriverOp.apply]
      rcases infer_streaming_driver drv pcb p c a b with
        ⟨_, hd⟩ | ⟨_, _, _, hd⟩ | ⟨_, _, _, _, _, _, hd⟩
      · rw [hd]
        exact ⟨Nat.le_refl _, Nat.le_refl _, Or.inl ⟨rfl, rfl⟩⟩
      · rw [hd]
        exact ⟨Nat.le_refl _, Nat.le_refl _, Or.inl ⟨rfl, rfl⟩⟩
      · rw [hd]
        refine ⟨?_, ?_, Or.inl ⟨rfl, rfl⟩⟩
        · simp only []
          omega
        · simp only []
          omega
  | DriverOp.load p, _ =>
      simp only [DriverOp.apply, LlamaCoprocessorDriver.load]
      split <;> exact ⟨Nat.le_refl _, Nat.le_refl _, Or.inl ⟨rfl, rfl⟩⟩
  | DriverOp.init, _ => exact ⟨Nat.le_refl _, Nat.le_refl _, Or.inl ⟨rfl, rfl⟩⟩
  | DriverOp.probe, _ => exact ⟨Nat.le_refl _, Nat.le_refl _, Or.inl ⟨rfl, rfl⟩⟩
  | DriverOp.remove, _ =>
      simp only [DriverOp.apply]
      rcases remove_driver drv pcb with ⟨_, hd⟩ | ⟨_, _, hd⟩ <;> rw [hd] <;>
        exact ⟨Nat.le_refl _, Nat.le_refl _, Or.inl ⟨rfl, rfl⟩⟩
  | DriverOp.set_model_config cfg, _ =>
      exact ⟨Nat.le_refl _, Nat.le_refl _, Or.inl ⟨rfl, rfl⟩⟩
  | DriverOp.load_model, _ =>
      simp only [DriverOp.apply]
      rcases load_model_driver drv pcb with ⟨_, hd⟩ | ⟨_, _, hd⟩ | ⟨_, _, _, hd⟩ <;> rw [hd] <;>
        exact ⟨Nat.le_refl _, Nat.le_refl _, Or.inl ⟨rfl, rfl⟩⟩
  | DriverOp.unload_model, _ =>
      simp only [DriverOp.apply]
      rcases unload_model_driver drv pcb with ⟨_, hd⟩ | ⟨_, _, hd⟩ | ⟨_, _, hd⟩ <;> rw [hd] <;>
        exact ⟨Nat.le_refl _, Nat.le_refl _, Or.inl ⟨rfl, rfl⟩⟩
  | DriverOp.configure_inference a l c, _ =>
      exact ⟨Nat.le_refl _, Nat.le_refl _, Or.inl ⟨rfl, rfl⟩⟩
  | DriverOp.start_inference now, _ =>
      simp only [DriverOp.apply]
      rcases start_inference_driver drv pcb now with ⟨_, hd⟩ | ⟨_, _, hd⟩ | ⟨_, _, hd⟩ <;>
        rw [hd] <;> exact ⟨Nat.le_refl _, Nat.le_refl _, Or.inl ⟨rfl, rfl⟩⟩
  | DriverOp.read_token, _ => exact ⟨Nat.le_refl _, Nat.le_refl _, Or.inl ⟨rfl, rfl⟩⟩
  | DriverOp.reset_device, _ =>
      simp only [DriverOp.apply]
      rcases reset_device_driver drv pcb with ⟨_, hd⟩ | ⟨_, hd⟩ <;> rw [hd] <;>
        exact ⟨Nat.le_refl _, Nat.le_refl _, Or.inl ⟨rfl, rfl⟩⟩
  | DriverOp.run_self_test, _ =>
      simp only [DriverOp.apply]
      rcases run_self_test_driver drv pcb with ⟨_, hd⟩ | ⟨_, hd⟩ | ⟨_, hd⟩ <;> rw [hd] <;>
        exact ⟨Nat.le_refl _, Nat.le_refl _, Or.inl ⟨rfl, rfl⟩⟩

theorem C27_telemetry_counters_witness :
    loaded_driver.telemetry_.total_prompts + 1 < 18446744073709551616 ∧
    loaded_driver.telemetry_.total_tokens_generated + fake_tokens.length <
      18446744073709551616 ∧
    (0 ≤ LlamaSequenceConfig.ctor.n_predict ∧
      loaded_driver.telemetry_.total_tokens_generated +
        LlamaSequenceConfig.ctor.n_predict.toNat < 18446744073709551616) ∧
    loaded_driver.telemetry_.total_prompts ≤
      (DriverOp.apply loaded_driver loaded_bus
        (DriverOp.infer "hello" LlamaSequenceConfig.ctor 0 0)).1.telemetry_.total_prompts ∧
    loaded_driver.telemetry_.total_tokens_generated ≤
      (DriverOp.apply loaded_driver loaded_bus
        (DriverOp.infer "hello" LlamaSequenceConfig.ctor 0
          0)).1.telemetry_.total_tokens_generated :=
  ⟨by decide, by decide, by decide,
    (C27_telemetry_counters loaded_driver loaded_bus
      (DriverOp.infer "hello" LlamaSequenceConfig.ctor 0 0) (by decide) (by decide)
      (fun _ _ _ _ h => by cases h; decide)).1,
    (C27_telemetry_counters loaded_driver loaded_bus
      (DriverOp.infer "hello" LlamaSequenceConfig.ctor 0 0) (by decide) (by decide)
      (fun _ _ _ _ h => by cases h; decide)).2.1⟩

/-! ## Drivers without a bus, and removal -/

/-- The driver object is consistent in every state reached from a consistent
one, in particular from a freshly constructed driver. -/
theorem consistent_run (ops : List DriverOp) :
    ∀ (drv : LlamaCoprocessorDriver) (pcb : VirtualPCB), drv.Consistent →
      (DriverOp.run drv pcb ops).1.Consistent := by
  induction ops with
  | nil => intro drv pcb h; exact h
  | cons op rest ih =>
      intro drv pcb h
      exact ih _ _ (consistent_apply drv pcb op h)

/-- C29: on a driver whose bus back-reference is unset (and which therefore has
no model loaded) each of `read_status`, `token_available`, `read_token`,
`is_busy`, `has_error`, `get_error_code`, `load_model`, `start_inference`,
`reset_device` and `run_self_test` throws the "PCB not attached" fault and
leaves the driver object (the loaded flag among the rest) and the bus exactly
as they were. -/
theorem C29_not_attached_fault (drv : LlamaCoprocessorDriver) (pcb : VirtualPCB)
    (hnull : drv.pcb = PcbPtr.null) (hnl : drv.model_loaded_ = false) (now : Nat) :
    drv.read_status pcb = Except.error Fault.pcb_not_attached ∧
    drv.token_available pcb = Except.error Fault.pcb_not_attached ∧
    drv.read_token pcb = (Except.error Fault.pcb_not_attached, pcb) ∧
    drv.is_busy pcb = Except.error Fault.pcb_not_attached ∧
    drv.has_error pcb = Except.error Fault.pcb_not_attached ∧
    drv.get_error_code pcb = Except.error Fault.pcb_not_attached ∧
    drv.load_model pcb = (Except.error Fault.pcb_not_attached, drv, pcb) ∧
    drv.start_inference pcb now = (Except.error Fault.pcb_not_attached, drv, pcb) ∧
    drv.reset_device pcb = (Except.error Fault.pcb_not_attached, drv, pcb) ∧
    drv.run_self_test pcb = (Except.error Fault.pcb_not_attached, drv, pcb) := by
  have hr : ∀ a, drv.read_reg32 pcb a = Except.error Fault.pcb_not_attached := by
    intro a
    simp [LlamaCoprocessorDriver.read_reg32, hnull]
  have hw : ∀ a v, drv.write_reg32 pcb a v = (Except.error Fault.pcb_not_attached, pcb) := by
    intro a v
    simp [LlamaCoprocessorDriver.write_reg32, hnull]
  refine ⟨hr _, ?_, ?_, ?_, ?_, hr _, ?_, ?_, ?_, ?_⟩
  · simp only [LlamaCoprocessorDriver.token_available, hr]
  · simp only [LlamaCoprocessorDriver.read_token, LlamaCoprocessorDriver.token_available, hr]
  · simp only [LlamaCoprocessorDriver.is_busy, hr]
  · simp only [LlamaCoprocessorDriver.has_error, hr]
  · simp only [LlamaCoprocessorDriver.load_model, hnl, hr, Bool.false_eq_true, if_false]
  · simp only [LlamaCoprocessorDriver.start_inference, hnl, hr, Bool.not_false, if_true]
  · simp only [LlamaCoprocessorDriver.reset_device,
      LlamaCoprocessorDriver.reset_device_internal, hw]
  · simp only [LlamaCoprocessorDriver.run_self_test, hw]

theorem C29_not_attached_fault_witness :
    LlamaCoprocessorDriver.ctor.pcb = PcbPtr.null ∧
    LlamaCoprocessorDriver.ctor.model_loaded_ = false ∧
    LlamaCoprocessorDriver.ctor.read_status VirtualPCB.ctor =
      Except.error Fault.pcb_not_attached ∧
    LlamaCoprocessorDriver.ctor.load_model VirtualPCB.ctor =
      (Except.error Fault.pcb_not_attached, LlamaCoprocessorDriver.ctor, VirtualPCB.ctor) :=
  ⟨rfl, rfl, (C29_not_attached_fault LlamaCoprocessorDriver.ctor VirtualPCB.ctor rfl rfl 0).1,
    (C29_not_attached_fault LlamaCoprocessorDriver.ctor VirtualPCB.ctor rfl rfl
      0).2.2.2.2.2.2.1⟩

/-- C30: `remove()` on a consistent driver (every reachable driver state is)
returns true without faulting, whether or not the driver was ever attached,
initialized or loaded; afterwards the back-reference is unset and the loaded
flag is false, the rest of the driver object unchanged. With no model loaded
the bus is unchanged; with a model loaded STATUS is its previous value with the
MODEL_READY bit cleared and every other bit as before. A second `remove()`
returns true and changes nothing. -/
theorem C30_remove (drv : LlamaCoprocessorDriver) (pcb : VirtualPCB) (hstd : pcb.Standard)
    (hc : drv.Consistent) :
    (drv.remove pcb).1 = Except.ok true ∧
    (drv.remove pcb).2.1.pcb = PcbPtr.null ∧
    (drv.remove pcb).2.1.model_loaded_ = false ∧
    (drv.remove pcb).2.1 = { drv with pcb := PcbPtr.null, model_loaded_ := false } ∧
    (drv.model_loaded_ = false → (drv.remove pcb).2.2 = pcb) ∧
    (drv.model_loaded_ = true →
      ∀ reader : LlamaCoprocessorDriver, reader.pcb ≠ PcbPtr.null →
        ∃ status, reader.read_status pcb = Except.ok status ∧
          reader.read_status (drv.remove pcb).2.2 =
            Except.ok (status &&& (4294967295 - STATUS_MODEL_READY)) ∧
          (status &&& (4294967295 - STATUS_MODEL_READY)) &&& STATUS_MODEL_READY = 0 ∧
          ∀ i, (status &&& (4294967295 - STATUS_MODEL_READY)).testBit i =
            (if i = 4 then false else status.testBit i)) ∧
    (drv.remove pcb).2.1.remove (drv.remove pcb).2.2 = (Except.ok true, (drv.remove pcb).2) := by
  have hlt := peek32_lt pcb hstd REG_STATUS (by decide)
  have h1 := standard_poke32 pcb hstd REG_STATUS
    (pcb.peek32 REG_STATUS &&& (4294967295 - STATUS_MODEL_READY))
  rw [remove_eq drv pcb hstd hc]
  refine ⟨rfl, rfl, rfl, rfl, ?_, ?_, ?_⟩
  · intro hnl
    simp [hnl]
  · intro hl reader hatt
    refine ⟨pcb.peek32 REG_STATUS, read_reg32_eq reader pcb hatt hstd REG_STATUS (by decide),
      ?_, ?_, fun i => testBit_clear_model_ready _ i hlt⟩
    · simp only [hl, if_true]
      unfold LlamaCoprocessorDriver.read_status
      rw [read_reg32_eq reader _ hatt h1 REG_STATUS (by decide),
        peek32_poke32_same _ hstd _ _ (by decide), and_uint32 _ _ hlt]
    · have hb := and_two_pow_ne_zero
        (pcb.peek32 REG_STATUS &&& (4294967295 - STATUS_MODEL_READY)) 4
      rw [testBit_clear_model_ready _ 4 hlt, if_pos rfl] at hb
      simpa using hb
  · simp [LlamaCoprocessorDriver.remove]

theorem C30_remove_witness :
    VirtualPCB.ctor.Standard ∧ LlamaCoprocessorDriver.ctor.Consistent ∧
      (LlamaCoprocessorDriver.ctor.remove VirtualPCB.ctor).1 = Except.ok true ∧
      (LlamaCoprocessorDriver.ctor.remove VirtualPCB.ctor).2.1.pcb = PcbPtr.null :=
  ⟨standard_ctor, fun h => Bool.noConfusion h,
    (C30_remove LlamaCoprocessorDriver.ctor VirtualPCB.ctor standard_ctor
      (fun h => Bool.noConfusion h)).1,
    (C30_remove LlamaCoprocessorDriver.ctor VirtualPCB.ctor standard_ctor
      (fun h => Bool.noConfusion h)).2.1⟩

/-! ## Failing lifecycle calls and the bookkeeping of a request -/

/-- C31: `load(nullptr)` returns false and leaves the driver object, its
existing back-reference included, exactly as it was; `initialize()` on a
driver with no back-reference returns false without faulting and leaves the
bus, so every register, exactly as it was. -/
theorem C31_lifecycle_failures (drv : LlamaCoprocessorDriver) (pcb : VirtualPCB) :
    drv.load PcbPtr.null = (false, drv) ∧
    (drv.pcb = PcbPtr.null →
      LlamaCoprocessorDriver.initialize drv pcb = (Except.ok false, pcb)) := by
  constructor
  · simp [LlamaCoprocessorDriver.load]
  · intro h
    simp [ LlamaCoprocessorDriver.initialize, h]

theorem C31_lifecycle_failures_witness :
    LlamaCoprocessorDriver.ctor.pcb = PcbPtr.null ∧
      LlamaCoprocessorDriver.ctor.load PcbPtr.null = (false, LlamaCoprocessorDriver.ctor) ∧
      LlamaCoprocessorDriver.initialize LlamaCoprocessorDriver.ctor VirtualPCB.ctor =
        (Except.ok false, VirtualPCB.ctor) :=
  ⟨rfl, (C31_lifecycle_failures LlamaCoprocessorDriver.ctor VirtualPCB.ctor).1,
    (C31_lifecycle_failures LlamaCoprocessorDriver.ctor VirtualPCB.ctor).2 rfl⟩

/-- The `uint32_t` that `static_cast<uint32_t>(prompt.size() + n_predict)`
yields: the sum is taken in `uint64_t` and then truncated. -/
theorem ctx_used_eq (size : Nat) (n : Int) :
    ((size + to_uint64 n) % 18446744073709551616) % 4294967296 =
      (((size : Int) + n) % 4294967296).toNat := by
  unfold to_uint64
  omega

/-- C32: an `infer(prompt, seq_cfg)` on an attached driver with a model
loaded returns its text and leaves PROMPT_ADDR = 0x20000000,
PROMPT_LEN = |prompt| mod 2^32, N_PREDICT = `n_predict` mod 2^32 (the value as
a `uint32_t`) and CTX_USED = (|prompt| + `n_predict`) mod 2^32, where |prompt|
is `prompt.size()`, the length in bytes. -/
theorem C32_infer_registers (drv : LlamaCoprocessorDriver) (pcb : VirtualPCB)
    (hatt : drv.pcb ≠ PcbPtr.null) (hstd : pcb.Standard) (hl : drv.model_loaded_ = true)
    (prompt : String) (seq_cfg : LlamaSequenceConfig) (now_start now_end : Nat) :
    (drv.infer pcb prompt seq_cfg now_start now_end).1 =
      Except.ok (infer_text drv.model_config_ prompt seq_cfg) ∧
    (drv.infer pcb prompt seq_cfg now_start now_end).2.1.read_reg32
      (drv.infer pcb prompt seq_cfg now_start now_end).2.2 REG_PROMPT_ADDR =
        Except.ok 0x20000000 ∧
    (drv.infer pcb prompt seq_cfg now_start now_end).2.1.read_reg32
      (drv.infer pcb prompt seq_cfg now_start now_end).2.2 REG_PROMPT_LEN =
        Except.ok (prompt.utf8ByteSize % 4294967296) ∧
    (drv.infer pcb prompt seq_cfg now_start now_end).2.1.read_reg32
      (drv.infer pcb prompt seq_cfg now_start now_end).2.2 REG_N_PREDICT =
        Except.ok ((seq_cfg.n_predict % 4294967296).toNat) ∧
    (drv.infer pcb prompt seq_cfg now_start now_end).2.1.read_reg32
      (drv.infer pcb prompt seq_cfg now_start now_end).2.2 REG_CTX_USED =
        Except.ok ((((prompt.utf8ByteSize : Int) + seq_cfg.n_predict) % 4294967296).toNat) := by
  have hs := standard_infer drv pcb hstd prompt seq_cfg now_start now_end
  have ha : (drv.infer pcb prompt seq_cfg now_start now_end).2.1.pcb ≠ PcbPtr.null :=
    (infer_last_prompt_tokens drv pcb hatt hstd hl prompt seq_cfg now_start now_end).2.1
  rw [read_reg32_eq _ _ ha hs _ (by decide), read_reg32_eq _ _ ha hs _ (by decide),
    read_reg32_eq _ _ ha hs _ (by decide), read_reg32_eq _ _ ha hs _ (by decide),
    ← ctx_used_eq]
  rw [infer_eq_of_loaded drv pcb hatt hstd hl]
  refine ⟨rfl, ?_, ?_, ?_, ?_⟩
  · simp (disch := first | assumption |
        ((repeat' apply standard_poke32); assumption) | decide)
      only [peek32_poke32_same, peek32_poke32_ne]
  · simp (disch := first | assumption |
        ((repeat' apply standard_poke32); assumption) | decide)
      only [peek32_poke32_same, peek32_poke32_ne, Nat.mod_mod]
  · simp (disch := first | assumption |
        ((repeat' apply standard_poke32); assumption) | decide)
      only [peek32_poke32_same, peek32_poke32_ne, Nat.mod_eq_of_lt (to_uint32_lt _)]
    rfl
  · simp (disch := first | assumption |
        ((repeat' apply standard_poke32); assumption) | decide)
      only [peek32_poke32_same, peek32_poke32_ne, Nat.mod_mod]

theorem C32_infer_registers_witness :
    loaded_driver.pcb ≠ PcbPtr.null ∧ loaded_bus.Standard ∧
      loaded_driver.model_loaded_ = true ∧
      (loaded_driver.infer loaded_bus "hello" LlamaSequenceConfig.ctor 0 0).2.1.read_reg32
        (loaded_driver.infer loaded_bus "hello" LlamaSequenceConfig.ctor 0 0).2.2
          REG_PROMPT_ADDR = Except.ok 0x20000000 :=
  ⟨by decide, standard_loaded_bus, rfl,
    (C32_infer_registers loaded_driver loaded_bus (by decide) standard_loaded_bus rfl "hello"
      LlamaSequenceConfig.ctor 0 0).2.1⟩

/-- C33: on an attached driver with a model loaded, `infer` and
`infer_streaming` succeed and each adds 1 to `total_prompts` (in `uint64_t`:
exactly 1 unless the counter wraps). `infer` with `n_predict >= 0` adds
`n_predict` to `total_tokens_generated` and sets `last_prompt_tokens` to the
prompt length and `last_completion_tokens` to `n_predict`. `infer_streaming`
invokes the callback 7 times, adds 7 to `total_tokens_generated` and leaves
`last_prompt_tokens` and `last_completion_tokens` as they were. -/
theorem C33_request_telemetry (drv : LlamaCoprocessorDriver) (pcb : VirtualPCB)
    (hatt : drv.pcb ≠ PcbPtr.null) (hstd : pcb.Standard) (hl : drv.model_loaded_ = true)
    (prompt : String) (seq_cfg : LlamaSequenceConfig) (now_start now_end : Nat)
    (hint : seq_cfg.n_predict < 2147483648) :
    ((drv.infer pcb prompt seq_cfg now_start now_end).1 =
        Except.ok (infer_text drv.model_config_ prompt seq_cfg) ∧
      (drv.infer pcb prompt seq_cfg now_start now_end).2.1.telemetry_.total_prompts =
        (drv.telemetry_.total_prompts + 1) % 18446744073709551616 ∧
      (drv.telemetry_.total_prompts + 1 < 18446744073709551616 →
        (drv.infer pcb prompt seq_cfg now_start now_end).2.1.telemetry_.total_prompts =
          drv.telemetry_.total_prompts + 1) ∧
      (drv.infer pcb prompt seq_cfg now_start now_end).2.1.telemetry_.last_prompt_tokens =
        prompt.utf8ByteSize ∧
      (0 ≤ seq_cfg.n_predict →
        (drv.infer pcb prompt seq_cfg now_start
            now_end).2.1.telemetry_.total_tokens_generated =
          (drv.telemetry_.total_tokens_generated + seq_cfg.n_predict.toNat) %
            18446744073709551616 ∧
        (drv.telemetry_.total_tokens_generated + seq_cfg.n_predict.toNat <
            18446744073709551616 →
          (drv.infer pcb prompt seq_cfg now_start
              now_end).2.1.telemetry_.total_tokens_generated =
            drv.telemetry_.total_tokens_generated + seq_cfg.n_predict.toNat) ∧
        (drv.infer pcb prompt seq_cfg now_start
            now_end).2.1.telemetry_.last_completion_tokens = seq_cfg.n_predict.toNat)) ∧
    ((drv.infer_streaming pcb prompt seq_cfg now_start now_end).1 = Except.ok true ∧
      (drv.infer_streaming pcb prompt seq_cfg now_start now_end).2.1.length = 7 ∧
      (drv.infer_streaming pcb prompt seq_cfg now_start now_end).2.2.1.telemetry_.total_prompts =
        (drv.telemetry_.total_prompts + 1) % 18446744073709551616 ∧
      (drv.telemetry_.total_prompts + 1 < 18446744073709551616 →
        (drv.infer_streaming pcb prompt seq_cfg now_start
            now_end).2.2.1.telemetry_.total_prompts = drv.telemetry_.total_prompts + 1) ∧
      (drv.infer_streaming pcb prompt seq_cfg now_start
          now_end).2.2.1.telemetry_.total_tokens_generated =
        (drv.telemetry_.total_tokens_generated + 7) % 18446744073709551616 ∧
      (drv.telemetry_.total_tokens_generated + 7 < 18446744073709551616 →
        (drv.infer_streaming pcb prompt seq_cfg now_start
            now_end).2.2.1.telemetry_.total_tokens_generated =
          drv.telemetry_.total_tokens_generated + 7) ∧
      (drv.infer_streaming pcb prompt seq_cfg now_start
          now_end).2.2.1.telemetry_.last_prompt_tokens = drv.telemetry_.last_prompt_tokens ∧
      (drv.infer_streaming pcb prompt seq_cfg now_start
          now_end).2.2.1.telemetry_.last_completion_tokens =
        drv.telemetry_.last_completion_tokens) := by
  rw [infer_eq_of_loaded drv pcb hatt hstd hl,
    infer_streaming_eq_of_loaded drv pcb hatt hstd hl, streaming_calls_fake_tokens]
  refine ⟨⟨rfl, rfl, fun h => Nat.mod_eq_of_lt h, rfl, ?_⟩,
    ⟨rfl, rfl, rfl, fun h => Nat.mod_eq_of_lt h, rfl, fun h => Nat.mod_eq_of_lt h, rfl, rfl⟩⟩
  intro h0
  have hu : to_uint64 seq_cfg.n_predict = seq_cfg.n_predict.toNat :=
    to_uint64_of_nonneg _ h0 (by omega)
  rw [hu]
  exact ⟨rfl, fun h => Nat.mod_eq_of_lt h, rfl⟩

theorem C33_request_telemetry_witness :
    loaded_driver.pcb ≠ PcbPtr.null ∧ loaded_bus.Standard ∧
      loaded_driver.model_loaded_ = true ∧
      LlamaSequenceConfig.ctor.n_predict < 2147483648 ∧
      (loaded_driver.infer loaded_bus "hello" LlamaSequenceConfig.ctor 0
        0).2.1.telemetry_.total_prompts =
          (loaded_driver.telemetry_.total_prompts + 1) % 18446744073709551616 :=
  ⟨by decide, standard_loaded_bus, rfl, by decide,
    (C33_request_telemetry loaded_driver loaded_bus (by decide) standard_loaded_bus rfl "hello"
      LlamaSequenceConfig.ctor 0 0 (by decide)).1.2.1⟩

/-! ## Memory: frame conditions, bounds and block transfers -/

/-- C34: `write_memory(a, v)` changes at most the byte observed at `a`. For
every bus that satisfies the representation invariant (regions may overlap),
every mapped `a` and every address `b` other than `a`, the write returns
normally and `read_memory(b)` afterwards gives what it gave before, the same
byte or the same fault; whether `b` is mapped does not change either. -/
theorem C34_write_memory_frame (pcb : VirtualPCB) (hwf : pcb.WellFormed) (a v b : Nat)
    (hm : pcb.mapped a = true) (hab : b ≠ a) :
    (pcb.write_memory a v).1 = Except.ok () ∧
    (pcb.write_memory a v).2.read_memory b = pcb.read_memory b ∧
    (pcb.write_memory a v).2.mapped b = pcb.mapped b :=
  ⟨(read_write_same pcb hwf a v hm).1, read_write_other pcb hwf a v b hab,
    mapped_write pcb hwf a v b⟩

/-- C35: whenever `get_region(a)` returns a region `r`, the `uint64_t` offset
`a - r.base_addr` that `read_memory` and `write_memory` compute is the
difference of the two numbers, is strictly less than `r.size`, and `r.size` is
the length of `r.data`; so `data[offset]` exists, `read_memory(a)` returns it
and `write_memory(a, v)` returns normally. This holds for every base and size:
a region with 64-bit base and size whose `base + size` reaches 2^64 is never
returned by `get_region`. -/
theorem C35_offset_in_bounds (pcb : VirtualPCB) (hwf : pcb.WellFormed) (a i : Nat)
    (r : MemoryRegion) (h : pcb.get_region a = some (i, r)) :
    (a + 18446744073709551616 - r.base_addr) % 18446744073709551616 = a - r.base_addr ∧
    (a + 18446744073709551616 - r.base_addr) % 18446744073709551616 < r.size ∧
    r.size = r.data.length ∧
    (∃ byte, r.data[(a + 18446744073709551616 - r.base_addr) % 18446744073709551616]? =
        some byte ∧ pcb.read_memory a = Except.ok byte) ∧
    (∀ v, (pcb.write_memory a v).1 = Except.ok ()) ∧
    (r.base_addr < 18446744073709551616 → r.size < 18446744073709551616 →
      r.base_addr + r.size < 18446744073709551616) := by
  obtain ⟨hmem, _, hc⟩ := get_region_mem pcb a i r h
  obtain ⟨h1, h2, h3⟩ := contains_lt r a hc
  have hlen := (hwf r hmem).1
  have hoff := offset_eq a r.base_addr h2 h1
  have hlt : a - r.base_addr < r.data.length := by omega
  refine ⟨hoff, by omega, hlen.symm, ⟨r.data[a - r.base_addr], ?_, ?_⟩, ?_, ?_⟩
  · rw [hoff, List.getElem?_eq_getElem hlt]
  · simp [VirtualPCB.read_memory, h, hoff, List.getElem?_eq_getElem hlt]
  · intro v
    rw [write_memory_eq pcb hwf a v i r h]
  · intro hb hs
    rw [contains_iff] at hc
    omega

theorem get_region_loop_append (rs : List MemoryRegion) (q : MemoryRegion) (a : Nat) :
    get_region_loop (rs ++ [q]) a =
      match get_region_loop rs a with
      | some p => some p
      | none => if q.contains a then some (rs.length, q) else none := by
  induction rs with
  | nil => simp [get_region_loop]
  | cons x rest ih =>
      by_cases hx : x.contains a = true
      · simp [get_region_loop, hx]
      · have hx' : x.contains a = false := by simpa using hx
        show get_region_loop (x :: (rest ++ [q])) a = _
        simp only [get_region_loop, hx', Bool.false_eq_true, if_false, ih, List.length_cons]
        cases get_region_loop rest a with
        | some p => rfl
        | none =>
            by_cases hq : q.contains a = true
            · simp [hq]
            · simp [hq]

/-- What `add_memory_region` does to the mapping: an address mapped before
keeps its region and its byte; an address not mapped before is served by the
new region, and reads 0, exactly when the new region's `contains` accepts it. -/
theorem add_memory_region_frame (pcb : VirtualPCB) (base size : Nat) (t : MemoryRegionType)
    (n : String) (a : Nat) :
    (pcb.mapped a = true →
      (pcb.add_memory_region base size t n).get_region a = pcb.get_region a ∧
      (pcb.add_memory_region base size t n).read_memory a = pcb.read_memory a) ∧
    (pcb.mapped a = false → (MemoryRegion.ctor base size t n).contains a = true →
      (pcb.add_memory_region base size t n).get_region a =
        some (pcb.memory_regions_.length, MemoryRegion.ctor base size t n) ∧
      (pcb.add_memory_region base size t n).read_memory a = Except.ok 0) ∧
    (pcb.mapped a = false → (MemoryRegion.ctor base size t n).contains a = false →
      (pcb.add_memory_region base size t n).get_region a = none) := by
  have hg := get_region_loop_append pcb.memory_regions_ (MemoryRegion.ctor base size t n) a
  refine ⟨?_, ?_, ?_⟩
  · intro hm
    cases h : pcb.get_region a with
    | none => simp [VirtualPCB.mapped, h] at hm
    | some p =>
        have h1 : get_region_loop pcb.memory_regions_ a = some p := h
        have h2 : (pcb.add_memory_region base size t n).get_region a = some p := by
          simp only [VirtualPCB.get_region, VirtualPCB.add_memory_region, hg, h1]
        exact ⟨h2, by simp only [VirtualPCB.read_memory, h2, h]⟩
  · intro hm hc
    have h1 : get_region_loop pcb.memory_regions_ a = none := by
      cases h : pcb.get_region a with
      | none => exact h
      | some p => simp [VirtualPCB.mapped, h] at hm
    have h2 : (pcb.add_memory_region base size t n).get_region a =
        some (pcb.memory_regions_.length, MemoryRegion.ctor base size t n) := by
      simp only [VirtualPCB.get_region, VirtualPCB.add_memory_region, hg, h1, hc, if_true]
    refine ⟨h2, ?_⟩
    obtain ⟨g1, g2, g3⟩ := contains_lt _ a hc
    have g4 : a - base < size := g3
    have g5 : base ≤ a := g2
    simp only [VirtualPCB.read_memory, h2, MemoryRegion.ctor]
    rw [offset_eq a base g5 g1]
    simp [g4]
  · intro hm hc
    have h1 : get_region_loop pcb.memory_regions_ a = none := by
      cases h : pcb.get_region a with
      | none => exact h
      | some p => simp [VirtualPCB.mapped, h] at hm
    simp only [VirtualPCB.get_region, VirtualPCB.add_memory_region, hg, h1, hc,
      Bool.false_eq_true, if_false]

/-- C36: the claim fails on the code for a new region that ends at the top of
the address space. `0xFFFFFFFFFFFFFFFF` is unmapped on the constructed bus and
lies in the span `[base, base + size)` of the region added by
`add_memory_region(0xFFFFFFFFFFFFFFFF, 1, RESERVED, "TOP")`, yet afterwards it
is still unmapped and `read_memory` faults instead of returning 0. -/
theorem C36_top_region_reads_fault :
    VirtualPCB.ctor.mapped 0xFFFFFFFFFFFFFFFF = false ∧
    (0xFFFFFFFFFFFFFFFF ≤ 0xFFFFFFFFFFFFFFFF ∧ 0xFFFFFFFFFFFFFFFF < 0xFFFFFFFFFFFFFFFF + 1) ∧
    (VirtualPCB.ctor.add_memory_region 0xFFFFFFFFFFFFFFFF 1 MemoryRegionType.RESERVED
      "TOP").mapped 0xFFFFFFFFFFFFFFFF = false ∧
    (VirtualPCB.ctor.add_memory_region 0xFFFFFFFFFFFFFFFF 1 MemoryRegionType.RESERVED
      "TOP").read_memory 0xFFFFFFFFFFFFFFFF =
        Except.error (Fault.read_unmapped 0xFFFFFFFFFFFFFFFF) := by
  refine ⟨by decide, by decide, by decide, by rfl⟩

theorem wellFormed_overlap_bus : overlap_bus.WellFormed :=
  wellFormed_add_memory_region VirtualPCB.ctor wellFormed_ctor 0x400FFFFE 4
    MemoryRegionType.RESERVED "OVERLAP"

theorem C34_write_memory_frame_witness :
    overlap_bus.WellFormed ∧ overlap_bus.mapped 0x400FFFFF = true ∧
      0x40100000 ≠ 0x400FFFFF ∧
      (overlap_bus.write_memory 0x400FFFFF 0xAB).1 = Except.ok () ∧
      (overlap_bus.write_memory 0x400FFFFF 0xAB).2.read_memory 0x40100000 =
        overlap_bus.read_memory 0x40100000 :=
  ⟨wellFormed_overlap_bus, by decide, by decide,
    (C34_write_memory_frame overlap_bus wellFormed_overlap_bus 0x400FFFFF 0xAB 0x40100000
      (by decide) (by decide)).1,
    (C34_write_memory_frame overlap_bus wellFormed_overlap_bus 0x400FFFFF 0xAB 0x40100000
      (by decide) (by decide)).2.1⟩

theorem C35_offset_in_bounds_witness :
    overlap_bus.WellFormed ∧
      overlap_bus.get_region 0x40100000 =
        some (3, MemoryRegion.ctor 0x400FFFFE 4 MemoryRegionType.RESERVED "OVERLAP") ∧
      (0x40100000 + 18446744073709551616 -
        (MemoryRegion.ctor 0x400FFFFE 4 MemoryRegionType.RESERVED "OVERLAP").base_addr) %
          18446744073709551616 <
        (MemoryRegion.ctor 0x400FFFFE 4 MemoryRegionType.RESERVED "OVERLAP").size :=
  ⟨wellFormed_overlap_bus, rfl,
    (C35_offset_in_bounds overlap_bus wellFormed_overlap_bus 0x40100000 3
      (MemoryRegion.ctor 0x400FFFFE 4 MemoryRegionType.RESERVED "OVERLAP") rfl).2.1⟩

/-- The loop of `write_memory_block` started at index `i` when the next `n`
addresses are all mapped: it completes, every one of them holds its byte of
the buffer, and every other address reads as before. -/
theorem write_memory_block_loop_ok (addr : Nat) (buffer : List Nat)
    (hbytes : ∀ b ∈ buffer, b < 256) :
    ∀ (n i : Nat) (pcb : VirtualPCB), pcb.WellFormed → i + n ≤ buffer.length →
      n ≤ 18446744073709551616 →
      (∀ j, j < n → pcb.mapped ((addr + (i + j)) % 18446744073709551616) = true) →
      (write_memory_block_loop addr buffer n i pcb).1 = Except.ok () ∧
      (write_memory_block_loop addr buffer n i pcb).2.WellFormed ∧
      (∀ j, j < n →
        (write_memory_block_loop addr buffer n i pcb).2.read_memory
          ((addr + (i + j)) % 18446744073709551616) = Except.ok (buffer.getD (i + j) 0)) ∧
      (∀ x, (∀ j, j < n → x ≠ (addr + (i + j)) % 18446744073709551616) →
        (write_memory_block_loop addr buffer n i pcb).2.read_memory x = pcb.read_memory x) := by
  intro n
  induction n with
  | zero =>
      intro i pcb hwf _ _ _
      exact ⟨rfl, hwf, fun j hj => absurd hj (Nat.not_lt_zero j), fun x _ => rfl⟩
  | succ n1 ih =>
      intro i pcb hwf hlen hn hmap
      have hi : i < buffer.length := by omega
      have hb : buffer[i] < 256 := hbytes _ (List.getElem_mem hi)
      have hm0 : pcb.mapped ((addr + i) % 18446744073709551616) = true := by
        simpa using hmap 0 (Nat.succ_pos n1)
      obtain ⟨hok, hrd⟩ := read_write_same pcb hwf _ buffer[i] hm0
      have hwf1 := wellFormed_write pcb hwf ((addr + i) % 18446744073709551616) buffer[i] hb
      have hmp1 := mapped_write pcb hwf ((addr + i) % 18446744073709551616) buffer[i]
      have hfr1 := read_write_other pcb hwf ((addr + i) % 18446744073709551616) buffer[i]
      have hstep : write_memory_block_loop addr buffer (n1 + 1) i pcb =
          write_memory_block_loop addr buffer n1 (i + 1)
            (pcb.write_memory ((addr + i) % 18446744073709551616) buffer[i]).2 := by
        rcases hw : pcb.write_memory ((addr + i) % 18446744073709551616) buffer[i]
          with ⟨res, pcb1⟩
        rw [hw] at hok
        cases res with
        | error e => simp at hok
        | ok u => simp [write_memory_block_loop, List.getElem?_eq_getElem hi, hw]
      rw [hstep]
      obtain ⟨k1, k2, k3, k4⟩ := ih (i + 1) _ hwf1 (by omega) (by omega)
        (fun j hj => by
          rw [hmp1]
          have := hmap (j + 1) (by omega)
          rwa [show i + (j + 1) = i + 1 + j by omega] at this)
      refine ⟨k1, k2, ?_, ?_⟩
      · intro j hj
        cases j with
        | zero =>
            have hx : ∀ j, j < n1 → (addr + i) % 18446744073709551616 ≠
                (addr + (i + 1 + j)) % 18446744073709551616 := by
              intro j hj
              omega
            simp only [Nat.add_zero]
            rw [k4 ((addr + i) % 18446744073709551616) hx, hrd, List.getD_eq_getElem _ _ hi]
        | succ j =>
            rw [show i + (j + 1) = i + 1 + j by omega]
            exact k3 j (by omega)
      · intro x hx
        rw [k4 x (fun j hj => by
          have := hx (j + 1) (by omega)
          rwa [show i + (j + 1) = i + 1 + j by omega] at this)]
        exact hfr1 x (by simpa using hx 0 (Nat.succ_pos n1))

/-- The loop of `read_memory_block` started at index `i` when the next `n`
reads return: it completes and has stored those `n` bytes at positions
`i .. i+n-1` of the output buffer, the other positions as they were. -/
theorem read_memory_block_loop_spec (pcb : VirtualPCB) (addr : Nat) (vals : Nat → Nat) :
    ∀ (n i : Nat) (out : List Nat), i + n ≤ out.length →
      (∀ j, j < n →
        pcb.read_memory ((addr + (i + j)) % 18446744073709551616) = Except.ok (vals (i + j))) →
      (read_memory_block_loop pcb addr n i out).1 = Except.ok () ∧
      (read_memory_block_loop pcb addr n i out).2.length = out.length ∧
      ∀ k, (read_memory_block_loop pcb addr n i out).2[k]? =
        if i ≤ k ∧ k < i + n then some (vals k) else out[k]? := by
  intro n
  induction n with
  | zero =>
      intro i out _ _
      refine ⟨rfl, rfl, ?_⟩
      intro k
      have : ¬ (i ≤ k ∧ k < i + 0) := by omega
      rw [if_neg this]
      rfl
  | succ n1 ih =>
      intro i out hlen hrd
      have hi : i < out.length := by omega
      have h0 : pcb.read_memory ((addr + i) % 18446744073709551616) = Except.ok (vals i) := by
        simpa using hrd 0 (Nat.succ_pos n1)
      have hstep : read_memory_block_loop pcb addr (n1 + 1) i out =
          read_memory_block_loop pcb addr n1 (i + 1) (out.set i (vals i)) := by
        simp [read_memory_block_loop, h0, hi]
      rw [hstep]
      obtain ⟨k1, k2, k3⟩ := ih (i + 1) (out.set i (vals i)) (by simp; omega)
        (fun j hj => by
          have := hrd (j + 1) (by omega)
          rwa [show i + (j + 1) = i + 1 + j by omega] at this)
      refine ⟨k1, by simpa using k2, ?_⟩
      intro k
      rw [k3 k]
      by_cases hk : k = i
      · subst hk
        have g1 : ¬ (k + 1 ≤ k ∧ k < k + 1 + n1) := by omega
        have g2 : k ≤ k ∧ k < k + (n1 + 1) := by omega
        simp [g1, g2, List.getElem?_set_self hi]
      · have hne : i ≠ k := fun h => hk h.symm
        by_cases hr : i + 1 ≤ k ∧ k < i + 1 + n1
        · have g2 : i ≤ k ∧ k < i + (n1 + 1) := by omega
          simp [hr, g2]
        · have g2 : ¬ (i ≤ k ∧ k < i + (n1 + 1)) := by omega
          simp [hr, g2, List.getElem?_set_ne hne]

/-- C37: block round trip. For every bus that satisfies the representation
invariant, every address `addr`, every byte buffer `buf` of length `n` (a
`size_t`) and every output buffer `out` of length `n`: when all of
`addr .. addr+n-1` (taken in `uint64_t`) are mapped, `write_memory_block(addr,
buf, n)` returns normally and a following `read_memory_block(addr, out, n)`
returns normally with `out` equal to `buf`. -/
theorem C37_block_round_trip (pcb : VirtualPCB) (hwf : pcb.WellFormed) (addr : Nat)
    (buf out : List Nat) (n : Nat) (hbytes : ∀ b ∈ buf, b < 256) (hbuf : buf.length = n)
    (hout : out.length = n) (hn : n < 18446744073709551616)
    (hmap : ∀ i, i < n → pcb.mapped ((addr + i) % 18446744073709551616) = true) :
    (pcb.write_memory_block addr buf n).1 = Except.ok () ∧
    (pcb.write_memory_block addr buf n).2.read_memory_block addr out n =
      (Except.ok (), buf) := by
  obtain ⟨w1, _, w3, _⟩ := write_memory_block_loop_ok addr buf hbytes n 0 pcb hwf (by omega)
    (by omega) (fun j hj => by simpa using hmap j hj)
  obtain ⟨r1, r2, r3⟩ := read_memory_block_loop_spec
    (pcb.write_memory_block addr buf n).2 addr (fun k => buf.getD k 0) n 0 out (by omega)
    (fun j hj => w3 j hj)
  refine ⟨w1, Prod.ext r1 ?_⟩
  apply List.ext_getElem?
  intro k
  have r3k := r3 k
  simp only [VirtualPCB.read_memory_block] at r3k ⊢
  rw [r3k]
  by_cases hk : k < n
  · have g : 0 ≤ k ∧ k < 0 + n := by omega
    have hkb : k < buf.length := by omega
    rw [if_pos g, List.getD_eq_getElem _ _ hkb, List.getElem?_eq_getElem hkb]
  · have g : ¬ (0 ≤ k ∧ k < 0 + n) := by omega
    rw [if_neg g, List.getElem?_eq_none (by omega), List.getElem?_eq_none (by omega)]

theorem C37_block_round_trip_witness :
    VirtualPCB.ctor.WellFormed ∧ (∀ b ∈ [1, 2, 3, 4], b < 256) ∧
      [1, 2, 3, 4].length = 4 ∧ [0, 0, 0, 0].length = 4 ∧ 4 < 18446744073709551616 ∧
      (∀ i, i < 4 → VirtualPCB.ctor.mapped ((0x20000000 + i) % 18446744073709551616) = true) ∧
      (VirtualPCB.ctor.write_memory_block 0x20000000 [1, 2, 3, 4] 4).2.read_memory_block
        0x20000000 [0, 0, 0, 0] 4 = (Except.ok (), [1, 2, 3, 4]) :=
  ⟨wellFormed_ctor, by decide, by decide, by decide, by decide, by decide,
    (C37_block_round_trip VirtualPCB.ctor wellFormed_ctor 0x20000000 [1, 2, 3, 4] [0, 0, 0, 0] 4
      (by decide) (by decide) (by decide) (by decide) (by decide)).2⟩

/-! ## The register file, reachable driver states and the ERROR bit -/

theorem isReg_register_addresses : ∀ r ∈ register_addresses, IsReg r := by
  decide

/-- The third region of a standard bus has the span of PERIPH. -/
theorem standard_third_region (pcb : VirtualPCB) (h : pcb.Standard) (p : MemoryRegion)
    (hp : pcb.memory_regions_[2]? = some p) :
    p.base_addr = 0x40000000 ∧ p.size = 0x00100000 := by
  obtain ⟨_, hl⟩ := h
  match hrs : pcb.memory_regions_, hl with
  | f :: s :: q :: rest, hl =>
      rw [hrs] at hp
      simp only [List.map_cons, List.take_succ_cons, List.take_zero, List.cons.injEq,
        MemoryRegion.layout, Prod.mk.injEq, and_true] at hl
      have hq : q = p := by simpa using hp
      subst hq
      exact hl.2.2
  | [], hl => simp at hl
  | [_], hl => simp at hl
  | [_, _], hl => simp at hl

/-- C38: the eleven register addresses are `REG_BASE + 4k` for `k = 0..10`,
so 4-byte aligned and pairwise at least 4 apart. On every bus with the
standard regions (the constructor makes them, `add_memory_region` and the
writes keep them) all four bytes of each register are served by the third
region, the one with the span of PERIPH, which the constructor creates with
type PERIPH. Hence on an attached driver `write_reg32` and `read_reg32` at a
register return normally, and `write_reg32` to one register leaves the value
`read_reg32` returns for each of the other ten unchanged. -/
theorem C38_register_file (drv : LlamaCoprocessorDriver) (pcb : VirtualPCB)
    (hatt : drv.pcb ≠ PcbPtr.null) (hstd : pcb.Standard) :
    register_addresses = (List.range 11).map (fun k => REG_BASE + 4 * k) ∧
    (∀ r ∈ register_addresses, r % 4 = 0) ∧
    register_addresses.Pairwise (fun a b => a + 4 ≤ b) ∧
    (∀ r ∈ register_addresses, ∀ i, i < 4 →
      ∃ p, pcb.memory_regions_[2]? = some p ∧ p.base_addr = 0x40000000 ∧
        p.size = 0x00100000 ∧ pcb.get_region (r + i) = some (2, p)) ∧
    (VirtualPCB.ctor.memory_regions_[2]?).map (fun p => (p.type, p.name)) =
      some (MemoryRegionType.PERIPH, "PERIPH") ∧
    (∀ r ∈ register_addresses, ∀ v,
      (drv.write_reg32 pcb r v).1 = Except.ok () ∧
      ∃ x, drv.read_reg32 pcb r = Except.ok x) ∧
    (∀ r ∈ register_addresses, ∀ q ∈ register_addresses, q ≠ r → ∀ v,
      drv.read_reg32 (drv.write_reg32 pcb r v).2 q = drv.read_reg32 pcb q) := by
  refine ⟨by decide, by decide, by decide, ?_, by decide, ?_, ?_⟩
  · intro r hr i hi
    obtain ⟨h1, h2, _⟩ := isReg_register_addresses r hr
    obtain ⟨p, hp, hg, _⟩ := get_region_periph pcb hstd (r + i) (by omega) (by omega)
    obtain ⟨hb, hs⟩ := standard_third_region pcb hstd p hp
    exact ⟨p, hp, hb, hs, hg⟩
  · intro r hr v
    have hreg := isReg_register_addresses r hr
    rw [write_reg32_eq drv pcb hatt hstd r v hreg, read_reg32_eq drv pcb hatt hstd r hreg]
    exact ⟨rfl, _, rfl⟩
  · intro r hr q hq hne v
    have hreg := isReg_register_addresses r hr
    have hqreg := isReg_register_addresses q hq
    rw [write_reg32_eq drv pcb hatt hstd r v hreg,
      read_reg32_eq drv _ hatt (standard_poke32 pcb hstd r v) q hqreg,
      read_reg32_eq drv pcb hatt hstd q hqreg, peek32_poke32_ne pcb hstd r q v hreg hqreg hne]

theorem C38_register_file_witness :
    attached_driver.pcb ≠ PcbPtr.null ∧ VirtualPCB.ctor.Standard ∧
      (∀ r ∈ register_addresses, ∀ v,
        (attached_driver.write_reg32 VirtualPCB.ctor r v).1 = Except.ok () ∧
        ∃ x, attached_driver.read_reg32 VirtualPCB.ctor r = Except.ok x) :=
  ⟨by decide, standard_ctor,
    (C38_register_file attached_driver VirtualPCB.ctor (by decide) standard_ctor).2.2.2.2.2.1⟩

theorem read_memory_ne_not_attached (pcb : VirtualPCB) (a : Nat) :
    pcb.read_memory a ≠ Except.error Fault.pcb_not_attached := by
  unfold VirtualPCB.read_memory
  cases pcb.get_region a with
  | none => simp
  | some p =>
      obtain ⟨i, r⟩ := p
      dsimp only
      split <;> simp

theorem write_memory_ne_not_attached (pcb : VirtualPCB) (a v : Nat) :
    (pcb.write_memory a v).1 ≠ Except.error Fault.pcb_not_attached := by
  unfold VirtualPCB.write_memory
  cases pcb.get_region a with
  | none => simp
  | some p =>
      obtain ⟨i, r⟩ := p
      dsimp only
      split <;> simp

theorem read_reg32_loop_ne_not_attached (pcb : VirtualPCB) (addr : Nat) (is : List Nat) :
    ∀ acc, read_reg32_loop pcb addr is acc ≠ Except.error Fault.pcb_not_attached := by
  induction is with
  | nil => intro acc; simp [read_reg32_loop]
  | cons i rest ih =>
      intro acc
      have h := read_memory_ne_not_attached pcb ((addr + i) % 18446744073709551616)
      simp only [read_reg32_loop]
      cases hr : pcb.read_memory ((addr + i) % 18446744073709551616) with
      | error e =>
          rw [hr] at h
          exact h
      | ok b => exact ih _

theorem write_reg32_loop_ne_not_attached (addr v : Nat) (is : List Nat) :
    ∀ pcb : VirtualPCB,
      (write_reg32_loop addr v is pcb).1 ≠ Except.error Fault.pcb_not_attached := by
  induction is with
  | nil => intro pcb; simp [write_reg32_loop]
  | cons i rest ih =>
      intro pcb
      have h := write_memory_ne_not_attached pcb ((addr + i) % 18446744073709551616)
        (((v >>> (8 * i)) &&& 0xFF) % 256)
      simp only [write_reg32_loop]
      rcases hw : pcb.write_memory ((addr + i) % 18446744073709551616)
        (((v >>> (8 * i)) &&& 0xFF) % 256) with ⟨res, p1⟩
      rw [hw] at h
      cases res with
      | error e => exact h
      | ok u => exact ih p1

/-- On a consistent driver `unload_model` and `remove` never throw the
"PCB not attached" fault, whatever the bus. -/
theorem unload_remove_ne_not_attached (drv : LlamaCoprocessorDriver) (pcb : VirtualPCB)
    (hc : drv.Consistent) :
    (drv.unload_model pcb).1 ≠ Except.error Fault.pcb_not_attached ∧
    (drv.remove pcb).1 ≠ Except.error Fault.pcb_not_attached := by
  have hu : (drv.unload_model pcb).1 ≠ Except.error Fault.pcb_not_attached := by
    cases hl : drv.model_loaded_ with
    | false => simp [LlamaCoprocessorDriver.unload_model, hl]
    | true =>
        have hatt := hc hl
        have hr := read_reg32_loop_ne_not_attached pcb REG_STATUS [0, 1, 2, 3] 0
        simp only [LlamaCoprocessorDriver.unload_model, hl, Bool.not_true, Bool.false_eq_true,
          if_false, LlamaCoprocessorDriver.read_reg32, LlamaCoprocessorDriver.write_reg32, hatt]
        cases hrd : read_reg32_loop pcb REG_STATUS [0, 1, 2, 3] 0 with
        | error e =>
            rw [hrd] at hr
            simpa using hr
        | ok status =>
            have hw := write_reg32_loop_ne_not_attached REG_STATUS
              (status &&& (4294967295 - STATUS_MODEL_READY)) [0, 1, 2, 3] pcb
            simp only []
            rcases hwr : write_reg32_loop REG_STATUS
              (status &&& (4294967295 - STATUS_MODEL_READY)) [0, 1, 2, 3] pcb with ⟨res, p1⟩
            rw [hwr] at hw
            cases res with
            | error e => simpa using hw
            | ok u => simp
  refine ⟨hu, ?_⟩
  unfold LlamaCoprocessorDriver.remove
  split
  · rcases hur : drv.unload_model pcb with ⟨res, d1, p1⟩
    rw [hur] at hu
    cases res with
    | error e => exact hu
    | ok b => simp
  · simp

/-- C39: in every state reached from a freshly constructed driver by any
sequence of driver operations, on any bus, `is_model_loaded()` implies that the
back-reference is set; consequently neither `unload_model()` nor the
`remove()` that calls it throws the "PCB not attached" fault there, and on a
bus with the standard regions `remove()` returns true. -/
theorem C39_loaded_implies_attached (pcb : VirtualPCB) (ops : List DriverOp) :
    ((DriverOp.run LlamaCoprocessorDriver.ctor pcb ops).1.is_model_loaded = true →
      (DriverOp.run LlamaCoprocessorDriver.ctor pcb ops).1.pcb ≠ PcbPtr.null) ∧
    ((DriverOp.run LlamaCoprocessorDriver.ctor pcb ops).1.unload_model
      (DriverOp.run LlamaCoprocessorDriver.ctor pcb ops).2).1 ≠
        Except.error Fault.pcb_not_attached ∧
    ((DriverOp.run LlamaCoprocessorDriver.ctor pcb ops).1.remove
      (DriverOp.run LlamaCoprocessorDriver.ctor pcb ops).2).1 ≠
        Except.error Fault.pcb_not_attached ∧
    (pcb.Standard →
      ((DriverOp.run LlamaCoprocessorDriver.ctor pcb ops).1.remove
        (DriverOp.run LlamaCoprocessorDriver.ctor pcb ops).2).1 = Except.ok true) := by
  have hc0 : LlamaCoprocessorDriver.ctor.Consistent := fun h => Bool.noConfusion h
  have hc := consistent_run ops LlamaCoprocessorDriver.ctor pcb hc0
  obtain ⟨h1, h2⟩ := unload_remove_ne_not_attached _
    (DriverOp.run LlamaCoprocessorDriver.ctor pcb ops).2 hc
  refine ⟨hc, h1, h2, ?_⟩
  intro hstd
  rw [remove_eq _ _ (standard_run ops LlamaCoprocessorDriver.ctor pcb hstd) hc]

theorem C39_loaded_implies_attached_witness :
    VirtualPCB.ctor.Standard ∧
      ((DriverOp.run LlamaCoprocessorDriver.ctor VirtualPCB.ctor
        [DriverOp.load PcbPtr.bus, DriverOp.load_model, DriverOp.remove]).1.remove
        (DriverOp.run LlamaCoprocessorDriver.ctor VirtualPCB.ctor
          [DriverOp.load PcbPtr.bus, DriverOp.load_model, DriverOp.remove]).2).1 =
            Except.ok true :=
  ⟨standard_ctor,
    (C39_loaded_implies_attached VirtualPCB.ctor
      [DriverOp.load PcbPtr.bus, DriverOp.load_model, DriverOp.remove]).2.2.2 standard_ctor⟩

/-- The STATUS value `infer` and `infer_streaming` leave is the old value with
IDLE and EOG set and BUSY cleared. -/
theorem request_status_eq (status : Nat) (hlt : status < 4294967296) :
    (((((status ||| STATUS_BUSY) &&& (4294967295 - STATUS_IDLE)) &&&
      (4294967295 - STATUS_EOG)) &&& (4294967295 - STATUS_BUSY)) |||
        (STATUS_IDLE ||| STATUS_EOG)) =
      ((status ||| STATUS_IDLE ||| STATUS_EOG) &&& (4294967295 - STATUS_BUSY)) := by
  apply Nat.eq_of_testBit_eq
  intro i
  have e1 : STATUS_BUSY = 2 ^ 1 := rfl
  have e0 : STATUS_IDLE = 2 ^ 0 := rfl
  have e2 : STATUS_EOG = 2 ^ 2 := rfl
  rw [testBit_request_status status hlt, Nat.testBit_and, Nat.testBit_or, Nat.testBit_or,
    testBit_complement _ (by decide), e1, e0, e2, Nat.testBit_two_pow, Nat.testBit_two_pow,
    Nat.testBit_two_pow]
  by_cases h0 : i = 0
  · subst h0
    simp
  · by_cases h2 : i = 2
    · subst h2
      simp
    · by_cases h1 : i = 1
      · subst h1
        simp
      · have g1 : ¬ 1 = i := fun h => h1 h.symm
        have g0 : ¬ 0 = i := fun h => h0 h.symm
        have g2 : ¬ 2 = i := fun h => h2 h.symm
        by_cases h32 : i < 32
        · simp [h32, h1, h0, h2, g1, g0, g2]
        · simp [h32, h1, h0, h2, g1, g0, g2, testBit_uint32 status hlt i (by omega)]

/-- The STATUS and ERROR_CODE registers after `infer` and after
`infer_streaming` on an attached driver with a model loaded. -/
theorem request_status_registers (drv : LlamaCoprocessorDriver) (pcb : VirtualPCB)
    (hatt : drv.pcb ≠ PcbPtr.null) (hstd : pcb.Standard) (hl : drv.model_loaded_ = true)
    (prompt : String) (seq_cfg : LlamaSequenceConfig) (now_start now_end : Nat) :
    (drv.infer pcb prompt seq_cfg now_start now_end).2.2.peek32 REG_STATUS =
      ((pcb.peek32 REG_STATUS ||| STATUS_IDLE ||| STATUS_EOG) &&&
        (4294967295 - STATUS_BUSY)) ∧
    (drv.infer pcb prompt seq_cfg now_start now_end).2.2.peek32 REG_ERROR_CODE =
      pcb.peek32 REG_ERROR_CODE ∧
    (drv.infer_streaming pcb prompt seq_cfg now_start now_end).2.2.2.peek32 REG_STATUS =
      ((pcb.peek32 REG_STATUS ||| STATUS_IDLE ||| STATUS_EOG) &&&
        (4294967295 - STATUS_BUSY)) ∧
    (drv.infer_streaming pcb prompt seq_cfg now_start now_end).2.2.2.peek32 REG_ERROR_CODE =
      pcb.peek32 REG_ERROR_CODE := by
  have hlt := peek32_lt pcb hstd REG_STATUS (by decide)
  rw [infer_eq_of_loaded drv pcb hatt hstd hl,
    infer_streaming_eq_of_loaded drv pcb hatt hstd hl]
  refine ⟨?_, ?_, ?_, ?_⟩
  · simp (disch := first | assumption |
        ((repeat' apply standard_poke32); assumption) | decide)
      only [peek32_poke32_same]
    rw [Nat.mod_eq_of_lt (final_status_lt _ (start_status_lt _ hlt)),
      request_status_eq _ hlt]
  · simp (disch := first | assumption |
        ((repeat' apply standard_poke32); assumption) | decide)
      only [peek32_poke32_ne]
  · simp (disch := first | assumption |
        ((repeat' apply standard_poke32); assumption) | decide)
      only [peek32_poke32_same]
    rw [Nat.mod_eq_of_lt (final_status_lt _ (start_status_lt _ hlt)),
      request_status_eq _ hlt]
  · simp (disch := first | assumption |
        ((repeat' apply standard_poke32); assumption) | decide)
      only [peek32_poke32_ne]

theorem testBit_sticky_status (status : Nat) (hlt : status < 4294967296) :
    ((status ||| STATUS_IDLE ||| STATUS_EOG) &&& (4294967295 - STATUS_BUSY)).testBit 3 =
      status.testBit 3 := by
  rw [← request_status_eq status hlt, testBit_request_status status hlt]
  simp

theorem has_error_eq (drv : LlamaCoprocessorDriver) (pcb : VirtualPCB)
    (hatt : drv.pcb ≠ PcbPtr.null) (hstd : pcb.Standard) :
    drv.has_error pcb = Except.ok ((pcb.peek32 REG_STATUS).testBit 3) := by
  unfold LlamaCoprocessorDriver.has_error
  rw [read_reg32_eq drv pcb hatt hstd REG_STATUS (by decide)]
  exact congrArg Except.ok (and_two_pow_ne_zero (pcb.peek32 REG_STATUS) 3)

/-- The register reads of a driver depend on the driver object through its
back-reference only. -/
theorem read_reg32_congr_driver (d1 d2 : LlamaCoprocessorDriver) (pcb : VirtualPCB)
    (h : d1.pcb = d2.pcb) :
    (∀ a, d1.read_reg32 pcb a = d2.read_reg32 pcb a) ∧
    d1.read_status pcb = d2.read_status pcb ∧
    d1.has_error pcb = d2.has_error pcb ∧
    d1.get_error_code pcb = d2.get_error_code pcb := by
  have hr : ∀ a, d1.read_reg32 pcb a = d2.read_reg32 pcb a := by
    intro a
    simp only [LlamaCoprocessorDriver.read_reg32, h]
  refine ⟨hr, ?_, ?_, ?_⟩
  · simp only [LlamaCoprocessorDriver.read_status, hr]
  · simp only [LlamaCoprocessorDriver.has_error, hr]
  · simp only [LlamaCoprocessorDriver.get_error_code, hr]

/-- The requests keep the back-reference. -/
theorem request_pcb (drv : LlamaCoprocessorDriver) (pcb : VirtualPCB) (prompt : String)
    (seq_cfg : LlamaSequenceConfig) (now now_start now_end : Nat) :
    (drv.start_inference pcb now).2.1.pcb = drv.pcb ∧
    (drv.infer pcb prompt seq_cfg now_start now_end).2.1.pcb = drv.pcb ∧
    (drv.infer_streaming pcb prompt seq_cfg now_start now_end).2.2.1.pcb = drv.pcb := by
  refine ⟨?_, ?_, ?_⟩
  · rcases start_inference_driver drv pcb now with ⟨_, hd⟩ | ⟨_, _, hd⟩ | ⟨_, _, hd⟩ <;> rw [hd]
  · rcases infer_driver drv pcb prompt seq_cfg now_start now_end with
      ⟨_, hd⟩ | ⟨_, _, hd⟩ | ⟨_, _, hp, _⟩
    · rw [hd]
    · rw [hd]
    · exact hp
  · rcases infer_streaming_driver drv pcb prompt seq_cfg now_start now_end with
      ⟨_, hd⟩ | ⟨_, _, _, hd⟩ | ⟨_, _, _, hp, _⟩
    · rw [hd]
    · rw [hd]
    · exact hp

theorem standard_start_inference (drv : LlamaCoprocessorDriver) (pcb : VirtualPCB)
    (hstd : pcb.Standard) (now : Nat) : (drv.start_inference pcb now).2.2.Standard :=
  standard_apply drv pcb (DriverOp.start_inference now) hstd

/-- The ERROR bit across `start_inference`: set when no model is loaded, kept
as it was when one is. -/
theorem start_inference_error_bit (drv : LlamaCoprocessorDriver) (pcb : VirtualPCB)
    (hatt : drv.pcb ≠ PcbPtr.null) (hstd : pcb.Standard) (now : Nat) :
    ((drv.start_inference pcb now).2.2.peek32 REG_STATUS).testBit 3 =
      (if drv.model_loaded_ then (pcb.peek32 REG_STATUS).testBit 3 else true) := by
  have hlt := peek32_lt pcb hstd REG_STATUS (by decide)
  cases hl : drv.model_loaded_ with
  | false =>
      rw [start_inference_eq_of_not_loaded drv pcb hatt hstd hl]
      simp (disch := first | assumption |
          ((repeat' apply standard_poke32); assumption) | decide)
        only [peek32_poke32_ne, peek32_poke32_same]
      rw [or_uint32 _ _ hlt (by decide), testBit_set_error]
      rfl
  | true =>
      rw [start_inference_eq_of_loaded drv pcb hatt hstd hl]
      simp only []
      rw [peek32_poke32_same _ hstd _ _ (by decide),
        Nat.mod_eq_of_lt (start_status_lt _ hlt), testBit_start_status _ hlt]
      rfl

/-- A failed `start_inference()`, then `load_model()`, then `infer` on an
attached driver: the error is still reported, with error code 1. -/
theorem error_survives_infer (drv : LlamaCoprocessorDriver) (pcb : VirtualPCB)
    (hatt : drv.pcb ≠ PcbPtr.null) (hstd : pcb.Standard) (hnl : drv.model_loaded_ = false)
    (prompt : String) (seq_cfg : LlamaSequenceConfig) (now now_start now_end : Nat) :
    (drv.start_inference pcb now).1 = Except.ok false ∧
    (DriverOp.run drv pcb
      [DriverOp.start_inference now, DriverOp.load_model,
        DriverOp.infer prompt seq_cfg now_start now_end]).1.has_error
      (DriverOp.run drv pcb
        [DriverOp.start_inference now, DriverOp.load_model,
          DriverOp.infer prompt seq_cfg now_start now_end]).2 = Except.ok true ∧
    (DriverOp.run drv pcb
      [DriverOp.start_inference now, DriverOp.load_model,
        DriverOp.infer prompt seq_cfg now_start now_end]).1.get_error_code
      (DriverOp.run drv pcb
        [DriverOp.start_inference now, DriverOp.load_model,
          DriverOp.infer prompt seq_cfg now_start now_end]).2 = Except.ok 1 := by
  have hlt := peek32_lt pcb hstd REG_STATUS (by decide)
  have e1 := start_inference_eq_of_not_loaded drv pcb hatt hstd hnl now
  have s1 := standard_start_inference drv pcb hstd now
  have b1 := start_inference_error_bit drv pcb hatt hstd now
  rw [e1] at s1 b1
  simp only [hnl, Bool.false_eq_true, if_false] at s1 b1
  have c1 : ((pcb.poke32 REG_STATUS (pcb.peek32 REG_STATUS ||| STATUS_ERROR)).poke32
      REG_ERROR_CODE 1).peek32 REG_ERROR_CODE = 1 := by
    rw [peek32_poke32_same _ (standard_poke32 pcb hstd _ _) _ _ (by decide)]
  have hlt1 := peek32_lt _ s1 REG_STATUS (by decide)
  have e2 := load_model_eq_of_not_loaded drv _ hatt s1 hnl
  have s2 := standard_poke32 _ s1 REG_STATUS
    (((pcb.poke32 REG_STATUS (pcb.peek32 REG_STATUS ||| STATUS_ERROR)).poke32
      REG_ERROR_CODE 1).peek32 REG_STATUS ||| STATUS_MODEL_READY)
  have hatt2 : ({ drv with model_loaded_ := true } : LlamaCoprocessorDriver).pcb ≠
      PcbPtr.null := hatt
  have b2 : ((((pcb.poke32 REG_STATUS (pcb.peek32 REG_STATUS ||| STATUS_ERROR)).poke32
      REG_ERROR_CODE 1).poke32 REG_STATUS
      (((pcb.poke32 REG_STATUS (pcb.peek32 REG_STATUS ||| STATUS_ERROR)).poke32
        REG_ERROR_CODE 1).peek32 REG_STATUS ||| STATUS_MODEL_READY)).peek32
        REG_STATUS).testBit 3 = true := by
    rw [peek32_poke32_same _ s1 _ _ (by decide), or_uint32 _ _ hlt1 (by decide),
      testBit_set_model_ready, b1]
    rfl
  have c2 : (((pcb.poke32 REG_STATUS (pcb.peek32 REG_STATUS ||| STATUS_ERROR)).poke32
      REG_ERROR_CODE 1).poke32 REG_STATUS
      (((pcb.poke32 REG_STATUS (pcb.peek32 REG_STATUS ||| STATUS_ERROR)).poke32
        REG_ERROR_CODE 1).peek32 REG_STATUS ||| STATUS_MODEL_READY)).peek32
        REG_ERROR_CODE = 1 := by
    rw [peek32_poke32_ne _ s1 _ _ _ (by decide) (by decide) (by decide), c1]
  have hlt2 := peek32_lt _ s2 REG_STATUS (by decide)
  obtain ⟨r1, r2, _, _⟩ := request_status_registers _ _ hatt2 s2 rfl prompt seq_cfg
    now_start now_end
  have s3 := standard_infer { drv with model_loaded_ := true } _ s2 prompt seq_cfg
    now_start now_end
  have p3 := (request_pcb { drv with model_loaded_ := true }
    ((pcb.poke32 REG_STATUS (pcb.peek32 REG_STATUS ||| STATUS_ERROR)).poke32
      REG_ERROR_CODE 1 |>.poke32 REG_STATUS
      (((pcb.poke32 REG_STATUS (pcb.peek32 REG_STATUS ||| STATUS_ERROR)).poke32
        REG_ERROR_CODE 1).peek32 REG_STATUS ||| STATUS_MODEL_READY))
    prompt seq_cfg now now_start now_end).2.1
  have hatt3 := p3 ▸ hatt2
  refine ⟨by rw [e1], ?_, ?_⟩
  · simp only [DriverOp.run, DriverOp.apply, e1, e2]
    rw [has_error_eq _ _ hatt3 s3, r1, testBit_sticky_status _ hlt2, b2]
  · simp only [DriverOp.run, DriverOp.apply, e1, e2]
    unfold LlamaCoprocessorDriver.get_error_code
    rw [read_reg32_eq _ _ hatt3 s3 _ (by decide), r2, c2]

/-- The ERROR bit read through the drivers that a request leaves, in terms of
the STATUS register of the bus it started from. -/
theorem request_has_error (drv : LlamaCoprocessorDriver) (pcb : VirtualPCB)
    (hatt : drv.pcb ≠ PcbPtr.null) (hstd : pcb.Standard)
    (prompt : String) (seq_cfg : LlamaSequenceConfig) (now now_start now_end : Nat) :
    (drv.start_inference pcb now).2.1.has_error (drv.start_inference pcb now).2.2 =
      Except.ok (if drv.model_loaded_ then (pcb.peek32 REG_STATUS).testBit 3 else true) ∧
    (drv.infer pcb prompt seq_cfg now_start now_end).2.1.has_error
      (drv.infer pcb prompt seq_cfg now_start now_end).2.2 =
        Except.ok ((pcb.peek32 REG_STATUS).testBit 3) ∧
    (drv.infer_streaming pcb prompt seq_cfg now_start now_end).2.2.1.has_error
      (drv.infer_streaming pcb prompt seq_cfg now_start now_end).2.2.2 =
        Except.ok ((pcb.peek32 REG_STATUS).testBit 3) := by
  have hlt := peek32_lt pcb hstd REG_STATUS (by decide)
  obtain ⟨p1, p2, p3⟩ := request_pcb drv pcb prompt seq_cfg now now_start now_end
  refine ⟨?_, ?_, ?_⟩
  · rw [has_error_eq _ _ (p1 ▸ hatt) (standard_start_inference drv pcb hstd now),
      start_inference_error_bit drv pcb hatt hstd now]
  · rw [has_error_eq _ _ (p2 ▸ hatt) (standard_infer drv pcb hstd prompt seq_cfg now_start
      now_end)]
    cases hl : drv.model_loaded_ with
    | false =>
        have e : drv.infer pcb prompt seq_cfg now_start now_end =
            (Except.ok "[ERROR] Model not loaded. Call load_model() first.", drv, pcb) := by
          unfold LlamaCoprocessorDriver.infer
          simp [hl]
        rw [e]
    | true =>
        rw [(request_status_registers drv pcb hatt hstd hl prompt seq_cfg now_start now_end).1,
          testBit_sticky_status _ hlt]
  · rw [has_error_eq _ _ (p3 ▸ hatt) (standard_infer_streaming drv pcb hstd prompt seq_cfg
      now_start now_end)]
    cases hl : drv.model_loaded_ with
    | false =>
        have e : drv.infer_streaming pcb prompt seq_cfg now_start now_end =
            (Except.ok false, [], drv, pcb) := by
          unfold LlamaCoprocessorDriver.infer_streaming
          simp [hl]
        rw [e]
    | true =>
        rw [(request_status_registers drv pcb hatt hstd hl prompt seq_cfg now_start
          now_end).2.2.1, testBit_sticky_status _ hlt]

/-- C40: the ERROR status bit is sticky across requests. On an attached driver
over a standard bus, with `status` the STATUS register before the call:
`has_error()` after `start_inference` is the old value or-ed with "no model is
loaded", and after `infer` and after `infer_streaming` it is the old value, so
none of the three clears the bit. With a model loaded `infer` and
`infer_streaming` succeed, STATUS afterwards is `(status | IDLE | EOG)` with
BUSY cleared and the error code is unchanged. With no model loaded
`start_inference` fails, and after a following `load_model` and `infer` the
driver still reports an error, with error code 1. -/
theorem C40_error_bit_sticky (drv : LlamaCoprocessorDriver) (pcb : VirtualPCB)
    (hatt : drv.pcb ≠ PcbPtr.null) (hstd : pcb.Standard)
    (prompt : String) (seq_cfg : LlamaSequenceConfig) (now now_start now_end : Nat) :
    ∃ status, drv.read_status pcb = Except.ok status ∧
      drv.has_error pcb = Except.ok ((status &&& STATUS_ERROR) != 0) ∧
      (drv.start_inference pcb now).2.1.has_error (drv.start_inference pcb now).2.2 =
        Except.ok ((status &&& STATUS_ERROR) != 0 || !drv.model_loaded_) ∧
      (drv.infer pcb prompt seq_cfg now_start now_end).2.1.has_error
        (drv.infer pcb prompt seq_cfg now_start now_end).2.2 = drv.has_error pcb ∧
      (drv.infer_streaming pcb prompt seq_cfg now_start now_end).2.2.1.has_error
        (drv.infer_streaming pcb prompt seq_cfg now_start now_end).2.2.2 =
          drv.has_error pcb ∧
      (drv.model_loaded_ = true →
        (drv.infer pcb prompt seq_cfg now_start now_end).1 =
          Except.ok (infer_text drv.model_config_ prompt seq_cfg) ∧
        (drv.infer pcb prompt seq_cfg now_start now_end).2.1.read_status
          (drv.infer pcb prompt seq_cfg now_start now_end).2.2 =
            Except.ok ((status ||| STATUS_IDLE ||| STATUS_EOG) &&&
              (4294967295 - STATUS_BUSY)) ∧
        (drv.infer pcb prompt seq_cfg now_start now_end).2.1.get_error_code
          (drv.infer pcb prompt seq_cfg now_start now_end).2.2 = drv.get_error_code pcb ∧
        (drv.infer_streaming pcb prompt seq_cfg now_start now_end).1 = Except.ok true ∧
        (drv.infer_streaming pcb prompt seq_cfg now_start now_end).2.2.1.read_status
          (drv.infer_streaming pcb prompt seq_cfg now_start now_end).2.2.2 =
            Except.ok ((status ||| STATUS_IDLE ||| STATUS_EOG) &&&
              (4294967295 - STATUS_BUSY)) ∧
        (drv.infer_streaming pcb prompt seq_cfg now_start now_end).2.2.1.get_error_code
          (drv.infer_streaming pcb prompt seq_cfg now_start now_end).2.2.2 =
            drv.get_error_code pcb) ∧
      (drv.model_loaded_ = false →
        (drv.start_inference pcb now).1 = Except.ok false ∧
        (DriverOp.run drv pcb
          [DriverOp.start_inference now, DriverOp.load_model,
            DriverOp.infer prompt seq_cfg now_start now_end]).1.has_error
          (DriverOp.run drv pcb
            [DriverOp.start_inference now, DriverOp.load_model,
              DriverOp.infer prompt seq_cfg now_start now_end]).2 = Except.ok true ∧
        (DriverOp.run drv pcb
          [DriverOp.start_inference now, DriverOp.load_model,
            DriverOp.infer prompt seq_cfg now_start now_end]).1.get_error_code
          (DriverOp.run drv pcb
            [DriverOp.start_inference now, DriverOp.load_model,
              DriverOp.infer prompt seq_cfg now_start now_end]).2 = Except.ok 1) := by
  obtain ⟨p1, p2, p3⟩ := request_pcb drv pcb prompt seq_cfg now now_start now_end
  obtain ⟨h1, h2, h3⟩ := request_has_error drv pcb hatt hstd prompt seq_cfg now now_start
    now_end
  have hb : ((pcb.peek32 REG_STATUS &&& STATUS_ERROR) != 0) =
      (pcb.peek32 REG_STATUS).testBit 3 := and_two_pow_ne_zero (pcb.peek32 REG_STATUS) 3
  have he := has_error_eq drv pcb hatt hstd
  refine ⟨pcb.peek32 REG_STATUS, ?_, ?_, ?_, ?_, ?_, ?_, ?_⟩
  · unfold LlamaCoprocessorDriver.read_status
    rw [read_reg32_eq drv pcb hatt hstd REG_STATUS (by decide)]
  · rw [he, hb]
  · rw [h1, hb]
    cases drv.model_loaded_ <;> simp
  · rw [h2, he]
  · rw [h3, he]
  · intro hl
    obtain ⟨r1, r2, r3, r4⟩ := request_status_registers drv pcb hatt hstd hl prompt seq_cfg
      now_start now_end
    have si := standard_infer drv pcb hstd prompt seq_cfg now_start now_end
    have ss := standard_infer_streaming drv pcb hstd prompt seq_cfg now_start now_end
    refine ⟨?_, ?_, ?_, ?_, ?_, ?_⟩
    · rw [infer_eq_of_loaded drv pcb hatt hstd hl]
    · unfold LlamaCoprocessorDriver.read_status
      rw [read_reg32_eq _ _ (p2 ▸ hatt) si REG_STATUS (by decide), r1]
    · unfold LlamaCoprocessorDriver.get_error_code
      rw [read_reg32_eq _ _ (p2 ▸ hatt) si REG_ERROR_CODE (by decide), r2,
        read_reg32_eq drv pcb hatt hstd REG_ERROR_CODE (by decide)]
    · rw [infer_streaming_eq_of_loaded drv pcb hatt hstd hl]
    · unfold LlamaCoprocessorDriver.read_status
      rw [read_reg32_eq _ _ (p3 ▸ hatt) ss REG_STATUS (by decide), r3]
    · unfold LlamaCoprocessorDriver.get_error_code
      rw [read_reg32_eq _ _ (p3 ▸ hatt) ss REG_ERROR_CODE (by decide), r4,
        read_reg32_eq drv pcb hatt hstd REG_ERROR_CODE (by decide)]
  · intro hnl
    exact error_survives_infer drv pcb hatt hstd hnl prompt seq_cfg now now_start now_end

theorem C40_error_bit_sticky_witness :
    attached_driver.pcb ≠ PcbPtr.null ∧ VirtualPCB.ctor.Standard ∧
      attached_driver.model_loaded_ = false ∧
      (attached_driver.start_inference VirtualPCB.ctor 0).1 = Except.ok false ∧
      (DriverOp.run attached_driver VirtualPCB.ctor
        [DriverOp.start_inference 0, DriverOp.load_model,
          DriverOp.infer "hello" LlamaSequenceConfig.ctor 0 0]).1.has_error
        (DriverOp.run attached_driver VirtualPCB.ctor
          [DriverOp.start_inference 0, DriverOp.load_model,
            DriverOp.infer "hello" LlamaSequenceConfig.ctor 0 0]).2 = Except.ok true ∧
      (DriverOp.run attached_driver VirtualPCB.ctor
        [DriverOp.start_inference 0, DriverOp.load_model,
          DriverOp.infer "hello" LlamaSequenceConfig.ctor 0 0]).1.get_error_code
        (DriverOp.run attached_driver VirtualPCB.ctor
          [DriverOp.start_inference 0, DriverOp.load_model,
            DriverOp.infer "hello" LlamaSequenceConfig.ctor 0 0]).2 = Except.ok 1 ∧
      loaded_driver.pcb ≠ PcbPtr.null ∧ loaded_bus.Standard ∧
      loaded_driver.model_loaded_ = true ∧
      (loaded_driver.infer loaded_bus "hello" LlamaSequenceConfig.ctor 0 0).1 =
        Except.ok (infer_text loaded_driver.model_config_ "hello" LlamaSequenceConfig.ctor) ∧
      (loaded_driver.infer loaded_bus "hello" LlamaSequenceConfig.ctor 0 0).2.1.has_error
        (loaded_driver.infer loaded_bus "hello" LlamaSequenceConfig.ctor 0 0).2.2 =
          loaded_driver.has_error loaded_bus :=
  match C40_error_bit_sticky attached_driver VirtualPCB.ctor (by decide) standard_ctor
      "hello" LlamaSequenceConfig.ctor 0 0 0,
    C40_error_bit_sticky loaded_driver loaded_bus (by decide) standard_loaded_bus
      "hello" LlamaSequenceConfig.ctor 0 0 0 with
  | ⟨_, h⟩, ⟨_, g⟩ =>
    ⟨by decide, standard_ctor, rfl, (h.2.2.2.2.2.2 rfl).1, (h.2.2.2.2.2.2 rfl).2.1,
      (h.2.2.2.2.2.2 rfl).2.2, by decide, standard_loaded_bus, rfl,
      (g.2.2.2.2.2.1 rfl).1, g.2.2.2.1⟩

end ggnucash.vdev
